import Mathlib

/-!
# oci-help: the instance acquisition engine

A shallow embedding of `LaunchInstances` and `getInstancePublicIps` (src/oci.go),
of the plan type `Instance` (src/config.go) and of the provider, notifier and
runtime they talk to, followed by theorems about the specification's claims.

Conventions of the embedding:

* Go `int32` values are `Int`s; every `int32` operation that can leave the range
  is followed by `wrap32`.
* A Go panic (nil dereference, index out of range) is `Except.error` of a `Fault`.
* The `for pos < sum` loop is iterated with fuel: `Except.ok none` means the fuel ran
  out, `Except.ok (some s)` that the loop condition became false in state `s`.
* The provider, the notifier and the iteration order of a Go map are parameters
  (`Provider`): the theorems quantify over them.
-/

namespace OciHelp

/-! ## Machine integers and faults -/

/-- Two's-complement reduction of an integer to Go's `int32`. -/
def wrap32 (x : Int) : Int := (x + 2147483648) % 4294967296 - 2147483648

/-- The values an `int32` can hold. -/
def inInt32 (x : Int) : Prop := -2147483648 ≤ x ∧ x ≤ 2147483647

instance (x : Int) : Decidable (inInt32 x) := by unfold inInt32; infer_instance

/-- A Go run-time panic. -/
inductive Fault
  | nilDereference
  | indexOutOfRange
  | invalidArgument
  deriving DecidableEq, Repr

/-- Go slice indexing `xs[i]` with an `int32` index: panics outside `0 ≤ i < len xs`. -/
def sliceAt {α : Type} (xs : List α) (i : Int) : Except Fault α :=
  if i < 0 then .error .indexOutOfRange
  else match xs[i.toNat]? with
    | some x => .ok x
    | none => .error .indexOutOfRange

/-! ## Data model -/

/-- The SDK type `identity.AvailabilityDomain`; only `Name` is read. -/
structure AvailabilityDomain where
  Name : String
  deriving DecidableEq, Repr

/-- The plan: `type Instance struct` of src/config.go (the fields `LaunchInstances`
branches on; `Flex` stands for the test
`strings.Contains(strings.ToLower(instance.Shape), "flex") && instance.Ocpus > 0 && instance.MemoryInGBs > 0`). -/
structure Instance where
  AvailabilityDomain : String
  OperatingSystem : String
  OperatingSystemVersion : String
  InstanceDisplayName : String
  Flex : Bool
  Sum : Int
  Each : Int
  Retry : Int
  MinTime : Int
  MaxTime : Int
  deriving DecidableEq, Repr

/-- The SDK type `core.Instance` as returned by a successful create call. -/
structure CoreInstance where
  Id : String
  DisplayName : String
  AvailabilityDomain : String
  deriving DecidableEq, Repr

/-- The SDK interface `common.ServiceError`: HTTP status, machine code, message. -/
structure ServiceError where
  status : Int
  code : String
  message : String
  deriving DecidableEq, Repr

/-- The `error` returned by a failed create call: either a provider service error or
anything else (a network timeout, a cancelled context, ...), carrying `err.Error()`. -/
inductive LaunchError
  | service (e : ServiceError)
  | other (text : String)
  deriving DecidableEq, Repr

/-- The SDK enum `core.InstanceLifecycleStateEnum`; `unset` is the zero value `""`. -/
inductive LifecycleState
  | unset | Moving | Provisioning | Running | Starting | Stopping | Stopped
  | CreatingImage | Terminating | Terminated
  deriving DecidableEq, Repr

/-- The texts `LaunchInstances` hands to the notifier, by format string
(region, shape and elapsed time left out). -/
inductive Text
  /-- Format "正在尝试创建第 n 个实例...⏳ ... 创建个数: sum". -/
  | trying (n sum : Int)
  /-- Format "第 n 个实例抢到了🎉, 正在启动中请稍等...⌛️". -/
  | grabbed (n : Int) (inst : CoreInstance) (runTimes : Int)
  /-- Format "第 n 个实例抢到了🎉, 但是启动失败❌实例已被终止😔". -/
  | startFailed (n : Int) (inst : CoreInstance) (runTimes : Int)
  /-- Format "第 n 个实例抢到了🎉, 启动成功✅ ... 公共IP: ips". -/
  | started (n : Int) (inst : CoreInstance) (ips : String) (runTimes : Int)
  /-- Format "第 n 个实例创建失败了❌ 错误信息: errInfo ... 可用性域: ad". -/
  | createFailed (n : Int) (errInfo : String) (ad : String) (runTimes : Int)
  deriving DecidableEq, Repr

/-- The observable effects of a run, in the order they happen. -/
inductive Event
  /-- The call `computeClient.LaunchInstance(ctx, request)` for target `pos` with the
  request's `AvailabilityDomain` and `DisplayName`; `ok` tells whether it returned
  `err == nil`. -/
  | launch (pos : Int) (zone : String) (displayName : String) (ok : Bool)
  /-- The call `sendMessage("", text)`. -/
  | send (text : Text)
  /-- The call `editMessage(messageId, "", text)`. -/
  | edit (messageId : Int) (text : Text)
  /-- The call `getInstancePublicIps(id)`. -/
  | waitReady (id : String)
  /-- The call `sleepRandomSecond(min, max)`. -/
  | sleep (min max : Int)
  deriving DecidableEq, Repr

/-- Everything outside the program. `LaunchInstance calls zone displayName` answers the
create call number `calls` (0-based, counted over the run); `timeName` is
`time.Now().Format("instance-20060102-1504")`; `getInstance id i` and
`ListVnicAttachments id i` answer the calls made in poll iteration `i` of the waiter for
instance `id`; `sendMessage calls text` is the notifier (message id or error);
`mapOrder calls m` is the order in which Go's `range` visits the entries of the map `m`. -/
structure Provider where
  timeName : String
  ListImages : Except String (List String)
  getShape : Except String Unit
  CreateOrGetNetworkInfrastructure : Except String Unit
  LaunchInstance : Nat → String → String → Except LaunchError CoreInstance
  getInstance : String → Nat → Except String LifecycleState
  ListVnicAttachments : String → Nat → Except String (List String)
  GetVnic : String → Except String (Option String)
  sendMessage : Nat → Text → Except String Int
  mapOrder : Nat → List (Int × Bool) → List (Int × Bool)

/-! ## The attempt classifier (src/oci.go, lines 476-477) -/

/-- The SDK function `common.IsServiceError`: the type assertion `err.(ServiceError)`,
which yields the nil interface and `false` for any other error. -/
def IsServiceError : LaunchError → Option ServiceError × Bool
  | .service e => (some e, true)
  | .other _ => (none, false)

/-- The method call `servErr.GetHTTPStatusCode()`; on the nil interface it panics. -/
def GetHTTPStatusCode : Option ServiceError → Except Fault Int
  | some e => .ok e.status
  | none => .error .nilDereference

/-- The method call `servErr.GetCode()`. -/
def GetCode : Option ServiceError → Except Fault String
  | some e => .ok e.code
  | none => .error .nilDereference

/-- The method call `servErr.GetMessage()`. -/
def GetMessage : Option ServiceError → Except Fault String
  | some e => .ok e.message
  | none => .error .nilDereference

/-- The representative of the `unicode.SimpleFold` orbit of a character, for the orbits
that contain an ASCII character: `A`-`Z` go to `a`-`z`, and so do the two characters
outside ASCII that fold to an ASCII letter, U+212A (Kelvin sign, with `K` and `k`) and
U+017F (long s, with `S` and `s`). Any other character is left as it is. -/
def foldClass (c : Char) : Char :=
  if c = Char.ofNat 0x212A then 'k'
  else if c = Char.ofNat 0x17F then 's'
  else c.toLower

/-- Go's `strings.EqualFold(s, t)`, equality of the two sequences of characters under
Unicode simple case folding, for the case that `t` is made of ASCII characters (in the
program `t` is the literal "IncorrectState"): the strings have the same number of
characters and each character of `s` lies in the `SimpleFold` orbit of the character of
`t` at its position. -/
def EqualFold (s t : String) : Bool := s.data.map foldClass == t.data.map foldClass

/-- Go's short-circuit `a && b`: `b` is evaluated only when `a` is true. -/
def andAlso (a b : Except Fault Bool) : Except Fault Bool :=
  match a with
  | .error f => .error f
  | .ok false => .ok false
  | .ok true => b

/-- Go's short-circuit `a || b`: `b` is evaluated only when `a` is false. -/
def orElse (a b : Except Fault Bool) : Except Fault Bool :=
  match a with
  | .error f => .error f
  | .ok true => .ok true
  | .ok false => b

/-- The comparison `servErr.GetHTTPStatusCode() == n`. -/
def statusIs (servErr : Option ServiceError) (n : Int) : Except Fault Bool :=
  match GetHTTPStatusCode servErr with
  | .error f => .error f
  | .ok s => .ok (decide (s = n))

/-- The condition of the `if` at line 477. In Go `&&` binds tighter than `||`, so it reads
`(isServErr && (400 <= s && s <= 405)) || (s == 409 && !EqualFold(code, "IncorrectState"))
 || s == 412 || s == 413 || s == 422 || s == 431 || s == 501`, evaluated left to right. -/
def skipRetryCondition (servErr : Option ServiceError) (isServErr : Bool) : Except Fault Bool :=
  orElse (orElse (orElse (orElse (orElse (orElse
    (andAlso (.ok isServErr)
      (andAlso
        (match GetHTTPStatusCode servErr with
          | .error f => .error f
          | .ok s => .ok (decide (400 ≤ s)))
        (match GetHTTPStatusCode servErr with
          | .error f => .error f
          | .ok s => .ok (decide (s ≤ 405)))))
    (andAlso (statusIs servErr 409)
      (match GetCode servErr with
        | .error f => .error f
        | .ok c => .ok (!EqualFold c "IncorrectState"))))
    (statusIs servErr 412))
    (statusIs servErr 413))
    (statusIs servErr 422))
    (statusIs servErr 431))
    (statusIs servErr 501)

/-- Lines 476-477 for a failed create call: `Except.ok true` is the zone-terminal branch
(`SKIP_RETRY = true`), `Except.ok false` the retryable branch. -/
def classify (err : LaunchError) : Except Fault Bool :=
  skipRetryCondition (IsServiceError err).1 (IsServiceError err).2

/-! ## The readiness waiter (src/oci.go, `getInstancePublicIps`) -/

/-- What `getInstancePublicIps` returns (`ips`, `err`), with the numbers of loop
iterations started, of `getInstance` calls, of `ListVnicAttachments` calls and of
3-second sleeps it made. -/
structure WaitResult where
  ips : List String
  err : Option String
  polls : Nat
  fetches : Nat
  listings : Nat
  sleeps : Nat
  deriving DecidableEq, Repr

/-- The inner `for _, vnicAttachment := range vnicAttachments` loop: a failed `GetVnic`
is skipped, a non-nil non-empty `PublicIp` is appended to `ips`. -/
def collectIps (p : Provider) : List String → List String → List String
  | [], ips => ips
  | v :: vs, ips =>
    match p.GetVnic v with
    | .error _ => collectIps p vs ips
    | .ok none => collectIps p vs ips
    | .ok (some ip) => if ip ≠ "" then collectIps p vs (ips ++ [ip]) else collectIps p vs ips

/-- The outcome of one poll iteration: the function returns (`done`), or the loop goes on
to the next iteration (`next`, after `continue` or after the 3-second sleep). -/
inductive PollStep
  | done (w : WaitResult)
  | next (ins : LifecycleState) (w : WaitResult)
  deriving DecidableEq, Repr

/-- The second half of a poll iteration: `ListVnicAttachments`, then either `continue`
(error), `return` (some attachment, after collecting the addresses) or the sleep. -/
def listVnics (p : Provider) (id : String) (i : Nat) (ins : LifecycleState)
    (w : WaitResult) : PollStep :=
  match p.ListVnicAttachments id i with
  | .error e => .next ins { w with err := some e, listings := w.listings + 1 }
  | .ok vnics =>
    let w := { w with err := none, listings := w.listings + 1 }
    if vnics.length > 0 then .done { w with ips := collectIps p vnics w.ips }
    else .next ins { w with sleeps := w.sleeps + 1 }

/-- Iteration `i` of the loop of `getInstancePublicIps`; `ins` is `ins.LifecycleState`,
`w` carries `ips`, `err` and the counters. A failed `getInstance` leaves the zero
`core.Instance` in `ins`. -/
def pollOnce (p : Provider) (id : String) (i : Nat) (ins : LifecycleState)
    (w : WaitResult) : PollStep :=
  let w := { w with polls := w.polls + 1 }
  if ins ≠ .Running then
    match p.getInstance id i with
    | .error e => .next .unset { w with err := some e, fetches := w.fetches + 1 }
    | .ok st =>
      let w := { w with err := none, fetches := w.fetches + 1 }
      if st = .Terminating ∨ st = .Terminated then .done { w with err := some "实例已终止😔" }
      else listVnics p id i st w
  else listVnics p id i ins w

/-- The loop `for i := 0; i < 100; i++` of `getInstancePublicIps` with `n` iterations
left, about to run iteration `i`. -/
def pollFrom (p : Provider) (id : String) :
    Nat → Nat → LifecycleState → WaitResult → WaitResult
  | 0, _, _, w => w
  | n + 1, i, ins, w =>
    match pollOnce p id i ins w with
    | .done w => w
    | .next ins w => pollFrom p id n (i + 1) ins w

/-- The function `getInstancePublicIps(instanceId)`. -/
def getInstancePublicIps (p : Provider) (id : String) : WaitResult :=
  pollFrom p id 100 0 .unset
    { ips := [], err := none, polls := 0, fetches := 0, listings := 0, sleeps := 0 }

/-! ## The acquisition engine (src/oci.go, `LaunchInstances`) -/

/-- The locals of `LaunchInstances` that the loop does not change. -/
structure Ctx where
  ads : List AvailabilityDomain
  each : Int
  sum : Int
  retry : Int
  AD_NOT_FIXED : Bool
  EACH_AD : Bool
  EACH : Bool
  name : String
  minTime : Int
  maxTime : Int
  deriving DecidableEq, Repr

/-- The locals of `LaunchInstances` that the loop changes, with the call counter
`calls` (create calls issued so far) and the effects `log` of the run so far. -/
structure LoopState where
  adName : String
  usableAds : List AvailabilityDomain
  adCount : Int
  SKIP_RETRY_MAP : List (Int × Bool)
  failTimes : Int
  runTimes : Int
  adIndex : Int
  pos : Int
  num : Int
  SUCCESS : Bool
  displayName : String
  calls : Nat
  log : List Event
  deriving DecidableEq, Repr

/-- The map assignment `SKIP_RETRY_MAP[k] = v`. -/
def mapSet (m : List (Int × Bool)) (k : Int) (v : Bool) : List (Int × Bool) :=
  m.filter (fun e => e.1 ≠ k) ++ [(k, v)]

/-- Lines 418-434: the choice of the zone for the next create call. -/
def selectZone (c : Ctx) (s : LoopState) : Except Fault LoopState :=
  if c.AD_NOT_FIXED then
    if c.EACH_AD then
      if Int.tmod s.pos c.each = 0 ∧ s.failTimes = 0 then
        match sliceAt c.ads s.adIndex with
        | .error f => .error f
        | .ok ad => .ok { s with adName := ad.Name, adIndex := wrap32 (s.adIndex + 1) }
      else .ok s
    else
      let adIndex := if s.SUCCESS then 0 else s.adIndex
      let adIndex := if adIndex ≥ s.adCount then 0 else adIndex
      match sliceAt s.usableAds adIndex with
      | .error f => .error f
      | .ok ad => .ok { s with adName := ad.Name, adIndex := wrap32 (adIndex + 1) }
  else .ok s

/-- Lines 537-550: the code after the `if err == nil ... else ...`, reached when the
current target is left (after a success, or when a failed target is given up). -/
def advance (c : Ctx) (s : LoopState) : LoopState :=
  let pos := wrap32 (s.pos + 1)
  { s with
    usableAds := c.ads
    adCount := wrap32 c.ads.length
    SKIP_RETRY_MAP := []
    failTimes := 0
    runTimes := 0
    pos := pos
    log := if pos < c.sum ∧ c.EACH then s.log ++ [Event.send (Text.trying (wrap32 (pos + 1)) c.sum)]
           else s.log }

/-- Lines 441-471: the branch `err == nil` (the state already holds the selected zone,
the incremented `runTimes` and the logged create call). -/
def onSuccess (c : Ctx) (p : Provider) (s : LoopState) (inst : CoreInstance) : LoopState :=
  let num := wrap32 (s.num + 1)
  let n := wrap32 (s.pos + 1)
  let msg : Option (Except String Int) :=
    if c.EACH then some (p.sendMessage s.calls (Text.grabbed n inst s.runTimes)) else none
  let log := if c.EACH then s.log ++ [Event.send (Text.grabbed n inst s.runTimes)] else s.log
  let w := getInstancePublicIps p inst.Id
  let log := log ++ [Event.waitReady inst.Id]
  let text : Text :=
    match w.err with
    | some _ => .startFailed n inst s.runTimes
    | none => .started n inst (String.intercalate "," w.ips) s.runTimes
  let log :=
    match msg with
    | none => log
    | some (.error _) => log ++ [Event.send text]
    | some (.ok messageId) => log ++ [Event.edit messageId text]
  let log := log ++ [Event.sleep c.minTime c.maxTime]
  { s with
    SUCCESS := true
    num := num
    displayName := c.name ++ "-" ++ toString n
    log := log }

/-- Lines 508-512: `for index, skip := range SKIP_RETRY_MAP`, appending
`usableAds[index]` to `usableAdsTemp` for the entries that are not skipped. -/
def rebuildUsable (usableAds : List AvailabilityDomain) :
    List (Int × Bool) → List AvailabilityDomain → Except Fault (List AvailabilityDomain)
  | [], temp => .ok temp
  | (index, skip) :: rest, temp =>
    if !skip then
      match sliceAt usableAds index with
      | .error f => .error f
      | .ok ad => rebuildUsable usableAds rest (temp ++ [ad])
    else rebuildUsable usableAds rest temp

/-- The text `errInfo` of a failed create call: `err.Error()`, replaced by
`servErr.GetMessage()` when `isServErr` holds (lines 474, 478-480, 492-494). -/
def errInfoOf : LaunchError → String
  | .service e => e.message
  | .other text => text

/-- Lines 473-501 after the classification: `SUCCESS = false`, the failure notification
of the zone-terminal branch, the entry `SKIP_RETRY_MAP[adIndex-1] = SKIP_RETRY` in
round-robin mode, and the sleep. -/
def recordFailure (c : Ctx) (s : LoopState) (SKIP_RETRY : Bool) (errInfo : String) :
    LoopState :=
  { s with
    SUCCESS := false
    SKIP_RETRY_MAP :=
      if c.AD_NOT_FIXED ∧ ¬ c.EACH_AD then
        mapSet s.SKIP_RETRY_MAP (wrap32 (s.adIndex - 1)) SKIP_RETRY
      else s.SKIP_RETRY_MAP
    log :=
      (if SKIP_RETRY ∧ c.EACH then
        s.log ++ [Event.send (Text.createFailed (wrap32 (s.pos + 1)) errInfo s.adName s.runTimes)]
       else s.log) ++ [Event.sleep c.minTime c.maxTime] }

/-- Lines 507-523: the end of a round-robin cycle (`adIndex >= adCount`): `failTimes++`,
the usable zones are rebuilt from the entries that are not skipped, the map is cleared;
then `continue` if the budget allows and a zone is left, else `adIndex = 0` and the
target is given up. -/
def endCycle (c : Ctx) (p : Provider) (s : LoopState) : Except Fault LoopState :=
  match rebuildUsable s.usableAds (p.mapOrder s.calls s.SKIP_RETRY_MAP) [] with
  | .error f => .error f
  | .ok usableAds =>
    let t := { s with
      failTimes := wrap32 (s.failTimes + 1)
      usableAds := usableAds
      adCount := wrap32 usableAds.length
      SKIP_RETRY_MAP := [] }
    if (c.retry < 0 ∨ t.failTimes ≤ c.retry) ∧ t.adCount > 0 then .ok t
    else .ok (advance c { t with adIndex := 0 })

/-- Lines 525-528 and 531-534 (quota-per-zone and fixed-zone modes): `failTimes++`, then
`continue` if the budget allows and the error was not zone-terminal, else the target is
given up. -/
def countFailure (c : Ctx) (s : LoopState) (SKIP_RETRY : Bool) : LoopState :=
  let t := { s with failTimes := wrap32 (s.failTimes + 1) }
  if (c.retry < 0 ∨ t.failTimes ≤ c.retry) ∧ ¬ SKIP_RETRY then t else advance c t

/-- Lines 502-536: what follows the sleep after a failed create call. -/
def afterFailure (c : Ctx) (p : Provider) (s : LoopState) (SKIP_RETRY : Bool) :
    Except Fault LoopState :=
  if c.AD_NOT_FIXED then
    if ¬ c.EACH_AD then
      if s.adIndex < s.adCount then .ok s else endCycle c p s
    else .ok (countFailure c s SKIP_RETRY)
  else .ok (countFailure c s SKIP_RETRY)

/-- Lines 473-536: the branch `err != nil`. The result is the state at the next
evaluation of the loop condition: after a `continue`, or after the code at the end of the
loop body (`advance`). -/
def onFailure (c : Ctx) (p : Provider) (s : LoopState) (err : LaunchError) :
    Except Fault LoopState :=
  match classify err with
  | .error f => .error f
  | .ok SKIP_RETRY => afterFailure c p (recordFailure c s SKIP_RETRY (errInfoOf err)) SKIP_RETRY

/-- Lines 435-439: `runTimes++` and the create call, whose outcome `ok` is logged. -/
def called (s : LoopState) (ok : Bool) : LoopState :=
  { s with
    runTimes := wrap32 (s.runTimes + 1)
    calls := s.calls + 1
    log := s.log ++ [Event.launch s.pos s.adName s.displayName ok] }

/-- One pass through the body of `for pos < sum` (lines 418-551). -/
def iteration (c : Ctx) (p : Provider) (s : LoopState) : Except Fault LoopState :=
  match selectZone c s with
  | .error f => .error f
  | .ok s =>
    match p.LaunchInstance s.calls s.adName s.displayName with
    | .ok inst => .ok (advance c (onSuccess c p (called s true) inst))
    | .error err => onFailure c p (called s false) err

/-- The state after at most `n` passes of the loop (fewer when the loop condition
becomes false earlier). -/
def runFor (c : Ctx) (p : Provider) : Nat → LoopState → Except Fault LoopState
  | 0, s => .ok s
  | n + 1, s =>
    if s.pos < c.sum then
      match iteration c p s with
      | .error f => .error f
      | .ok s => runFor c p n s
    else .ok s

/-- The loop `for pos < sum` with `fuel` passes available: `Except.ok (some s)` when the
condition is false in state `s`, `Except.ok none` when the fuel is used up first,
`Except.error` when a pass panics. -/
def loop (c : Ctx) (p : Provider) : Nat → LoopState → Except Fault (Option LoopState)
  | fuel, s =>
    if s.pos < c.sum then
      match fuel with
      | 0 => .ok none
      | fuel + 1 =>
        match iteration c p s with
        | .error f => .error f
        | .ok s => loop c p fuel s
    else .ok (some s)

/-- The function `listImages` as far as its configuration check goes. -/
def listImages (inst : Instance) (p : Provider) : Except String (List String) :=
  if inst.OperatingSystem = "" ∨ inst.OperatingSystemVersion = "" then
    .error "操作系统类型和版本不能为空, 请检查配置文件"
  else p.ListImages

/-- The function `GetImage`: the first listed image, or an error. -/
def GetImage (inst : Instance) (p : Provider) : Except String String :=
  match listImages inst p with
  | .error e => .error e
  | .ok [] => .error "未找到镜像"
  | .ok (image :: _) => .ok image

/-- What a call of `LaunchInstances` returns (`sum`, `num`), with the number of create
calls it issued and its effects in order. -/
structure RunResult where
  sum : Int
  num : Int
  calls : Nat
  log : List Event
  deriving DecidableEq, Repr

/-- Lines 311-327 and 328-335: the locals fixed before the loop. -/
def initCtx (inst : Instance) (EACH : Bool) (p : Provider) (ads : List AvailabilityDomain) :
    Ctx :=
  let adCount := wrap32 ads.length
  let AD_NOT_FIXED := decide (inst.AvailabilityDomain = "")
  let EACH_AD := AD_NOT_FIXED && decide (inst.Each > 0)
  { ads := ads
    each := inst.Each
    sum := if EACH_AD then wrap32 (inst.Each * adCount) else inst.Sum
    retry := inst.Retry
    AD_NOT_FIXED := AD_NOT_FIXED
    EACH_AD := EACH_AD
    EACH := EACH
    name := if inst.InstanceDisplayName = "" then p.timeName else inst.InstanceDisplayName
    minTime := inst.MinTime
    maxTime := inst.MaxTime }

/-- The values of the changing locals when the loop is entered (lines 311-335, 394-416). -/
def initState (inst : Instance) (c : Ctx) : LoopState :=
  { adName := inst.AvailabilityDomain
    usableAds := if c.AD_NOT_FIXED ∧ ¬ c.EACH_AD then c.ads else []
    adCount := wrap32 c.ads.length
    SKIP_RETRY_MAP := []
    failTimes := 0
    runTimes := 0
    adIndex := 0
    pos := 0
    num := 0
    SUCCESS := false
    displayName := if c.sum > 1 then c.name ++ "-1" else c.name
    calls := 0
    log := if c.EACH then [Event.send (Text.trying 1 c.sum)] else [] }

/-- The function `LaunchInstances(ads)` for the plan `inst` (the global `instance`) and the
global `EACH`, with `fuel` passes of the loop available: `Except.ok none` when the fuel is
used up before the loop ends. -/
def LaunchInstances (inst : Instance) (EACH : Bool) (p : Provider)
    (ads : List AvailabilityDomain) (fuel : Nat) : Except Fault (Option RunResult) :=
  let c := initCtx inst EACH p ads
  let early : RunResult := { sum := c.sum, num := 0, calls := 0, log := [] }
  match GetImage inst p with
  | .error _ => .ok (some early)
  | .ok _ =>
    match (if inst.Flex then Except.ok () else p.getShape) with
    | .error _ => .ok (some early)
    | .ok _ =>
      match p.CreateOrGetNetworkInfrastructure with
      | .error _ => .ok (some early)
      | .ok _ =>
        match loop c p fuel (initState inst c) with
        | .error f => .error f
        | .ok none => .ok none
        | .ok (some s) => .ok (some { sum := c.sum, num := s.num, calls := s.calls, log := s.log })

/-! ## Observations on a run -/

/-- The create calls recorded in a log, in order: target index, zone, display name and
whether the call succeeded. -/
def launches : List Event → List (Int × String × String × Bool)
  | [] => []
  | Event.launch pos zone displayName ok :: es => (pos, zone, displayName, ok) :: launches es
  | Event.send _ :: es => launches es
  | Event.edit _ _ :: es => launches es
  | Event.waitReady _ :: es => launches es
  | Event.sleep _ _ :: es => launches es

/-- The counters stay ordered: `0 ≤ num ≤ pos`, and `pos ≤ sum` once a pass has run. -/
def CountersOk (c : Ctx) (s : LoopState) : Prop :=
  0 ≤ s.num ∧ s.num ≤ s.pos ∧ (s.pos ≤ c.sum ∨ s.pos = 0)

/-- In fixed-zone mode the zone variable and every logged create call carry zone `z`. -/
def AllInZone (z : String) (s : LoopState) : Prop :=
  s.adName = z ∧ ∀ e ∈ launches s.log, e.2.1 = z

/-! ## Concrete inputs used by the witnesses and counterexamples -/

/-- A provider on which everything succeeds at once: every create call returns an
instance in the requested zone, the instance is running with one public address. -/
def demoProvider : Provider :=
  { timeName := "instance-20240101-0000"
    ListImages := .ok ["image"]
    getShape := .ok ()
    CreateOrGetNetworkInfrastructure := .ok ()
    LaunchInstance := fun _ zone displayName =>
      .ok { Id := "ocid1.instance", DisplayName := displayName, AvailabilityDomain := zone }
    getInstance := fun _ _ => .ok .Running
    ListVnicAttachments := fun _ _ => .ok ["vnic"]
    GetVnic := fun _ => .ok (some "192.0.2.1")
    sendMessage := fun _ _ => .ok 1
    mapOrder := fun _ m => m }

/-- The provider `demoProvider` with every create call failing with the service error
`err`. -/
def failingProvider (err : ServiceError) : Provider :=
  { demoProvider with LaunchInstance := fun _ _ _ => .error (.service err) }

/-- The provider `demoProvider` with an instance whose state can never be fetched, so that
the waiter runs out of polls. -/
def unreadyProvider : Provider :=
  { demoProvider with getInstance := fun _ _ => .error "timeout" }

/-- The provider `demoProvider` with every create call failing with a network timeout,
an error that is not a provider service error. -/
def timeoutProvider : Provider :=
  { demoProvider with
    LaunchInstance := fun _ _ _ => Except.error (LaunchError.other "net/http: timeout") }

/-- A service error the classifier treats as retryable (HTTP 500). -/
def err500 : ServiceError := ⟨500, "InternalError", "Out of host capacity."⟩

/-- A service error the classifier treats as zone-terminal (HTTP 400). -/
def err400 : ServiceError := ⟨400, "LimitExceeded", "Service limit exceeded."⟩

/-- A plan with a fixed zone, two targets and a retry budget of 2. -/
def demoPlan : Instance :=
  { AvailabilityDomain := "AD-1"
    OperatingSystem := "Canonical Ubuntu"
    OperatingSystemVersion := "22.04"
    InstanceDisplayName := "vm"
    Flex := true
    Sum := 2
    Each := 0
    Retry := 2
    MinTime := 1
    MaxTime := 5 }

/-- A pool of three zones. -/
def demoPool : List AvailabilityDomain := [⟨"z0"⟩, ⟨"z1"⟩, ⟨"z2"⟩]

/-- A quota-per-zone plan whose quota `each = 2^30` times a two-zone pool leaves `int32`. -/
def hugeQuotaPlan : Instance := { demoPlan with AvailabilityDomain := "", Each := 1073741824 }

/-- A quota-per-zone plan: no fixed zone, two instances per zone. -/
def quotaPlan : Instance := { demoPlan with AvailabilityDomain := "", Each := 2, Sum := 1 }

/-- The preparation before the loop succeeds: an image is found, the shape is configured
or looked up, the subnet is obtained. -/
def SetupOk (inst : Instance) (p : Provider) : Prop :=
  (∃ image, GetImage inst p = .ok image) ∧ (inst.Flex = false → p.getShape = .ok ()) ∧
  p.CreateOrGetNetworkInfrastructure = .ok ()

/-- The number of create calls logged for target `k`. -/
def attemptsFor (log : List Event) (k : Int) : Nat :=
  ((launches log).filter (fun e => decide (e.1 = k))).length

/-- The loop states of a fixed-zone run with retry budget 2 and target count `N` in which
every create call fails with a retryable error: nothing succeeded, every earlier target
took 3 calls, the current one `failTimes` calls. -/
def ExhaustInv (N : Int) (s : LoopState) : Prop :=
  s.num = 0 ∧ 0 ≤ s.pos ∧ s.pos ≤ N ∧ 0 ≤ s.failTimes ∧ s.failTimes ≤ 2 ∧
  (s.pos = N → s.failTimes = 0) ∧ (s.calls : Int) = 3 * s.pos + s.failTimes ∧
  ∀ k : Int, (attemptsFor s.log k : Int) =
    if 0 ≤ k ∧ k < s.pos then 3 else if k = s.pos then s.failTimes else 0

/-- A fixed-zone plan with retry budget 2 and two targets, every create call failing. -/
def twoTargetPlan : Instance := { demoPlan with Sum := 2, Retry := 2 }

/-- The locals of `getInstancePublicIps` on entry: `ins` is the zero `core.Instance`,
`ips` and `err` are nil, nothing has been called. -/
def pollStart : LifecycleState × WaitResult :=
  (.unset, { ips := [], err := none, polls := 0, fetches := 0, listings := 0, sleeps := 0 })

/-- The state of the loop of `getInstancePublicIps` after `k` iterations (`ins` and the
results so far); `none` when the function has returned within these iterations. -/
def pollState (p : Provider) (id : String) : Nat → Option (LifecycleState × WaitResult)
  | 0 => some pollStart
  | k + 1 =>
    match pollState p id k with
    | none => none
    | some (ins, w) =>
      match pollOnce p id k ins w with
      | .done _ => none
      | .next ins w => some (ins, w)

/-- The provider `demoProvider` with an instance that stays in state `Provisioning` and
never gets a network interface: every fetch and every listing succeeds, every listing is
empty. -/
def noInterfaceProvider : Provider :=
  { demoProvider with
    getInstance := fun _ _ => Except.ok LifecycleState.Provisioning
    ListVnicAttachments := fun _ _ => Except.ok [] }

/-- The provider `demoProvider` with an instance whose third state fetch (poll iteration
2) reports `Terminated`, after two fetches reporting `Provisioning` with no interface. -/
def terminatedProvider : Provider :=
  { demoProvider with
    getInstance := fun _ i =>
      if i < 2 then Except.ok LifecycleState.Provisioning else Except.ok LifecycleState.Terminated
    ListVnicAttachments := fun _ _ => Except.ok [] }

/-- The function `sleepRandomSecond(min, max)` of src/utils.go up to the sleep itself: the
number of seconds it sleeps. `Int31n n` is what `rand.Int31n(n)` returns, a call that
panics ("invalid argument to Int31n") when `n <= 0`. -/
def sleepRandomSecond (min max : Int) (Int31n : Int → Int) : Except Fault Int :=
  if min ≤ 0 ∨ max ≤ 0 then .ok 1
  else if min ≥ max then .ok max
  else
    let n := wrap32 (max - min)
    if n ≤ 0 then .error .invalidArgument
    else .ok (wrap32 (Int31n n + min))

/-- The contract of `rand.Int31n`: for `n > 0` the result is in `[0, n)`. -/
def IsInt31n (f : Int → Int) : Prop := ∀ n, 0 < n → 0 ≤ f n ∧ f n < n

/-- A plan whose operating system is not configured. -/
def noSystemPlan : Instance := { demoPlan with OperatingSystem := "" }

/-- A plan with a fixed zone and a target count of 0. -/
def zeroTargetPlan : Instance := { demoPlan with Sum := 0 }

/-- The type `Message` of src/telegram.go (with the embedded `Result`). -/
structure Message where
  OK : Bool
  MessageId : Int
  ErrorCode : Int
  Description : String
  deriving DecidableEq, Repr

/-- The zero value of `Message`. -/
def zeroMessage : Message := { OK := false, MessageId := 0, ErrorCode := 0, Description := "" }

/-- An HTTP POST request as `sendMessage` and `editMessage` build it: the URL and the form
fields. -/
structure Request where
  url : String
  form : List (String × String)
  deriving DecidableEq, Repr

/-- How far a request gets: `http.NewRequest` fails, `client.HTTPClient.Do` fails,
`ioutil.ReadAll` fails, `json.Unmarshal` fails (leaving `msg` as far as it was filled), or
the body is decoded into `msg`. -/
inductive HttpResult
  | newRequestError (e : String)
  | doError (e : String)
  | readError (e : String)
  | unmarshalError (msg : Message) (e : String)
  | decoded (msg : Message)
  deriving DecidableEq, Repr

/-- The globals `token`, `chat_id`, `sendMessageUrl`, `editMessageUrl` of src/config.go and
the network as seen from src/telegram.go. -/
structure Telegram where
  token : String
  chat_id : String
  sendMessageUrl : String
  editMessageUrl : String
  http : Request → HttpResult

/-- What `sendMessage` and `editMessage` return (`msg`, `err`), with the requests they
built and the requests they performed. -/
structure Sent where
  msg : Message
  err : Option String
  built : List Request
  performed : List Request
  deriving DecidableEq, Repr

/-- The common part of `sendMessage` and `editMessage` after the form has been filled:
build the request, perform it, read and decode the answer. -/
def post (t : Telegram) (req : Request) : Sent :=
  match t.http req with
  | .newRequestError e => { msg := zeroMessage, err := some e, built := [], performed := [] }
  | .doError e => { msg := zeroMessage, err := some e, built := [req], performed := [] }
  | .readError e => { msg := zeroMessage, err := some e, built := [req], performed := [req] }
  | .unmarshalError msg e => { msg := msg, err := some e, built := [req], performed := [req] }
  | .decoded msg =>
    if !msg.OK then
      { msg := msg, err := some msg.Description, built := [req], performed := [req] }
    else { msg := msg, err := none, built := [req], performed := [req] }

/-- The function `sendMessage(name, text)` of src/telegram.go. -/
def sendMessage (t : Telegram) (name text : String) : Sent :=
  if t.token = "" ∨ t.chat_id = "" then
    { msg := zeroMessage, err := none, built := [], performed := [] }
  else
    post t { url := t.sendMessageUrl,
             form := [("parse_mode", "Markdown"), ("chat_id", t.chat_id),
                      ("text", "🔰*甲骨文通知* " ++ name ++ "\n" ++ text)] }

/-- The function `editMessage(messageId, name, text)` of src/telegram.go. -/
def editMessage (t : Telegram) (messageId : Int) (name text : String) : Sent :=
  if t.token = "" ∨ t.chat_id = "" then
    { msg := zeroMessage, err := none, built := [], performed := [] }
  else
    post t { url := t.editMessageUrl,
             form := [("parse_mode", "Markdown"), ("chat_id", t.chat_id),
                      ("message_id", toString messageId),
                      ("text", "🔰*甲骨文通知* " ++ name ++ "\n" ++ text)] }

/-- A notifier with a chat id but no token, on a network that would answer. -/
def unconfiguredTelegram : Telegram :=
  { token := ""
    chat_id := "42"
    sendMessageUrl := "https://api.telegram.org/bot/sendMessage"
    editMessageUrl := "https://api.telegram.org/bot/editMessageText"
    http := fun _ => HttpResult.decoded { OK := true, MessageId := 7, ErrorCode := 0,
                                          Description := "" } }

/-- The constant `time.Second`, in nanoseconds (a `time.Duration` is an `int64` count of
nanoseconds). -/
def Second : Int := 1000000000

/-- The constant `time.Minute`. -/
def Minute : Int := 60 * Second

/-- The constant `time.Hour`. -/
def Hour : Int := 60 * Minute

/-- Go's `Duration.Seconds`: `float64(d / Second) + float64(d % Second) / 1e9`, the
float arithmetic taken as exact rational arithmetic. -/
def Seconds (d : Int) : Rat := (Int.tdiv d Second : Int) + (Int.tmod d Second : Int) / 1000000000

/-- Go's `Duration.Minutes`: `float64(d / Minute) + float64(d % Minute) / (60 * 1e9)`. -/
def Minutes (d : Int) : Rat :=
  (Int.tdiv d Minute : Int) + (Int.tmod d Minute : Int) / (60 * 1000000000)

/-- Go's `Duration.Hours`: `float64(d / Hour) + float64(d % Hour) / (60 * 60 * 1e9)`. -/
def Hours (d : Int) : Rat :=
  (Int.tdiv d Hour : Int) + (Int.tmod d Hour : Int) / (60 * 60 * 1000000000)

/-- Go's conversion `int(x)` of a float: truncation toward zero. -/
def truncate (x : Rat) : Int := if 0 ≤ x then ⌊x⌋ else -⌊-x⌋

/-- The function `fmtDuration(d)` of src/utils.go. -/
def fmtDuration (d : Int) : String :=
  if Seconds d < 1 then "< 1 秒"
  else
    let days := Int.tdiv d (Hour * 24)
    let hours := truncate (Hours (Int.tmod d (Hour * 24)))
    let minutes := truncate (Minutes (Int.tmod d Hour))
    let seconds := truncate (Seconds (Int.tmod d Minute))
    (if days > 0 then toString days ++ " 天 " else "") ++
    (if hours > 0 then toString hours ++ " 时 " else "") ++
    (if minutes > 0 then toString minutes ++ " 分 " else "") ++
    (if seconds > 0 then toString seconds ++ " 秒" else "")

/-- An ini section as `MapTo` reads it into an `Instance`: for each key the value the
section holds, if it holds one (a key that is absent leaves the field as it is). -/
structure Section where
  availabilityDomain : Option String
  OperatingSystem : Option String
  OperatingSystemVersion : Option String
  instanceDisplayName : Option String
  flex : Option Bool
  sum : Option Int
  each : Option Int
  retry : Option Int
  minTime : Option Int
  maxTime : Option Int
  deriving DecidableEq, Repr

/-- The call `sec.MapTo(&v)` of the ini library. -/
def Section.MapTo (sec : Section) (v : Instance) : Instance :=
  { AvailabilityDomain := sec.availabilityDomain.getD v.AvailabilityDomain
    OperatingSystem := sec.OperatingSystem.getD v.OperatingSystem
    OperatingSystemVersion := sec.OperatingSystemVersion.getD v.OperatingSystemVersion
    InstanceDisplayName := sec.instanceDisplayName.getD v.InstanceDisplayName
    Flex := sec.flex.getD v.Flex
    Sum := sec.sum.getD v.Sum
    Each := sec.each.getD v.Each
    Retry := sec.retry.getD v.Retry
    MinTime := sec.minTime.getD v.MinTime
    MaxTime := sec.maxTime.getD v.MaxTime }

/-- The zero value `Instance{}`. -/
def zeroInstance : Instance :=
  { AvailabilityDomain := "", OperatingSystem := "", OperatingSystemVersion := "",
    InstanceDisplayName := "", Flex := false, Sum := 0, Each := 0, Retry := 0,
    MinTime := 0, MaxTime := 0 }

/-- What one goroutine of `batchLaunchInstances` computes: the plan `localInstance` it maps
from the sections, and the pair `(sum, num)` it adds to the totals (`none` when the run is
still going when the fuel ends). -/
structure TemplateRun where
  localInstance : Instance
  added : Except Fault (Option (Int × Int))

/-- The body of the goroutine that `batchLaunchInstances` starts for the template section
`sec` (src/ui.go, lines 886-899). `global` is the package variable `instance`, which
`LaunchInstances` reads; `ads` is the result of `ListAvailabilityDomains()`. -/
def templateRun (global : Instance) (EACH : Bool) (p : Provider) (base sec : Section)
    (ads : Except String (List AvailabilityDomain)) (fuel : Nat) : TemplateRun :=
  let localInstance := sec.MapTo (base.MapTo zeroInstance)
  { localInstance := localInstance
    added :=
      match ads with
      | .error _ => .ok (some (0, 0))
      | .ok ads =>
        match LaunchInstances global EACH p ads fuel with
        | .error f => .error f
        | .ok none => .ok none
        | .ok (some r) => .ok (some (r.sum, r.num)) }

/-- The base section `[INSTANCE]`: system, shape and delays shared by the templates. -/
def baseSection : Section :=
  { availabilityDomain := none, OperatingSystem := some "Canonical Ubuntu",
    OperatingSystemVersion := some "22.04", instanceDisplayName := none, flex := some true,
    sum := none, each := none, retry := some 0, minTime := some 1, maxTime := some 5 }

/-- A template section asking for `n` instances in zone "AD-1". -/
def templateSection (n : Int) : Section :=
  { availabilityDomain := some "AD-1", OperatingSystem := none, OperatingSystemVersion := none,
    instanceDisplayName := none, flex := none, sum := some n, each := none, retry := none,
    minTime := none, maxTime := none }

/-- The variables `totalSUM` and `totalNUM` of `batchLaunchInstances`, shared by the
goroutines. -/
structure Totals where
  totalSUM : Int
  totalNUM : Int
  deriving DecidableEq, Repr

/-- A goroutine of `batchLaunchInstances` after its `LaunchInstances` call has returned
`(sum, num)`: `pc` counts the memory accesses of lines 898-899 it has made (read
`totalSUM`, write `totalSUM`, read `totalNUM`, write `totalNUM`), `reg` holds the value it
last read. -/
structure Worker where
  sum : Int
  num : Int
  pc : Nat
  reg : Int
  deriving DecidableEq, Repr

/-- One memory access of a goroutine: `totalSUM += sum` and `totalNUM += num` are each a
read followed by a write, and nothing in the source orders the accesses of different
goroutines (there is no lock and no atomic operation, only `wg.Wait()` at the end). -/
def access (t : Totals) (w : Worker) : Totals × Worker :=
  match w.pc with
  | 0 => (t, { w with pc := 1, reg := t.totalSUM })
  | 1 => ({ t with totalSUM := wrap32 (w.reg + w.sum) }, { w with pc := 2 })
  | 2 => (t, { w with pc := 3, reg := t.totalNUM })
  | 3 => ({ t with totalNUM := wrap32 (w.reg + w.num) }, { w with pc := 4 })
  | _ => (t, w)

/-- An interleaving: `schedule` lists, access by access, which goroutine moves. -/
def interleave : List Nat → Totals → List Worker → Totals × List Worker
  | [], t, ws => (t, ws)
  | i :: schedule, t, ws =>
    match ws[i]? with
    | none => interleave schedule t ws
    | some w => interleave schedule (access t w).1 (ws.set i (access t w).2)

/-- The goroutines of a batch whose runs returned the pairs `results`, about to add them. -/
def workers (results : List (Int × Int)) : List Worker :=
  results.map (fun r => { sum := r.1, num := r.2, pc := 0, reg := 0 })

/-- A fixed-zone plan with two targets and retry budget 2 (`demoPlan`), every create call
failing with the zone-terminal service error 400: used for C21. -/
def terminalProvider : Provider := failingProvider err400

/-- The number of successful create calls recorded in a log. -/
def successes (log : List Event) : Nat :=
  ((launches log).filter (fun e => e.2.2.2)).length

/-- The counters at an evaluation of the loop condition: `0 ≤ num ≤ pos ≤ sum`, and `num`
is the number of successful create calls so far. -/
def CountersExact (c : Ctx) (s : LoopState) : Prop :=
  0 ≤ s.num ∧ s.num ≤ s.pos ∧ s.pos ≤ c.sum ∧ s.num = (successes s.log : Int)

/-- A fixed-zone plan with three targets. -/
def threeTargetPlan : Instance := { demoPlan with Sum := 3 }

/-- The number of failure notifications ("第 n 个实例创建失败了❌ ...") sent in a log. -/
def failureNotes : List Event → Nat
  | [] => 0
  | Event.send (Text.createFailed _ _ _ _) :: es => failureNotes es + 1
  | Event.send (Text.trying _ _) :: es => failureNotes es
  | Event.send (Text.grabbed _ _ _) :: es => failureNotes es
  | Event.send (Text.startFailed _ _ _) :: es => failureNotes es
  | Event.send (Text.started _ _ _ _) :: es => failureNotes es
  | Event.launch _ _ _ _ :: es => failureNotes es
  | Event.edit _ _ :: es => failureNotes es
  | Event.waitReady _ :: es => failureNotes es
  | Event.sleep _ _ :: es => failureNotes es

/-- A fixed-zone plan with one target and no retry. -/
def oneShotPlan : Instance := { demoPlan with Sum := 1, Retry := 0 }

/-- The provider `demoProvider` with an instance that is still `Provisioning` and has a
network interface without public address. -/
def noAddressProvider : Provider :=
  { demoProvider with
    getInstance := fun _ _ => Except.ok LifecycleState.Provisioning
    GetVnic := fun _ => Except.ok none }

/-- The create calls of a log as target index, zone and outcome. -/
def zoneTrace (log : List Event) : List (Int × String × Bool) :=
  (launches log).map (fun e => (e.1, e.2.1, e.2.2.2))

/-- The trace in which each of the targets `0 .. n-1` is tried once in zone `a`, failing,
and then once in zone `b`, succeeding. -/
def alternating (a b : String) : Nat → List (Int × String × Bool)
  | 0 => []
  | n + 1 => alternating a b n ++ [((n : Int), a, false), ((n : Int), b, true)]

/-- A round-robin plan (no fixed zone, no quota) with two targets. -/
def roundRobinPlan : Instance := { demoPlan with AvailabilityDomain := "", Each := 0, Sum := 2 }

/-- The provider `demoProvider` with every create call in zone "z0" failing with the
zone-terminal service error 400 and every other create call succeeding. -/
def firstZoneFullProvider : Provider :=
  { demoProvider with
    LaunchInstance := fun _ zone displayName =>
      if zone = "z0" then Except.error (LaunchError.service err400)
      else Except.ok { Id := "ocid1.instance", DisplayName := displayName,
                       AvailabilityDomain := zone } }

/-- The loop states of a round-robin run over the pool `[A, B]` in which zone `a` always
fails zone-terminally and zone `b` always succeeds: either a target is about to start, or
its call in `a` has just failed. -/
def SkipInv (c : Ctx) (a b : String) (s : LoopState) : Prop :=
  s.usableAds = c.ads ∧ s.adCount = 2 ∧ 0 ≤ s.pos ∧ s.pos ≤ c.sum ∧ s.num = s.pos ∧
  (((s.calls : Int) = 2 * s.pos ∧ (s.SUCCESS = true ∨ s.adIndex = 0) ∧
      zoneTrace s.log = alternating a b s.pos.toNat) ∨
   (s.pos < c.sum ∧ (s.calls : Int) = 2 * s.pos + 1 ∧ s.SUCCESS = false ∧ s.adIndex = 1 ∧
      zoneTrace s.log = alternating a b s.pos.toNat ++ [(s.pos, a, false)]))

/-! ## Invariants of the loop, and further inputs -/

/-- The loop states of quota-per-zone mode (`each = k > 0`) in which `j` create calls
have failed for the current target: `failTimes` holds `j` as an `int32`, and the zone
cursor `adIndex` and the zone `adName` follow the target index: before the first call for
a target whose index is a multiple of `k` the cursor is `pos / k`, otherwise it is
`pos / k + 1` and `adName` is the name of `ads[pos / k]`. -/
def QuotaInv (c : Ctx) (s : LoopState) (j : Nat) : Prop :=
  0 ≤ s.pos ∧ s.failTimes = wrap32 j ∧
    ((j = 0 ∧ s.pos % c.each = 0 ∧ s.adIndex = s.pos / c.each) ∨
     (¬ (j = 0 ∧ s.pos % c.each = 0) ∧ s.adIndex = s.pos / c.each + 1 ∧
      ∃ ad, sliceAt c.ads (s.pos / c.each) = .ok ad ∧ s.adName = ad.Name))

/-- The name of the zone `ads[i]`, or "" when there is none. -/
def zoneName (ads : List AvailabilityDomain) (i : Int) : String :=
  match sliceAt ads i with
  | .ok ad => ad.Name
  | .error _ => ""

/-- The trace of `n` successful create calls in quota-per-zone mode with quota `k`: target
`i` in zone `ads[i / k]`. -/
def quotaTrace (ads : List AvailabilityDomain) (k : Int) : Nat → List (Int × String × Bool)
  | 0 => []
  | n + 1 => quotaTrace ads k n ++ [((n : Int), zoneName ads ((n : Int) / k), true)]

/-- The loop states of a run in which every create call succeeds: every pass so far
created one instance, and the zone selection of the next pass is ready (round-robin: full
pool, cursor back at zone 0; quota-per-zone: `QuotaInv` and the trace `quotaTrace`). -/
def AllOkInv (c : Ctx) (s : LoopState) : Prop :=
  s.num = s.pos ∧ 0 ≤ s.pos ∧ s.pos ≤ c.sum ∧ (s.calls : Int) = s.pos ∧
  (∀ e ∈ zoneTrace s.log, e.2.2 = true) ∧ (zoneTrace s.log).length = s.calls ∧
  (c.AD_NOT_FIXED = true → c.EACH_AD = false →
    s.usableAds = c.ads ∧ (s.SUCCESS = true ∨ s.adIndex = 0)) ∧
  (c.AD_NOT_FIXED = true → c.EACH_AD = true →
    QuotaInv c s 0 ∧ zoneTrace s.log = quotaTrace c.ads c.each s.pos.toNat)

/-- A quota-per-zone plan with quota 1 and an unlimited retry budget. -/
def unlimitedQuotaPlan : Instance :=
  { demoPlan with AvailabilityDomain := "", Each := 1, Retry := -1 }

/-- The loop states of quota-per-zone mode while fewer than `2 ^ 32` create calls have been
made: `QuotaInv` holds for some number `j` of failures, and every logged create call for a
target `pos` went to zone `ads[pos / each]`. -/
def QuotaRunInv (c : Ctx) (s : LoopState) : Prop :=
  s.calls < 4294967296 →
    (∃ j, j ≤ s.calls ∧ QuotaInv c s j) ∧
    ∀ e ∈ zoneTrace s.log, e.2.1 = zoneName c.ads (e.1 / c.each)

/-- The zone index that round-robin mode uses in the next pass (lines 424-431): 0 after a
success or when the cursor has reached `adCount`, else the cursor. -/
def eff (s : LoopState) : Int :=
  if (if s.SUCCESS then 0 else s.adIndex) ≥ s.adCount then 0
  else (if s.SUCCESS then 0 else s.adIndex)

/-- The state at the end of the loop body (lines 537-546): next target, full pool, empty
skip records, `failTimes` 0. -/
def Reset (c : Ctx) (s s' : LoopState) : Prop :=
  s'.pos = wrap32 (s.pos + 1) ∧ s'.usableAds = c.ads ∧ s'.adCount = wrap32 c.ads.length ∧
  s'.SKIP_RETRY_MAP = [] ∧ s'.failTimes = 0

/-- The zone `u[i]`, or a zone without a name when there is none. -/
def zoneAt (u : List AvailabilityDomain) (i : Int) : AvailabilityDomain :=
  match sliceAt u i with
  | .ok ad => ad
  | .error _ => ⟨""⟩

/-- Whether create call number `i`, made in zone `z` with display name `d`, fails with an
error that line 477 classifies as zone-terminal. -/
def verdict (p : Provider) (i : Nat) (z d : String) : Bool :=
  match p.LaunchInstance i z d with
  | .error e =>
    match classify e with
    | .ok b => b
    | .error _ => false
  | .ok _ => false

/-- The skip records after the first `e` attempts of a round-robin cycle over the usable
zones `u` whose first attempt was create call number `base`: entry `k` records whether the
attempt in `u[k]` was zone-terminal. -/
def cycleRecord (p : Provider) (u : List AvailabilityDomain) (d : String) (base e : Nat) :
    List (Int × Bool) :=
  (List.range e).map (fun (k : Nat) => ((k : Int), verdict p (base + k) (zoneName u k) d))

/-- The logged create calls of the first `e` attempts of a round-robin cycle for target
`pos` over the usable zones `u`: all failed, attempt `k` in zone `u[k]`. -/
def cycleCalls (pos : Int) (u : List AvailabilityDomain) (d : String) (e : Nat) :
    List (Int × String × String × Bool) :=
  (List.range e).map (fun (k : Nat) => (pos, zoneName u k, d, false))

/-- The zones of `u` whose attempt in the cycle that started with create call number `base`
was not zone-terminal, in pool order. -/
def survivors (p : Provider) (u : List AvailabilityDomain) (d : String) (base : Nat) :
    List AvailabilityDomain :=
  ((List.range u.length).filter (fun (k : Nat) => !verdict p (base + k) (zoneName u k) d)).map
    (fun (k : Nat) => zoneAt u k)

/-- The loop states of round-robin mode: the usable zones are a non-empty list no longer
than the pool, `adCount` is their number, and the skip records and the end of the log hold
the attempts made so far in the current cycle, one for each usable zone before the
cursor. -/
def RRInv (c : Ctx) (p : Provider) (s : LoopState) : Prop :=
  s.usableAds ≠ [] ∧ s.usableAds.length ≤ c.ads.length ∧ s.adCount = s.usableAds.length ∧
  0 ≤ s.adIndex ∧ (eff s).toNat ≤ s.calls ∧
  s.SKIP_RETRY_MAP =
    cycleRecord p s.usableAds s.displayName (s.calls - (eff s).toNat) (eff s).toNat ∧
  (launches s.log).length = s.calls ∧
  (launches s.log).drop (s.calls - (eff s).toNat) =
    cycleCalls s.pos s.usableAds s.displayName (eff s).toNat

/-- The zones of the create calls logged for target `k`, in order. -/
def targetZones (log : List Event) (k : Int) : List String :=
  ((launches log).filter (fun e => decide (e.1 = k))).map (fun e => e.2.1)

/-- The loop states of round-robin mode as far as the first cycle of a target goes: no
create call has been made for a later target; while the current target has had fewer
attempts than the pool has zones, the usable zones are the whole pool and the cursor is the
number of attempts; and the `t`-th logged attempt of every target, `t` below the pool size,
went to `ads[t]`. -/
def FirstCycleInv (c : Ctx) (s : LoopState) : Prop :=
  0 ≤ s.pos ∧ (∀ k, s.pos < k → attemptsFor s.log k = 0) ∧
  (attemptsFor s.log s.pos < c.ads.length →
    s.usableAds = c.ads ∧ s.adCount = c.ads.length ∧ eff s = attemptsFor s.log s.pos) ∧
  (∀ (k : Int) (t : Nat) (z : String), t < c.ads.length →
    (targetZones s.log k)[t]? = some z → z = zoneName c.ads t)

/-- The loop states of a run with target count 2 on a provider whose first three create
calls fail and whose later create calls succeed: the run stays at target 0 during the
first three calls, and every later call completes one target. -/
def ConvergeInv (c : Ctx) (p : Provider) (s : LoopState) : Prop :=
  (c.AD_NOT_FIXED = true → RRInv c p s) ∧ s.calls ≤ 5 ∧
  (s.calls ≤ 3 → s.pos = 0 ∧ s.num = 0) ∧
  (3 ≤ s.calls → s.pos = (s.calls : Int) - 3 ∧ s.num = (s.calls : Int) - 3) ∧
  CountersExact c s ∧ (launches s.log).length = s.calls

/-- A provider whose first three create calls fail with the retryable service error 500
and whose later create calls succeed. -/
def flakyProvider : Provider :=
  { demoProvider with
    LaunchInstance := fun i zone displayName =>
      if i < 3 then Except.error (LaunchError.service err500)
      else Except.ok { Id := "ocid1.instance", DisplayName := displayName,
                       AvailabilityDomain := zone } }

/-- The two-target round-robin plan with an unlimited retry budget. -/
def unlimitedPlan : Instance := { roundRobinPlan with Retry := -1 }

/-- The number of zones a target can be tried in during one cycle: the pool size in
round-robin mode, 1 in fixed-zone and quota-per-zone modes. -/
def width (c : Ctx) : Nat :=
  if c.AD_NOT_FIXED = true ∧ c.EACH_AD = false then c.ads.length else 1

/-- The zone cursor within the current cycle: `eff` in round-robin mode, 0 otherwise. -/
def cursor (c : Ctx) (s : LoopState) : Int :=
  if c.AD_NOT_FIXED = true ∧ c.EACH_AD = false then eff s else 0

/-- The largest number of create calls one target can take: `(retry + 1) * width`. -/
def budget (c : Ctx) : Int := (c.retry + 1) * width c

/-- The create calls the run can still make: a full budget for every target from `pos`
on, less what the current target has used (`failTimes` cycles and `cursor` calls). -/
def potential (c : Ctx) (s : LoopState) : Int :=
  ((c.sum - s.pos).toNat : Int) * budget c - (s.failTimes * width c + cursor c s)

/-- The loop states of a run with a retry budget `0 ≤ retry`: `failTimes` stays within
the budget, the create calls made so far and those that can still be made add up to at
most `sum * budget`, and no target has had more than `budget` create calls. -/
def BoundInv (c : Ctx) (s : LoopState) : Prop :=
  0 ≤ s.pos ∧ 0 ≤ s.failTimes ∧ s.failTimes ≤ c.retry ∧
  0 ≤ cursor c s ∧ cursor c s < width c ∧
  (¬ s.pos < c.sum → s.failTimes = 0 ∧ cursor c s = 0) ∧
  (s.calls : Int) + potential c s ≤ (c.sum.toNat : Int) * budget c ∧
  (attemptsFor s.log s.pos : Int) ≤ s.failTimes * width c + cursor c s ∧
  (∀ k, k < s.pos → (attemptsFor s.log k : Int) ≤ budget c) ∧
  (∀ k, s.pos < k → attemptsFor s.log k = 0)

/-- The three ways a pass of the loop can end: the target index advances; the pass stays
in the cycle, one zone further; or a new cycle (a retry, in the modes without cycles)
starts for the same target. -/
def StepCase (c : Ctx) (s s' : LoopState) : Prop :=
  (s'.pos = s.pos + 1 ∧ s'.failTimes = 0 ∧ cursor c s' = 0) ∨
  (s'.pos = s.pos ∧ s'.failTimes = s.failTimes ∧ cursor c s' = cursor c s + 1 ∧
    cursor c s' < width c) ∨
  (s'.pos = s.pos ∧ s'.failTimes = s.failTimes + 1 ∧ s'.failTimes ≤ c.retry ∧
    cursor c s' = 0)

/-- The loop states of the three zone-selection modes: `RRInv` in round-robin mode,
`QuotaInv` with `failTimes` failures in quota-per-zone mode. -/
def ModeInv (c : Ctx) (p : Provider) (s : LoopState) : Prop :=
  (c.AD_NOT_FIXED = true → c.EACH_AD = false → RRInv c p s) ∧
  (c.AD_NOT_FIXED = true → c.EACH_AD = true →
    ∃ j : Nat, QuotaInv c s j ∧ (j : Int) = s.failTimes)

/-- What the modes need of the locals fixed before the loop: in round-robin mode a
non-empty pool whose length fits an `int32` and a map range that visits every entry once;
in quota-per-zone mode `each > 0` and the target count computed at line 322. -/
def ModeOk (c : Ctx) (p : Provider) : Prop :=
  (c.AD_NOT_FIXED = true → c.EACH_AD = false →
    c.ads ≠ [] ∧ (c.ads.length : Int) ≤ 2147483647 ∧ ∀ i m, (p.mapOrder i m).Perm m) ∧
  (c.AD_NOT_FIXED = true → c.EACH_AD = true →
    0 < c.each ∧ c.sum = wrap32 (c.each * wrap32 c.ads.length))

/-- The loop states of a run with a retry budget `0 ≤ retry ≤ 2 ^ 31 - 2`. -/
def TermInv (c : Ctx) (p : Provider) (s : LoopState) : Prop :=
  BoundInv c s ∧ ModeInv c p s

/-- A fixed-zone plan with one target and the largest retry budget an `int32` holds. -/
def maxRetryPlan : Instance := { demoPlan with Sum := 1, Retry := 2147483647 }

/-- The provider `demoProvider` with scripted create calls: call number `i` fails with the
service error `script[i]` when there is one, and succeeds otherwise. -/
def scriptedProvider (script : List (Option ServiceError)) : Provider :=
  { demoProvider with
    LaunchInstance := fun i zone displayName =>
      match script[i]? with
      | some (some e) => Except.error (LaunchError.service e)
      | _ => Except.ok { Id := "ocid1.instance", DisplayName := displayName,
                         AvailabilityDomain := zone } }

/-- A provider whose first three create calls fail, the first and the third with the
retryable service error 500, the second with the zone-terminal service error 400. -/
def cycleProvider : Provider := scriptedProvider [some err500, some err400, some err500]

/-- The state of the run of `roundRobinPlan` on `cycleProvider` over the three-zone pool
after two passes: `z0` and `z1` have failed for target 0, `z2` is next. -/
def cycleState2 : LoopState :=
  { adName := "z1", usableAds := demoPool, adCount := 3,
    SKIP_RETRY_MAP := [(0, false), (1, true)],
    failTimes := 0, runTimes := 2, adIndex := 2, pos := 0, num := 0, SUCCESS := false,
    displayName := "vm-1", calls := 2,
    log := [Event.launch 0 "z0" "vm-1" false, Event.sleep 1 5,
            Event.launch 0 "z1" "vm-1" false, Event.sleep 1 5] }

/-- The state of that run after the third pass, which ends the first cycle of target 0. -/
def cycleState3 : LoopState :=
  { adName := "z2", usableAds := [⟨"z0"⟩, ⟨"z2"⟩], adCount := 2, SKIP_RETRY_MAP := [],
    failTimes := 1, runTimes := 3, adIndex := 3, pos := 0, num := 0, SUCCESS := false,
    displayName := "vm-1", calls := 3,
    log := [Event.launch 0 "z0" "vm-1" false, Event.sleep 1 5,
            Event.launch 0 "z1" "vm-1" false, Event.sleep 1 5,
            Event.launch 0 "z2" "vm-1" false, Event.sleep 1 5] }

/-- A round-robin plan with three targets and retry budget 0. -/
def abandonPlan : Instance := { roundRobinPlan with Retry := 0, Sum := 3 }

/-- The state of the run of `abandonPlan` on `cycleProvider` over the three-zone pool after
four passes: target 0 was given up after one cycle, target 1 succeeded in `z0`, target 2
is next. -/
def abandonState4 : LoopState :=
  { adName := "z0", usableAds := demoPool, adCount := 3, SKIP_RETRY_MAP := [],
    failTimes := 0, runTimes := 0, adIndex := 1, pos := 2, num := 1, SUCCESS := true,
    displayName := "vm-2", calls := 4,
    log := [Event.launch 0 "z0" "vm-1" false, Event.sleep 1 5,
            Event.launch 0 "z1" "vm-1" false, Event.sleep 1 5,
            Event.launch 0 "z2" "vm-1" false, Event.sleep 1 5,
            Event.launch 1 "z0" "vm-1" true, Event.waitReady "ocid1.instance",
            Event.sleep 1 5] }

/-- The state of the run of `unlimitedQuotaPlan` (quota 1, unlimited budget) over the
three-zone pool after two create calls that failed with the service error 500. -/
def quotaState2 : LoopState :=
  { adName := "z0", usableAds := [], adCount := 3, SKIP_RETRY_MAP := [],
    failTimes := 2, runTimes := 2, adIndex := 1, pos := 0, num := 0, SUCCESS := false,
    displayName := "vm-1", calls := 2,
    log := [Event.launch 0 "z0" "vm-1" false, Event.sleep 1 5,
            Event.launch 0 "z0" "vm-1" false, Event.sleep 1 5] }

/-- The failure figure of line 904 of ui.go, `totalSUM-totalNUM`, an `int32`. -/
def failureFigure (t : Totals) : Int := wrap32 (t.totalSUM - t.totalNUM)

/-- The schedule in which the goroutines `k, k+1, ..., k+n-1` run one after the other, each
making its four memory accesses without another goroutine in between. -/
def oneByOne : Nat → Nat → List Nat
  | _, 0 => []
  | k, n + 1 => [k, k, k, k] ++ oneByOne (k + 1) n

/-- The totals after the pairs `results` have been added one after the other. -/
def addAll (t : Totals) : List (Int × Int) → Totals
  | [] => t
  | r :: rest =>
    addAll { totalSUM := wrap32 (t.totalSUM + r.1), totalNUM := wrap32 (t.totalNUM + r.2) } rest

/-- A provider whose first three create calls fail with a network timeout, an error that
is not a provider service error, and whose later create calls succeed. -/
def timeoutFirstProvider : Provider :=
  { demoProvider with
    LaunchInstance := fun i zone displayName =>
      if i < 3 then Except.error (LaunchError.other "net/http: timeout")
      else Except.ok { Id := "ocid1.instance", DisplayName := displayName,
                       AvailabilityDomain := zone } }

/-- The two-target fixed-zone plan with an unlimited retry budget. -/
def unlimitedFixedPlan : Instance := { demoPlan with Retry := -1 }

/-- A fixed-zone plan with two targets and no retry. -/
def noRetryPlan : Instance := { demoPlan with Retry := 0 }

/-- The state of the run of `quotaPlan` (quota 2) on `cycleProvider` over the three-zone
pool after four passes: target 0 failed twice in `z0` and was given up, target 1 failed
once and then succeeded in `z0`, target 2 is next. -/
def quotaState4 : LoopState :=
  { adName := "z0", usableAds := demoPool, adCount := 3, SKIP_RETRY_MAP := [],
    failTimes := 0, runTimes := 0, adIndex := 1, pos := 2, num := 1, SUCCESS := true,
    displayName := "vm-2", calls := 4,
    log := [Event.launch 0 "z0" "vm-1" false, Event.sleep 1 5,
            Event.launch 0 "z0" "vm-1" false, Event.sleep 1 5,
            Event.launch 1 "z0" "vm-1" false, Event.sleep 1 5,
            Event.launch 1 "z0" "vm-1" true, Event.waitReady "ocid1.instance",
            Event.sleep 1 5] }

/-! ## Lemmas: what one pass of the loop changes -/

theorem wrap32_eq {x : Int} (h : inInt32 x) : wrap32 x = x := by
  unfold wrap32; unfold inInt32 at h; omega

theorem classify_service (e : ServiceError) :
    classify (.service e) = .ok (decide (
      (400 ≤ e.status ∧ e.status ≤ 405) ∨
      (e.status = 409 ∧ EqualFold e.code "IncorrectState" = false) ∨
      e.status = 412 ∨ e.status = 413 ∨ e.status = 422 ∨ e.status = 431 ∨ e.status = 501)) := by
  obtain ⟨st, code, msg⟩ := e
  simp only [classify, IsServiceError, skipRetryCondition, statusIs, GetHTTPStatusCode, GetCode]
  by_cases h3 : st = 409
  · subst h3; cases h9 : EqualFold code "IncorrectState" <;> simp [andAlso, orElse, h9]
  by_cases h4 : st = 412
  · subst h4; simp [andAlso, orElse]
  by_cases h5 : st = 413
  · subst h5; simp [andAlso, orElse]
  by_cases h6 : st = 422
  · subst h6; simp [andAlso, orElse]
  by_cases h7 : st = 431
  · subst h7; simp [andAlso, orElse]
  by_cases h8 : st = 501
  · subst h8; simp [andAlso, orElse]
  by_cases h1 : 400 ≤ st <;> by_cases h2 : st ≤ 405 <;>
    simp [andAlso, orElse, h1, h2, h3, h4, h5, h6, h7, h8]

theorem classify_other (text : String) :
    classify (.other text) = .error .nilDereference := by
  simp [classify, IsServiceError, skipRetryCondition, statusIs, GetHTTPStatusCode, GetCode,
    andAlso, orElse]

theorem launches_append (xs ys : List Event) :
    launches (xs ++ ys) = launches xs ++ launches ys := by
  induction xs with
  | nil => rfl
  | cons x xs ih => cases x <;> simp [launches, ih]

theorem advance_fields (c : Ctx) (s : LoopState) :
    (advance c s).pos = wrap32 (s.pos + 1) ∧ (advance c s).num = s.num ∧
    (advance c s).calls = s.calls ∧ (advance c s).adName = s.adName ∧
    (advance c s).displayName = s.displayName ∧ (advance c s).adIndex = s.adIndex ∧
    (advance c s).failTimes = 0 ∧ (advance c s).runTimes = 0 ∧
    (advance c s).usableAds = c.ads ∧ (advance c s).adCount = wrap32 c.ads.length ∧
    (advance c s).SKIP_RETRY_MAP = [] ∧ (advance c s).SUCCESS = s.SUCCESS ∧
    launches (advance c s).log = launches s.log := by
  refine ⟨rfl, rfl, rfl, rfl, rfl, rfl, rfl, rfl, rfl, rfl, rfl, rfl, ?_⟩
  simp only [advance]
  split <;> simp [launches_append, launches]

theorem onSuccess_fields (c : Ctx) (p : Provider) (s : LoopState) (inst : CoreInstance) :
    (onSuccess c p s inst).pos = s.pos ∧ (onSuccess c p s inst).num = wrap32 (s.num + 1) ∧
    (onSuccess c p s inst).calls = s.calls ∧ (onSuccess c p s inst).adName = s.adName ∧
    (onSuccess c p s inst).adIndex = s.adIndex ∧ (onSuccess c p s inst).SUCCESS = true ∧
    (onSuccess c p s inst).displayName = c.name ++ "-" ++ toString (wrap32 (s.pos + 1)) ∧
    launches (onSuccess c p s inst).log = launches s.log := by
  refine ⟨rfl, rfl, rfl, rfl, rfl, rfl, rfl, ?_⟩
  simp only [onSuccess]
  cases c.EACH <;> simp [launches_append, launches]
  cases p.sendMessage s.calls (Text.grabbed (wrap32 (s.pos + 1)) inst s.runTimes) <;>
    simp [launches_append, launches]

theorem recordFailure_fields (c : Ctx) (s : LoopState) (b : Bool) (e : String) :
    (recordFailure c s b e).pos = s.pos ∧ (recordFailure c s b e).num = s.num ∧
    (recordFailure c s b e).calls = s.calls ∧ (recordFailure c s b e).adName = s.adName ∧
    (recordFailure c s b e).displayName = s.displayName ∧
    (recordFailure c s b e).adIndex = s.adIndex ∧
    (recordFailure c s b e).adCount = s.adCount ∧
    (recordFailure c s b e).usableAds = s.usableAds ∧
    (recordFailure c s b e).failTimes = s.failTimes ∧
    (recordFailure c s b e).runTimes = s.runTimes ∧
    (recordFailure c s b e).SUCCESS = false ∧
    launches (recordFailure c s b e).log = launches s.log := by
  refine ⟨rfl, rfl, rfl, rfl, rfl, rfl, rfl, rfl, rfl, rfl, rfl, ?_⟩
  simp only [recordFailure]
  split <;> simp [launches_append, launches]

theorem countFailure_fields (c : Ctx) (s : LoopState) (b : Bool) :
    (countFailure c s b).num = s.num ∧ (countFailure c s b).calls = s.calls ∧
    (countFailure c s b).adName = s.adName ∧
    (countFailure c s b).displayName = s.displayName ∧
    (countFailure c s b).adIndex = s.adIndex ∧
    (countFailure c s b).SUCCESS = s.SUCCESS ∧
    launches (countFailure c s b).log = launches s.log ∧
    ((countFailure c s b).pos = s.pos ∨ (countFailure c s b).pos = wrap32 (s.pos + 1)) := by
  simp only [countFailure]
  split
  · simp
  · simp [advance_fields]

theorem endCycle_fields {c : Ctx} {p : Provider} {s s' : LoopState}
    (h : endCycle c p s = .ok s') :
    s'.num = s.num ∧ s'.calls = s.calls ∧ s'.adName = s.adName ∧
    s'.displayName = s.displayName ∧ s'.SUCCESS = s.SUCCESS ∧
    launches s'.log = launches s.log ∧
    (s'.pos = s.pos ∨ s'.pos = wrap32 (s.pos + 1)) := by
  simp only [endCycle] at h
  split at h
  · cases h
  · split at h
    · injection h with h; subst h; simp
    · injection h with h; subst h; simp [advance_fields]

theorem afterFailure_fields {c : Ctx} {p : Provider} {s s' : LoopState} {b : Bool}
    (h : afterFailure c p s b = .ok s') :
    s'.num = s.num ∧ s'.calls = s.calls ∧ s'.adName = s.adName ∧
    s'.displayName = s.displayName ∧ s'.SUCCESS = s.SUCCESS ∧
    launches s'.log = launches s.log ∧
    (s'.pos = s.pos ∨ s'.pos = wrap32 (s.pos + 1)) := by
  simp only [afterFailure] at h
  split at h
  · split at h
    · split at h
      · injection h with h; subst h; simp
      · exact endCycle_fields h
    · injection h with h; subst h
      have := countFailure_fields c s b; tauto
  · injection h with h; subst h
    have := countFailure_fields c s b; tauto

theorem onFailure_fields {c : Ctx} {p : Provider} {s s' : LoopState} {err : LaunchError}
    (h : onFailure c p s err = .ok s') :
    s'.num = s.num ∧ s'.calls = s.calls ∧ s'.adName = s.adName ∧
    s'.displayName = s.displayName ∧ s'.SUCCESS = false ∧
    launches s'.log = launches s.log ∧
    (s'.pos = s.pos ∨ s'.pos = wrap32 (s.pos + 1)) := by
  simp only [onFailure] at h
  split at h
  · cases h
  · rename_i b _
    have h1 := afterFailure_fields h
    have h2 := recordFailure_fields c s b (errInfoOf err)
    simp only [h2] at h1
    exact h1

theorem selectZone_fields {c : Ctx} {s s1 : LoopState} (h : selectZone c s = .ok s1) :
    s1.pos = s.pos ∧ s1.num = s.num ∧ s1.calls = s.calls ∧ s1.log = s.log ∧
    s1.displayName = s.displayName ∧ s1.failTimes = s.failTimes ∧
    s1.runTimes = s.runTimes ∧ s1.usableAds = s.usableAds ∧ s1.adCount = s.adCount ∧
    s1.SKIP_RETRY_MAP = s.SKIP_RETRY_MAP ∧ s1.SUCCESS = s.SUCCESS := by
  simp only [selectZone] at h
  repeat' split at h
  all_goals (cases h <;> simp)

theorem iteration_ok {c : Ctx} {p : Provider} {s s' : LoopState}
    (h : iteration c p s = .ok s') :
    ∃ s1 ok, selectZone c s = .ok s1 ∧
      (ok = true ↔ ∃ inst, p.LaunchInstance s.calls s1.adName s.displayName = .ok inst) ∧
      s'.calls = s.calls + 1 ∧ s'.adName = s1.adName ∧
      launches s'.log = launches s.log ++ [(s.pos, s1.adName, s.displayName, ok)] ∧
      s'.SUCCESS = ok ∧
      (ok = true → s'.num = wrap32 (s.num + 1) ∧ s'.pos = wrap32 (s.pos + 1)) ∧
      (ok = false → s'.num = s.num ∧ (s'.pos = s.pos ∨ s'.pos = wrap32 (s.pos + 1))) := by
  simp only [iteration] at h
  split at h
  · cases h
  · rename_i s1 hsel
    have hf := selectZone_fields hsel
    obtain ⟨hpos, hnum, hcalls, hlog, hdn, -⟩ := hf
    split at h
    · rename_i inst hl
      injection h with h; subst h
      refine ⟨s1, true, hsel, ?_, ?_⟩
      · rw [← hcalls, ← hdn]; simp [hl]
      · have h1 := advance_fields c (onSuccess c p (called s1 true) inst)
        have h2 := onSuccess_fields c p (called s1 true) inst
        simp only [h1, h2]
        simp [called, launches_append, launches, hpos, hnum, hcalls, hlog, hdn]
    · rename_i err hl
      have h1 := onFailure_fields h
      refine ⟨s1, false, hsel, ?_, ?_⟩
      · rw [← hcalls, ← hdn]; simp [hl]
      · simp only [h1]
        simp [called, launches_append, launches, hpos, hnum, hcalls, hlog, hdn]
        have := h1.2.2.2.2.2.2
        simpa [called, hpos] using this

theorem runFor_inv {c : Ctx} {p : Provider} (Inv : LoopState → Prop)
    (hstep : ∀ s s', Inv s → s.pos < c.sum → iteration c p s = .ok s' → Inv s') :
    ∀ (n : Nat) (s s' : LoopState), Inv s → runFor c p n s = .ok s' → Inv s' := by
  intro n
  induction n with
  | zero => intro s s' hs h; simp only [runFor] at h; cases h; exact hs
  | succ n ih =>
    intro s s' hs h
    simp only [runFor] at h
    split at h
    · split at h
      · cases h
      · rename_i hlt _ s2 hit
        exact ih s2 s' (hstep s s2 hs hlt hit) h
    · cases h; exact hs

theorem loop_runFor {c : Ctx} {p : Provider} :
    ∀ (fuel : Nat) (s s' : LoopState), loop c p fuel s = .ok (some s') →
      runFor c p fuel s = .ok s' ∧ ¬ s'.pos < c.sum := by
  intro fuel
  induction fuel with
  | zero =>
    intro s s' h
    unfold loop at h
    split at h
    · cases h
    · cases h; simp [runFor, *]
  | succ n ih =>
    intro s s' h
    unfold loop at h
    split at h
    · simp only at h
      split at h
      · cases h
      · rename_i hlt _ s2 hit
        have := ih s2 s' h
        simp only [runFor, hlt, hit, if_true]
        exact this
    · cases h; simp [runFor, *]

theorem selectZone_fixed {c : Ctx} (h : c.AD_NOT_FIXED = false) (s : LoopState) :
    selectZone c s = .ok s := by
  simp [selectZone, h]

theorem initCtx_sum_le (inst : Instance) (EACH : Bool) (p : Provider)
    (ads : List AvailabilityDomain) (h : inInt32 inst.Sum) :
    (initCtx inst EACH p ads).sum ≤ 2147483647 := by
  simp only [initCtx]
  split
  · unfold wrap32; omega
  · exact h.2

theorem countersOk_step {c : Ctx} {p : Provider} (hsum : c.sum ≤ 2147483647)
    (s s' : LoopState) (hs : CountersOk c s) (hlt : s.pos < c.sum)
    (h : iteration c p s = .ok s') : CountersOk c s' := by
  obtain ⟨s1, ok, -, -, -, -, -, -, hT, hF⟩ := iteration_ok h
  obtain ⟨h0, h1, h2⟩ := hs
  have hw : wrap32 (s.pos + 1) = s.pos + 1 := wrap32_eq (by unfold inInt32; omega)
  have hw2 : wrap32 (s.num + 1) = s.num + 1 := wrap32_eq (by unfold inInt32; omega)
  cases ok with
  | true =>
    obtain ⟨a, b⟩ := hT rfl
    rw [hw2] at a; rw [hw] at b
    unfold CountersOk; omega
  | false =>
    obtain ⟨a, b⟩ := hF rfl
    rw [hw] at b
    unfold CountersOk; omega

theorem countersOk_init (inst : Instance) (c : Ctx) : CountersOk c (initState inst c) := by
  simp [CountersOk, initState]

theorem waitReady_logged (c : Ctx) (p : Provider) (s : LoopState) (inst : CoreInstance) :
    Event.waitReady inst.Id ∈ (advance c (onSuccess c p s inst)).log := by
  have h : Event.waitReady inst.Id ∈ (onSuccess c p s inst).log := by
    simp only [onSuccess]
    cases c.EACH <;> simp
    cases p.sendMessage s.calls (Text.grabbed (wrap32 (s.pos + 1)) inst s.runTimes) <;> simp
  simp only [advance]
  split <;> simp [h]

theorem initCtx_fixed (inst : Instance) (EACH : Bool) (p : Provider)
    (ads : List AvailabilityDomain) (h : inst.AvailabilityDomain ≠ "") :
    (initCtx inst EACH p ads).AD_NOT_FIXED = false := by
  simp [initCtx, h]

theorem allInZone_step {c : Ctx} {p : Provider} {z : String} (hfix : c.AD_NOT_FIXED = false)
    (s s' : LoopState) (hs : AllInZone z s) (_hlt : s.pos < c.sum)
    (h : iteration c p s = .ok s') : AllInZone z s' := by
  obtain ⟨s1, ok, hsel, -, -, hname, hlog, -⟩ := iteration_ok h
  rw [selectZone_fixed hfix] at hsel
  cases hsel
  refine ⟨by rw [hname]; exact hs.1, ?_⟩
  intro e he
  rw [hlog] at he
  rcases List.mem_append.mp he with he | he
  · exact hs.2 e he
  · simp only [List.mem_singleton] at he
    subst he
    exact hs.1

theorem LaunchInstances_sum {inst : Instance} {EACH : Bool} {p : Provider}
    {ads : List AvailabilityDomain} {fuel : Nat} {r : RunResult}
    (h : LaunchInstances inst EACH p ads fuel = .ok (some r)) :
    r.sum = (initCtx inst EACH p ads).sum := by
  simp only [LaunchInstances] at h
  repeat' split at h
  all_goals (cases h <;> rfl)

theorem LaunchInstances_of_setup {inst : Instance} {EACH : Bool} {p : Provider}
    {ads : List AvailabilityDomain} (h : SetupOk inst p) (fuel : Nat) :
    LaunchInstances inst EACH p ads fuel =
      match loop (initCtx inst EACH p ads) p fuel
          (initState inst (initCtx inst EACH p ads)) with
      | .error f => .error f
      | .ok none => .ok none
      | .ok (some s) => .ok (some { sum := (initCtx inst EACH p ads).sum, num := s.num,
                                    calls := s.calls, log := s.log }) := by
  obtain ⟨⟨image, h1⟩, h2, h3⟩ := h
  simp only [LaunchInstances, h1, h3]
  cases hf : inst.Flex
  · simp [h2 hf]
  · simp

theorem loop_inv {c : Ctx} {p : Provider} (Inv : LoopState → Prop) (μ : LoopState → Nat)
    (hstep : ∀ s, Inv s → s.pos < c.sum →
      ∃ s', iteration c p s = .ok s' ∧ Inv s' ∧ μ s' < μ s) :
    ∀ (fuel : Nat) (s : LoopState), Inv s → μ s ≤ fuel →
      ∃ s', loop c p fuel s = .ok (some s') ∧ Inv s' ∧ ¬ s'.pos < c.sum := by
  intro fuel
  induction fuel with
  | zero =>
    intro s hs hμ
    by_cases hlt : s.pos < c.sum
    · obtain ⟨s', -, -, hd⟩ := hstep s hs hlt
      omega
    · exact ⟨s, by unfold loop; simp [hlt], hs, hlt⟩
  | succ n ih =>
    intro s hs hμ
    by_cases hlt : s.pos < c.sum
    · obtain ⟨s', hit, hs', hd⟩ := hstep s hs hlt
      obtain ⟨s'', hl, hinv, hdone⟩ := ih s' hs' (by omega)
      refine ⟨s'', ?_, hinv, hdone⟩
      unfold loop
      simp only [hlt, if_true, hit]
      exact hl
    · exact ⟨s, by unfold loop; simp [hlt], hs, hlt⟩

theorem iteration_failure {c : Ctx} {p : Provider} {s s1 : LoopState} {e : LaunchError}
    {b : Bool} (hsel : selectZone c s = .ok s1)
    (hl : p.LaunchInstance s1.calls s1.adName s1.displayName = .error e)
    (hc : classify e = .ok b) :
    iteration c p s =
      afterFailure c p (recordFailure c (called s1 false) b (errInfoOf e)) b := by
  simp only [iteration, hsel, hl, onFailure, hc]

theorem iteration_success {c : Ctx} {p : Provider} {s s1 : LoopState} {inst : CoreInstance}
    (hsel : selectZone c s = .ok s1)
    (hl : p.LaunchInstance s1.calls s1.adName s1.displayName = .ok inst) :
    iteration c p s = .ok (advance c (onSuccess c p (called s1 true) inst)) := by
  simp only [iteration, hsel, hl]

theorem attemptsFor_append (xs ys : List Event) (k : Int) :
    attemptsFor (xs ++ ys) k = attemptsFor xs k + attemptsFor ys k := by
  simp [attemptsFor, launches_append]

theorem attemptsFor_step {c : Ctx} {p : Provider} {s s' : LoopState}
    (h : iteration c p s = .ok s') (k : Int) :
    attemptsFor s'.log k = attemptsFor s.log k + (if s.pos = k then 1 else 0) := by
  obtain ⟨s1, ok, -, -, -, -, hlog, -⟩ := iteration_ok h
  simp only [attemptsFor, hlog, List.filter_append, List.length_append]
  by_cases hk : s.pos = k <;> simp [List.filter, hk]

/-- In fixed-zone and quota-per-zone modes a failed pass either retries the target with
`failTimes` incremented, or gives the target up. -/
theorem countFailure_cases (c : Ctx) (s : LoopState) (b : Bool) :
    ((c.retry < 0 ∨ wrap32 (s.failTimes + 1) ≤ c.retry) ∧ b = false ∧
      (countFailure c s b).pos = s.pos ∧
      (countFailure c s b).failTimes = wrap32 (s.failTimes + 1)) ∨
    (¬ ((c.retry < 0 ∨ wrap32 (s.failTimes + 1) ≤ c.retry) ∧ b = false) ∧
      (countFailure c s b).pos = wrap32 (s.pos + 1) ∧
      (countFailure c s b).failTimes = 0) := by
  simp only [countFailure]
  by_cases h : (c.retry < 0 ∨ wrap32 (s.failTimes + 1) ≤ c.retry) ∧ b = false
  · left
    have h' : (c.retry < 0 ∨ wrap32 (s.failTimes + 1) ≤ c.retry) ∧ ¬ (b = true) := by
      simpa using h
    rw [if_pos h']
    exact ⟨h.1, h.2, rfl, rfl⟩
  · right
    have h' : ¬ ((c.retry < 0 ∨ wrap32 (s.failTimes + 1) ≤ c.retry) ∧ ¬ (b = true)) := by
      simpa using h
    rw [if_neg h']
    exact ⟨h, rfl, rfl⟩

theorem iteration_failure_counted {c : Ctx} {p : Provider} {s s1 : LoopState}
    {e : LaunchError} {b : Bool} (hmode : c.AD_NOT_FIXED = false ∨ c.EACH_AD = true)
    (hsel : selectZone c s = .ok s1)
    (hl : p.LaunchInstance s1.calls s1.adName s1.displayName = .error e)
    (hc : classify e = .ok b) :
    ∃ s', iteration c p s = .ok s' ∧ s'.adIndex = s1.adIndex ∧ s'.adName = s1.adName ∧
      (((c.retry < 0 ∨ wrap32 (s.failTimes + 1) ≤ c.retry) ∧ b = false ∧
        s'.pos = s.pos ∧ s'.failTimes = wrap32 (s.failTimes + 1)) ∨
       (¬ ((c.retry < 0 ∨ wrap32 (s.failTimes + 1) ≤ c.retry) ∧ b = false) ∧
        s'.pos = wrap32 (s.pos + 1) ∧ s'.failTimes = 0)) := by
  have hf := selectZone_fields hsel
  have hit : iteration c p s =
      .ok (countFailure c (recordFailure c (called s1 false) b (errInfoOf e)) b) := by
    rw [iteration_failure hsel hl hc]
    simp only [afterFailure]
    rcases hmode with h | h
    · simp [h]
    · simp [h]
  refine ⟨_, hit, ?_, ?_, ?_⟩
  · rw [(countFailure_fields c _ b).2.2.2.2.1]; rfl
  · rw [(countFailure_fields c _ b).2.2.1]; rfl
  · have := countFailure_cases c (recordFailure c (called s1 false) b (errInfoOf e)) b
    simpa [recordFailure, called, hf] using this

theorem exhaustInv_step {c : Ctx} {p : Provider} (hfix : c.AD_NOT_FIXED = false)
    (hretry : c.retry = 2) (hsum : c.sum ≤ 2147483647)
    (hfail : ∀ i z d, ∃ e, p.LaunchInstance i z d = .error e ∧ classify e = .ok false)
    (s : LoopState) (hs : ExhaustInv c.sum s) (hlt : s.pos < c.sum) :
    ∃ s', iteration c p s = .ok s' ∧ ExhaustInv c.sum s' ∧
      (3 * (c.sum - s'.pos) - s'.failTimes).toNat < (3 * (c.sum - s.pos) - s.failTimes).toNat := by
  obtain ⟨hnum, hp0, hpN, hf0, hf2, hend, hcalls, hatt⟩ := hs
  obtain ⟨e, hl, hc⟩ := hfail s.calls s.adName s.displayName
  obtain ⟨s', hit, -, -, hcases⟩ :=
    iteration_failure_counted (Or.inl hfix) (selectZone_fixed hfix s) hl hc
  obtain ⟨s1, ok, hsel, hok, hcalls', -, -, -, -, hF⟩ := iteration_ok hit
  have hokf : ok = false := by
    cases ok with
    | false => rfl
    | true =>
      obtain ⟨inst, hinst⟩ := hok.mp rfl
      rw [selectZone_fixed hfix] at hsel
      cases hsel
      rw [hl] at hinst
      cases hinst
  have hnum' : s'.num = s.num := (hF hokf).1
  have hatt' := attemptsFor_step hit
  have hw1 : wrap32 (s.failTimes + 1) = s.failTimes + 1 :=
    wrap32_eq (by unfold inInt32; omega)
  have hw2 : wrap32 (s.pos + 1) = s.pos + 1 := wrap32_eq (by unfold inInt32; omega)
  rw [hw1, hw2, hretry] at hcases
  refine ⟨s', hit, ?_, ?_⟩
  · rcases hcases with ⟨hb, -, hpos', hft'⟩ | ⟨hb, hpos', hft'⟩
    · refine ⟨by omega, by omega, by omega, by omega, by omega, by omega, by omega, ?_⟩
      intro k
      rw [hatt' k, hpos', hft']
      have := hatt k
      push_cast
      split_ifs at this ⊢ <;> omega
    · have hf2' : s.failTimes = 2 := by
        by_contra hne
        exact hb ⟨Or.inr (by omega), rfl⟩
      refine ⟨by omega, by omega, by omega, by omega, by omega, by omega, by omega, ?_⟩
      intro k
      rw [hatt' k, hpos', hft']
      have := hatt k
      push_cast
      split_ifs at this ⊢ <;> omega
  · rcases hcases with ⟨hb, -, hpos', hft'⟩ | ⟨hb, hpos', hft'⟩
    · rw [hpos', hft']; omega
    · rw [hpos', hft']; omega

theorem initCtx_fixed_fields (inst : Instance) (EACH : Bool) (p : Provider)
    (ads : List AvailabilityDomain) (h : inst.AvailabilityDomain ≠ "") :
    (initCtx inst EACH p ads).sum = inst.Sum ∧ (initCtx inst EACH p ads).retry = inst.Retry := by
  simp [initCtx, h]

theorem attemptsFor_init (inst : Instance) (c : Ctx) (k : Int) :
    attemptsFor (initState inst c).log k = 0 := by
  simp only [initState, attemptsFor]
  split <;> simp [launches]

theorem getInstancePublicIps_eq_pollFrom (p : Provider) (id : String) :
    ∀ (k : Nat) (ins : LifecycleState) (w : WaitResult), k ≤ 100 →
      pollState p id k = some (ins, w) →
      getInstancePublicIps p id = pollFrom p id (100 - k) k ins w := by
  intro k
  induction k with
  | zero =>
    intro ins w _ h
    simp only [pollState, pollStart] at h
    cases h
    rfl
  | succ k ih =>
    intro ins w hk h
    simp only [pollState] at h
    split at h
    · cases h
    · rename_i ins0 w0 h0
      split at h
      · cases h
      · rename_i ins1 w1 h1
        cases h
        rw [ih ins0 w0 (by omega) h0]
        have : 100 - k = (100 - (k + 1)) + 1 := by omega
        rw [this, pollFrom, h1]

theorem listVnics_next {p : Provider} {id : String} {i : Nat} {ins ins' : LifecycleState}
    {w w' : WaitResult} (h : listVnics p id i ins w = .next ins' w') :
    w'.ips = w.ips ∧ w'.polls = w.polls ∧ w'.fetches = w.fetches ∧
    w'.listings = w.listings + 1 ∧
    ((∃ e, p.ListVnicAttachments id i = .error e ∧ w'.err = some e) ∨
     (p.ListVnicAttachments id i = .ok [] ∧ w'.err = none)) := by
  simp only [listVnics] at h
  split at h
  · rename_i e he
    cases h
    exact ⟨rfl, rfl, rfl, rfl, Or.inl ⟨e, he, rfl⟩⟩
  · rename_i vnics hv
    split at h
    · cases h
    · rename_i hlen
      cases h
      have : vnics = [] := by
        cases vnics with
        | nil => rfl
        | cons a t => simp at hlen
      subst this
      exact ⟨rfl, rfl, rfl, rfl, Or.inr ⟨hv, rfl⟩⟩

theorem pollOnce_next {p : Provider} {id : String} {i : Nat} {ins ins' : LifecycleState}
    {w w' : WaitResult} (h : pollOnce p id i ins w = .next ins' w') :
    w'.ips = w.ips ∧ w'.polls = w.polls + 1 ∧ w'.fetches ≤ w.fetches + 1 ∧
    w'.listings ≤ w.listings + 1 ∧
    ((∃ e, p.getInstance id i = .error e ∧ w'.err = some e) ∨
     (∃ e, p.ListVnicAttachments id i = .error e ∧ w'.err = some e) ∨
     (p.ListVnicAttachments id i = .ok [] ∧ w'.err = none)) := by
  simp only [pollOnce] at h
  split at h
  · split at h
    · rename_i e he
      cases h
      exact ⟨rfl, rfl, by simp, by simp, Or.inl ⟨e, he, rfl⟩⟩
    · split at h
      · cases h
      · obtain ⟨a, b, c, d, e⟩ := listVnics_next h
        simp only at a b c d
        exact ⟨a, b, by omega, by omega, Or.inr e⟩
  · obtain ⟨a, b, c, d, e⟩ := listVnics_next h
    simp only at a b c d
    exact ⟨a, b, by omega, by omega, Or.inr e⟩

theorem pollState_fields (p : Provider) (id : String) :
    ∀ (k : Nat) (ins : LifecycleState) (w : WaitResult), pollState p id k = some (ins, w) →
      w.ips = [] ∧ w.polls = k ∧ w.fetches ≤ k ∧ w.listings ≤ k := by
  intro k
  induction k with
  | zero =>
    intro ins w h
    simp only [pollState, pollStart] at h
    cases h
    exact ⟨rfl, rfl, Nat.le_refl _, Nat.le_refl _⟩
  | succ k ih =>
    intro ins w h
    simp only [pollState] at h
    split at h
    · cases h
    · rename_i ins0 w0 h0
      split at h
      · cases h
      · rename_i ins1 w1 h1
        cases h
        obtain ⟨a, b, c, d⟩ := ih ins0 w0 h0
        obtain ⟨a', b', c', d', -⟩ := pollOnce_next h1
        exact ⟨by rw [a', a], by omega, by omega, by omega⟩

theorem pollOnce_counts (p : Provider) (id : String) (i : Nat) (ins : LifecycleState)
    (w : WaitResult) :
    (∀ w', pollOnce p id i ins w = .done w' →
      w'.polls = w.polls + 1 ∧ w'.fetches ≤ w.fetches + 1 ∧ w'.listings ≤ w.listings + 1) ∧
    (∀ ins' w', pollOnce p id i ins w = .next ins' w' →
      w'.polls = w.polls + 1 ∧ w'.fetches ≤ w.fetches + 1 ∧ w'.listings ≤ w.listings + 1) := by
  constructor
  · intro w' h
    simp only [pollOnce, listVnics] at h
    repeat' split at h
    all_goals (cases h <;> simp)
  · intro ins' w' h
    obtain ⟨-, b, c, d, -⟩ := pollOnce_next h
    exact ⟨b, c, d⟩

theorem pollFrom_counts (p : Provider) (id : String) :
    ∀ (n i : Nat) (ins : LifecycleState) (w : WaitResult),
      (pollFrom p id n i ins w).polls ≤ w.polls + n ∧
      (pollFrom p id n i ins w).fetches + w.polls ≤ w.fetches + (pollFrom p id n i ins w).polls ∧
      (pollFrom p id n i ins w).listings + w.polls ≤
        w.listings + (pollFrom p id n i ins w).polls := by
  intro n
  induction n with
  | zero => intro i ins w; simp [pollFrom]
  | succ n ih =>
    intro i ins w
    simp only [pollFrom]
    obtain ⟨hd, hn⟩ := pollOnce_counts p id i ins w
    split
    · rename_i w' h
      obtain ⟨a, b, c⟩ := hd w' h
      omega
    · rename_i ins' w' h
      obtain ⟨a, b, c⟩ := hn ins' w' h
      obtain ⟨x, y, z⟩ := ih (i + 1) ins' w'
      omega

theorem pollState_noInterface (id : String) (k : Nat) :
    pollState noInterfaceProvider id (k + 1) =
      some (.Provisioning, { ips := [], err := none, polls := k + 1, fetches := k + 1,
                             listings := k + 1, sleeps := k + 1 }) := by
  induction k with
  | zero => simp [pollState, pollStart, pollOnce, listVnics, noInterfaceProvider]
  | succ k ih =>
    rw [pollState, ih]
    simp [pollOnce, listVnics, noInterfaceProvider]

theorem truncate_add_frac (q r m : Int) (hq : 0 ≤ q) (hr0 : 0 ≤ r) (hm : 0 < m) (hr : r < m) :
    truncate ((q : Rat) + (r : Rat) / (m : Rat)) = q := by
  have hm' : (0 : Rat) < (m : Rat) := by exact_mod_cast hm
  have h0 : (0 : Rat) ≤ (r : Rat) / (m : Rat) :=
    div_nonneg (by exact_mod_cast hr0) (le_of_lt hm')
  have h1 : (r : Rat) / (m : Rat) < 1 := by
    rw [div_lt_one hm']; exact_mod_cast hr
  have hq' : (0 : Rat) ≤ (q : Rat) := by exact_mod_cast hq
  unfold truncate
  rw [if_pos (by linarith)]
  rw [Int.floor_eq_iff]
  constructor <;> linarith

theorem truncate_Hours (x : Int) (hx : 0 ≤ x) : truncate (Hours x) = x / 3600000000000 := by
  have h1 : Int.tdiv x Hour = x / 3600000000000 := by
    rw [Int.tdiv_eq_ediv hx (by decide)]; rfl
  have h2 : Int.tmod x Hour = x % 3600000000000 := by
    rw [Int.tmod_eq_emod hx (by decide)]; rfl
  unfold Hours
  rw [h1, h2]
  have := truncate_add_frac (x / 3600000000000) (x % 3600000000000) 3600000000000
    (by omega) (by omega) (by decide) (by omega)
  convert this using 3
  norm_num

theorem truncate_Minutes (x : Int) (hx : 0 ≤ x) : truncate (Minutes x) = x / 60000000000 := by
  have h1 : Int.tdiv x Minute = x / 60000000000 := by
    rw [Int.tdiv_eq_ediv hx (by decide)]; rfl
  have h2 : Int.tmod x Minute = x % 60000000000 := by
    rw [Int.tmod_eq_emod hx (by decide)]; rfl
  unfold Minutes
  rw [h1, h2]
  have := truncate_add_frac (x / 60000000000) (x % 60000000000) 60000000000
    (by omega) (by omega) (by decide) (by omega)
  convert this using 3
  norm_num

theorem truncate_Seconds (x : Int) (hx : 0 ≤ x) : truncate (Seconds x) = x / 1000000000 := by
  have h1 : Int.tdiv x Second = x / 1000000000 := by
    rw [Int.tdiv_eq_ediv hx (by decide)]; rfl
  have h2 : Int.tmod x Second = x % 1000000000 := by
    rw [Int.tmod_eq_emod hx (by decide)]; rfl
  unfold Seconds
  rw [h1, h2]
  have := truncate_add_frac (x / 1000000000) (x % 1000000000) 1000000000
    (by omega) (by omega) (by decide) (by omega)
  exact this

theorem ite_pos_eq_ite_ne (x : Int) (hx : 0 ≤ x) (a b : String) :
    (if x > 0 then a else b) = (if x ≠ 0 then a else b) := by
  by_cases h : x = 0
  · subst h; simp
  · rw [if_pos (by omega), if_pos h]

theorem one_le_Seconds (d : Int) (h : 1000000000 ≤ d) : ¬ Seconds d < 1 := by
  have h1 : Int.tdiv d Second = d / 1000000000 := by
    rw [Int.tdiv_eq_ediv (by omega) (by decide)]; rfl
  have h2 : Int.tmod d Second = d % 1000000000 := by
    rw [Int.tmod_eq_emod (by omega) (by decide)]; rfl
  unfold Seconds
  rw [h1, h2]
  have hq : (1 : Rat) ≤ ((d / 1000000000 : Int) : Rat) := by
    have : (1 : Int) ≤ d / 1000000000 := by omega
    exact_mod_cast this
  have hr : (0 : Rat) ≤ ((d % 1000000000 : Int) : Rat) / 1000000000 := by
    apply div_nonneg
    · have : (0 : Int) ≤ d % 1000000000 := by omega
      exact_mod_cast this
    · norm_num
  linarith

theorem countersExact_step {c : Ctx} {p : Provider} (hsum : c.sum ≤ 2147483647)
    (s s' : LoopState) (hs : CountersExact c s) (hlt : s.pos < c.sum)
    (h : iteration c p s = .ok s') : CountersExact c s' := by
  obtain ⟨s1, ok, -, -, -, -, hlog, -, hT, hF⟩ := iteration_ok h
  obtain ⟨h0, h1, h2, h3⟩ := hs
  have hw : wrap32 (s.pos + 1) = s.pos + 1 := wrap32_eq (by unfold inInt32; omega)
  have hw2 : wrap32 (s.num + 1) = s.num + 1 := wrap32_eq (by unfold inInt32; omega)
  have hsucc : successes s'.log = successes s.log + (if ok then 1 else 0) := by
    simp only [successes, hlog, List.filter_append, List.length_append]
    cases ok <;> simp [List.filter]
  cases ok with
  | true =>
    obtain ⟨a, b⟩ := hT rfl
    rw [hw2] at a; rw [hw] at b
    simp only [if_true] at hsucc
    refine ⟨by omega, by omega, by omega, ?_⟩
    rw [a, hsucc, h3]; push_cast; rfl
  | false =>
    obtain ⟨a, b⟩ := hF rfl
    rw [hw] at b
    simp only [Bool.false_eq_true, if_false, Nat.add_zero] at hsucc
    refine ⟨by omega, by omega, by omega, ?_⟩
    rw [a, hsucc, h3]

theorem successes_init (inst : Instance) (c : Ctx) : successes (initState inst c).log = 0 := by
  simp only [initState, successes]
  split <;> simp [launches]

theorem failureNotes_append (xs ys : List Event) :
    failureNotes (xs ++ ys) = failureNotes xs + failureNotes ys := by
  induction xs with
  | nil => simp [failureNotes]
  | cons x xs ih =>
    cases x with
    | send t => cases t <;> simp [failureNotes, ih]; omega
    | launch _ _ _ _ => simp [failureNotes, ih]
    | edit _ _ => simp [failureNotes, ih]
    | waitReady _ => simp [failureNotes, ih]
    | sleep _ _ => simp [failureNotes, ih]

theorem failureNotes_advance (c : Ctx) (s : LoopState) :
    failureNotes (advance c s).log = failureNotes s.log := by
  simp only [advance]
  split <;> simp [failureNotes_append, failureNotes]

theorem failureNotes_afterFailure {c : Ctx} {p : Provider} {s s' : LoopState} {b : Bool}
    (h : afterFailure c p s b = .ok s') : failureNotes s'.log = failureNotes s.log := by
  simp only [afterFailure, endCycle, countFailure] at h
  repeat' split at h
  all_goals (cases h <;> simp [failureNotes_advance])

theorem pollFrom_cases (p : Provider) (id : String) :
    ∀ (n k : Nat) (ins : LifecycleState) (w : WaitResult), k + n = 100 →
      pollState p id k = some (ins, w) →
      (∃ k' ins' w', k' < 100 ∧ pollState p id k' = some (ins', w') ∧
        pollOnce p id k' ins' w' = .done (pollFrom p id n k ins w)) ∨
      (∃ ins', pollState p id 100 = some (ins', pollFrom p id n k ins w)) := by
  intro n
  induction n with
  | zero =>
    intro k ins w hk hs
    have : k = 100 := by omega
    subst this
    right
    exact ⟨ins, by simpa [pollFrom] using hs⟩
  | succ n ih =>
    intro k ins w hk hs
    simp only [pollFrom]
    split
    · rename_i w' h
      left
      exact ⟨k, ins, w, by omega, hs, h⟩
    · rename_i ins' w' h
      have hs' : pollState p id (k + 1) = some (ins', w') := by
        simp only [pollState, hs, h]
      exact ih (k + 1) ins' w' (by omega) hs'

theorem pollOnce_done {p : Provider} {id : String} {i : Nat} {ins : LifecycleState}
    {w w' : WaitResult} (h : pollOnce p id i ins w = .done w') :
    (w'.err = some "实例已终止😔" ∧ w'.ips = w.ips) ∨
    (w'.err = none ∧ ∃ vnics, vnics ≠ [] ∧ p.ListVnicAttachments id i = .ok vnics ∧
      w'.ips = collectIps p vnics w.ips) := by
  have key : ∀ (st : LifecycleState) (w0 : WaitResult), w0.ips = w.ips →
      listVnics p id i st w0 = .done w' →
      (w'.err = none ∧ ∃ vnics, vnics ≠ [] ∧ p.ListVnicAttachments id i = .ok vnics ∧
        w'.ips = collectIps p vnics w.ips) := by
    intro st w0 hw0 h0
    simp only [listVnics] at h0
    split at h0
    · cases h0
    · rename_i vnics hv
      split at h0
      · rename_i hlen
        cases h0
        refine ⟨rfl, vnics, ?_, hv, ?_⟩
        · intro hn; subst hn; simp at hlen
        · show collectIps p vnics w0.ips = _
          rw [hw0]
      · cases h0
  simp only [pollOnce] at h
  split at h
  · split at h
    · cases h
    · split at h
      · cases h
        left; exact ⟨rfl, rfl⟩
      · right; exact key _ _ (by rfl) h
  · right; exact key _ _ (by rfl) h

theorem zoneTrace_step {c : Ctx} {p : Provider} {s s' : LoopState}
    (h : iteration c p s = .ok s') :
    ∃ s1 ok, selectZone c s = .ok s1 ∧
      zoneTrace s'.log = zoneTrace s.log ++ [(s.pos, s1.adName, ok)] ∧
      (ok = true ↔ ∃ inst, p.LaunchInstance s.calls s1.adName s.displayName = .ok inst) := by
  obtain ⟨s1, ok, hsel, hok, -, -, hlog, -⟩ := iteration_ok h
  exact ⟨s1, ok, hsel, by simp [zoneTrace, hlog], hok⟩

theorem selectZone_roundRobin {c : Ctx} {s : LoopState} {ad : AvailabilityDomain} (j : Int)
    (h1 : c.AD_NOT_FIXED = true) (h2 : c.EACH_AD = false)
    (hj : j = if (if s.SUCCESS then 0 else s.adIndex) ≥ s.adCount then 0
              else (if s.SUCCESS then 0 else s.adIndex))
    (had : sliceAt s.usableAds j = .ok ad) :
    selectZone c s = .ok { s with adName := ad.Name, adIndex := wrap32 (j + 1) } := by
  simp only [selectZone, h1, h2, if_true, Bool.false_eq_true, if_false]
  rw [← hj, had]

theorem skipInv_step {c : Ctx} {p : Provider} {a b : String}
    (h1 : c.AD_NOT_FIXED = true) (h2 : c.EACH_AD = false)
    (hads : c.ads = [⟨a⟩, ⟨b⟩]) (hsum : c.sum ≤ 2147483647)
    (hA : ∀ i d, ∃ e, p.LaunchInstance i a d = .error e ∧ classify e = .ok true)
    (hB : ∀ i d, ∃ inst, p.LaunchInstance i b d = .ok inst)
    (s : LoopState) (hs : SkipInv c a b s) (hlt : s.pos < c.sum) :
    ∃ s', iteration c p s = .ok s' ∧ SkipInv c a b s' ∧
      (2 * c.sum - s'.calls).toNat < (2 * c.sum - s.calls).toNat := by
  obtain ⟨hus, hcnt, hp0, hpN, hnum, hph⟩ := hs
  have hwp : wrap32 (s.pos + 1) = s.pos + 1 := wrap32_eq (by unfold inInt32; omega)
  have hwn : wrap32 (s.num + 1) = s.num + 1 := wrap32_eq (by unfold inInt32; omega)
  rcases hph with ⟨hcalls, hidx, htr⟩ | ⟨-, hcalls, hsucc, hidx, htr⟩
  · -- the target starts: zone `a` is selected and fails
    have hj : (0 : Int) = if (if s.SUCCESS then 0 else s.adIndex) ≥ s.adCount then 0
              else (if s.SUCCESS then 0 else s.adIndex) := by
      rcases hidx with h | h <;> simp [h, hcnt]
    have hsl : sliceAt s.usableAds 0 = .ok (⟨a⟩ : AvailabilityDomain) := by
      rw [hus, hads]; rfl
    have hsel := selectZone_roundRobin 0 h1 h2 hj hsl
    obtain ⟨e, hl, hc⟩ := hA s.calls s.displayName
    have hit := iteration_failure (p := p) hsel hl hc
    have hw1 : wrap32 (0 + 1) = 1 := by decide
    simp only [afterFailure, h1, h2, if_true, Bool.false_eq_true, not_false_eq_true,
      recordFailure, called, hw1, hcnt] at hit
    rw [if_pos (by decide)] at hit
    obtain ⟨s1, ok, hsel', htr', hok⟩ := zoneTrace_step hit
    rw [hsel] at hsel'
    cases hsel'
    have hokf : ok = false := by
      cases ok with
      | false => rfl
      | true =>
        obtain ⟨inst, hinst⟩ := hok.mp rfl
        simp only at hinst
        rw [hl] at hinst
        cases hinst
    subst hokf
    refine ⟨_, hit, ⟨hus, rfl, hp0, hpN, hnum, Or.inr ⟨hlt, ?_, rfl, rfl, ?_⟩⟩, ?_⟩
    · simp only; push_cast; omega
    · rw [htr', htr]
    · simp only; push_cast; omega
  · -- zone `a` has failed: zone `b` is selected and succeeds
    have hj : (1 : Int) = if (if s.SUCCESS then 0 else s.adIndex) ≥ s.adCount then 0
              else (if s.SUCCESS then 0 else s.adIndex) := by
      simp [hsucc, hidx, hcnt]
    have hsl : sliceAt s.usableAds 1 = .ok (⟨b⟩ : AvailabilityDomain) := by
      rw [hus, hads]; rfl
    have hsel := selectZone_roundRobin 1 h1 h2 hj hsl
    obtain ⟨inst, hl⟩ := hB s.calls s.displayName
    have hit := iteration_success (c := c) (p := p) hsel hl
    obtain ⟨s1, ok, hsel', htr', hok⟩ := zoneTrace_step hit
    rw [hsel] at hsel'
    cases hsel'
    have hokt : ok = true := hok.mpr ⟨inst, hl⟩
    subst hokt
    have hA1 := advance_fields c (onSuccess c p
      (called { s with adName := b, adIndex := wrap32 (1 + 1) } true) inst)
    have hS1 := onSuccess_fields c p
      (called { s with adName := b, adIndex := wrap32 (1 + 1) } true) inst
    obtain ⟨ap, an, ac, -, -, -, -, -, au, ak, -, as, -⟩ := hA1
    obtain ⟨sp, sn, sc, -, -, ss, -⟩ := hS1
    have hlen : wrap32 ((c.ads.length : Nat) : Int) = 2 := by
      rw [hads]; show wrap32 ((2 : Nat) : Int) = 2; decide
    refine ⟨_, hit, ⟨au, by rw [ak, hlen], ?_, ?_, ?_, Or.inl ⟨?_, ?_, ?_⟩⟩, ?_⟩
    · rw [ap, sp]; simp only [called]; omega
    · rw [ap, sp]; simp only [called]; omega
    · rw [an, sn, ap, sp]; simp only [called]; omega
    · rw [ac, sc, ap, sp]; simp only [called]; push_cast; omega
    · left; rw [as, ss]
    · rw [htr', htr, ap, sp]
      simp only [called, hwp]
      have hn : (s.pos + 1).toNat = s.pos.toNat + 1 := by omega
      rw [hn, alternating]
      have hcast : ((s.pos.toNat : Nat) : Int) = s.pos := Int.toNat_of_nonneg hp0
      simp [hcast]
    · rw [ac, sc]; simp only [called]; push_cast; omega

theorem initCtx_roundRobin (inst : Instance) (EACH : Bool) (p : Provider)
    (ads : List AvailabilityDomain) (h : inst.AvailabilityDomain = "" ∧ inst.Each ≤ 0) :
    (initCtx inst EACH p ads).AD_NOT_FIXED = true ∧ (initCtx inst EACH p ads).EACH_AD = false ∧
    (initCtx inst EACH p ads).sum = inst.Sum ∧ (initCtx inst EACH p ads).retry = inst.Retry ∧
    (initCtx inst EACH p ads).ads = ads := by
  have h2 : ¬ inst.Each > 0 := by omega
  simp [initCtx, h.1, h2]

theorem zoneTrace_init (inst : Instance) (c : Ctx) : zoneTrace (initState inst c).log = [] := by
  simp only [initState, zoneTrace]
  split <;> simp [launches]

theorem skip_run (inst : Instance) (EACH : Bool) (p : Provider)
    (a b : String) (hmode : inst.AvailabilityDomain = "" ∧ inst.Each ≤ 0)
    (hsum : 0 ≤ inst.Sum ∧ inst.Sum ≤ 2147483647) (hsetup : SetupOk inst p)
    (hA : ∀ i d, ∃ e, p.LaunchInstance i a d = .error e ∧ classify e = .ok true)
    (hB : ∀ i d, ∃ created, p.LaunchInstance i b d = .ok created)
    (fuel : Nat) (hfuel : 2 * inst.Sum.toNat ≤ fuel) :
    ∃ r, LaunchInstances inst EACH p [⟨a⟩, ⟨b⟩] fuel = .ok (some r) ∧ r.sum = inst.Sum ∧
      r.num = inst.Sum ∧ (r.calls : Int) = 2 * inst.Sum ∧
      zoneTrace r.log = alternating a b inst.Sum.toNat := by
  obtain ⟨h1, h2, hcs, -, hads⟩ := initCtx_roundRobin inst EACH p [⟨a⟩, ⟨b⟩] hmode
  rw [LaunchInstances_of_setup hsetup]
  generalize initCtx inst EACH p [⟨a⟩, ⟨b⟩] = c at h1 h2 hcs hads ⊢
  have hinit : SkipInv c a b (initState inst c) := by
    refine ⟨by simp [initState, h1, h2], ?_, by simp [initState], ?_, rfl, Or.inl ⟨?_, ?_, ?_⟩⟩
    · simp only [initState, hads]; show wrap32 ((2 : Nat) : Int) = 2; decide
    · simp only [initState]; omega
    · simp [initState]
    · right; rfl
    · rw [zoneTrace_init]; rfl
  have hμ : (2 * c.sum - (initState inst c).calls).toNat ≤ fuel := by
    simp only [initState]; omega
  obtain ⟨s, hloop, hinv, hdone⟩ :=
    loop_inv (SkipInv c a b) (fun s => (2 * c.sum - s.calls).toNat)
      (skipInv_step h1 h2 hads (by omega) hA hB) fuel _ hinit hμ
  obtain ⟨-, -, hp0, hpN, hnum, hph⟩ := hinv
  have hpos : s.pos = c.sum := by omega
  rw [hloop]
  rcases hph with ⟨hcalls, -, htr⟩ | ⟨hlt, -⟩
  · refine ⟨_, rfl, hcs, ?_, ?_, ?_⟩
    · show s.num = inst.Sum; omega
    · show (s.calls : Int) = 2 * inst.Sum; omega
    · show zoneTrace s.log = _; rw [htr, hpos, hcs]
  · exact absurd hlt hdone

/-! ## Lemmas: quota-per-zone mode and all-success runs -/

theorem runFor_succ_end {c : Ctx} {p : Provider} :
    ∀ (n : Nat) (s s' : LoopState), runFor c p n s = .ok s' →
      runFor c p (n + 1) s = if s'.pos < c.sum then iteration c p s' else .ok s' := by
  intro n
  induction n with
  | zero =>
    intro s s' h
    simp only [runFor] at h
    cases h
    simp only [runFor]
    by_cases hlt : s.pos < c.sum
    · rw [if_pos hlt, if_pos hlt]
      cases iteration c p s <;> rfl
    · rw [if_neg hlt, if_neg hlt]
  | succ n ih =>
    intro s s' h
    rw [runFor] at h
    rw [runFor]
    split at h
    · rename_i hlt
      rw [if_pos hlt]
      split at h
      · cases h
      · rename_i s2 hit
        exact ih s2 s' h
    · rename_i hlt
      cases h
      rw [if_neg hlt, if_neg hlt]

theorem sliceAt_ok {α : Type} (xs : List α) (i : Int) (h0 : 0 ≤ i) (h1 : i < xs.length) :
    ∃ x, sliceAt xs i = .ok x ∧ xs[i.toNat]? = some x := by
  have hlt : i.toNat < xs.length := by omega
  refine ⟨xs[i.toNat], ?_, List.getElem?_eq_getElem hlt⟩
  simp only [sliceAt]
  rw [if_neg (by omega), List.getElem?_eq_getElem hlt]

theorem wrap32_le_self {x : Int} (h : 0 ≤ x) : wrap32 x ≤ x := by
  unfold wrap32; omega

/-- In quota-per-zone mode every target index below the target count has its zone in the
pool: `pos < sum = int32(each * int32(len ads))` gives `pos / each < len ads`. -/
theorem quota_index_in_pool (k pos : Int) (len : Nat) (hk : 0 < k) (hp : 0 ≤ pos)
    (hlt : pos < wrap32 (k * wrap32 len)) : pos / k < len := by
  by_cases hbig : (len : Int) ≤ 2147483647
  · have hw : wrap32 (len : Int) = len := wrap32_eq ⟨by omega, hbig⟩
    rw [hw] at hlt
    have h0 : 0 ≤ k * (len : Int) := Int.mul_nonneg (by omega) (Int.ofNat_nonneg _)
    have h1 := wrap32_le_self h0
    have h2 : pos < (len : Int) * k := by rw [Int.mul_comm]; omega
    exact Int.ediv_lt_of_lt_mul hk h2
  · have h1 : wrap32 (k * wrap32 len) ≤ 2147483647 := by unfold wrap32; omega
    have h2 : pos / k ≤ pos := Int.ediv_le_self k hp
    omega


theorem div_succ_cases (pos k : Int) (hk : 0 < k) :
    ((pos + 1) % k = 0 ∧ (pos + 1) / k = pos / k + 1) ∨
    ((pos + 1) % k ≠ 0 ∧ (pos + 1) / k = pos / k) := by
  have h1 : k * (pos / k) + pos % k = pos := Int.ediv_add_emod pos k
  have h2 : 0 ≤ pos % k := Int.emod_nonneg pos (by omega)
  have h3 : pos % k < k := Int.emod_lt_of_pos pos hk
  by_cases hr : pos % k + 1 = k
  · left
    have := (Int.ediv_emod_unique (a := pos + 1) (r := 0) (q := pos / k + 1) hk).mpr
      ⟨by rw [Int.mul_add]; omega, by omega, hk⟩
    exact ⟨this.2, this.1⟩
  · right
    have := (Int.ediv_emod_unique (a := pos + 1) (r := pos % k + 1) (q := pos / k) hk).mpr
      ⟨by omega, by omega, by omega⟩
    exact ⟨by rw [this.2]; omega, this.1⟩

theorem wrap32_nat_eq_zero (j : Nat) (h : j < 4294967296) : wrap32 j = 0 ↔ j = 0 := by
  unfold wrap32; omega

theorem wrap32_wrap32_succ (j : Int) : wrap32 (wrap32 j + 1) = wrap32 (j + 1) := by
  unfold wrap32; omega

theorem quota_select {c : Ctx} {s : LoopState}
    (h1 : c.AD_NOT_FIXED = true) (h2 : c.EACH_AD = true) (hk : 0 < c.each)
    (hsum : c.sum = wrap32 (c.each * wrap32 c.ads.length))
    {j : Nat} (hs : QuotaInv c s j) (hlt : s.pos < c.sum) (hj : j < 4294967296) :
    ∃ s1 ad, selectZone c s = .ok s1 ∧ sliceAt c.ads (s.pos / c.each) = .ok ad ∧
      s1.adName = ad.Name ∧ s1.adIndex = s.pos / c.each + 1 := by
  obtain ⟨hp0, hft, hcase⟩ := hs
  have hq0 : 0 ≤ s.pos / c.each := Int.ediv_nonneg hp0 (by omega)
  have hqlt : s.pos / c.each < c.ads.length :=
    quota_index_in_pool c.each s.pos c.ads.length hk hp0 (by rw [← hsum]; exact hlt)
  have hsumle : c.sum ≤ 2147483647 := by rw [hsum]; unfold wrap32; omega
  have hqle : s.pos / c.each ≤ s.pos := Int.ediv_le_self _ hp0
  have htmod : Int.tmod s.pos c.each = s.pos % c.each := Int.tmod_eq_emod hp0 (by omega)
  have hz := wrap32_nat_eq_zero j hj
  rcases hcase with ⟨hj0, hmod, hidx⟩ | ⟨hn, hidx, ad, had, hname⟩
  · obtain ⟨ad, had, -⟩ := sliceAt_ok c.ads (s.pos / c.each) hq0 hqlt
    refine ⟨{ s with adName := ad.Name, adIndex := wrap32 (s.adIndex + 1) }, ad, ?_, had, rfl, ?_⟩
    · simp only [selectZone, h1, h2, if_true, htmod]
      rw [if_pos ⟨hmod, by rw [hft]; exact hz.mpr hj0⟩, hidx, had]
    · show wrap32 (s.adIndex + 1) = _
      rw [hidx]
      exact wrap32_eq (by unfold inInt32; omega)
  · refine ⟨s, ad, ?_, had, hname, hidx⟩
    simp only [selectZone, h1, h2, if_true, htmod]
    rw [if_neg]
    intro ⟨ha, hb⟩
    rw [hft] at hb
    exact hn ⟨hz.mp hb, ha⟩


theorem iteration_success_fields {c : Ctx} {p : Provider} {s s1 : LoopState}
    {inst : CoreInstance} (hsel : selectZone c s = .ok s1)
    (hl : p.LaunchInstance s1.calls s1.adName s1.displayName = .ok inst) :
    ∃ s', iteration c p s = .ok s' ∧ s'.pos = wrap32 (s.pos + 1) ∧
      s'.num = wrap32 (s.num + 1) ∧ s'.calls = s.calls + 1 ∧ s'.usableAds = c.ads ∧
      s'.adCount = wrap32 c.ads.length ∧ s'.SKIP_RETRY_MAP = [] ∧ s'.SUCCESS = true ∧
      s'.adIndex = s1.adIndex ∧ s'.adName = s1.adName ∧ s'.failTimes = 0 ∧
      s'.runTimes = 0 ∧
      zoneTrace s'.log = zoneTrace s.log ++ [(s.pos, s1.adName, true)] ∧
      attemptsFor s'.log = fun k => attemptsFor s.log k + (if s.pos = k then 1 else 0) := by
  have hf := selectZone_fields hsel
  have hit := iteration_success (c := c) (p := p) hsel hl
  have hA := advance_fields c (onSuccess c p (called s1 true) inst)
  have hS := onSuccess_fields c p (called s1 true) inst
  refine ⟨_, hit, ?_, ?_, ?_, hA.2.2.2.2.2.2.2.2.1, hA.2.2.2.2.2.2.2.2.2.1,
    hA.2.2.2.2.2.2.2.2.2.2.1, ?_, ?_, ?_, hA.2.2.2.2.2.2.1, hA.2.2.2.2.2.2.2.1, ?_, ?_⟩
  · rw [hA.1, hS.1]; simp only [called]; rw [hf.1]
  · rw [hA.2.1, hS.2.1]; simp only [called]; rw [hf.2.1]
  · rw [hA.2.2.1, hS.2.2.1]; simp only [called]; rw [hf.2.2.1]
  · rw [hA.2.2.2.2.2.2.2.2.2.2.2.1, hS.2.2.2.2.2.1]
  · rw [hA.2.2.2.2.2.1, hS.2.2.2.2.1]; rfl
  · rw [hA.2.2.2.1, hS.2.2.2.1]; rfl
  · simp only [zoneTrace]
    rw [hA.2.2.2.2.2.2.2.2.2.2.2.2, hS.2.2.2.2.2.2.2]
    simp [called, launches_append, launches, hf.1, hf.2.2.2.1]
  · funext k
    exact attemptsFor_step hit k


theorem quotaInv_after {c : Ctx} {s' : LoopState} (pos : Int) (ad : AvailabilityDomain)
    (hk : 0 < c.each) (hp0 : 0 ≤ pos)
    (had : sliceAt c.ads (pos / c.each) = .ok ad)
    (hpos : s'.pos = pos + 1) (hft : s'.failTimes = 0)
    (hidx : s'.adIndex = pos / c.each + 1) (hname : s'.adName = ad.Name) :
    QuotaInv c s' 0 := by
  refine ⟨by omega, by rw [hft]; rfl, ?_⟩
  rw [hpos]
  rcases div_succ_cases pos c.each hk with ⟨hm, hd⟩ | ⟨hm, hd⟩
  · left
    exact ⟨rfl, hm, by rw [hidx, hd]⟩
  · right
    refine ⟨fun h => hm h.2, by rw [hidx, hd], ad, by rw [hd]; exact had, hname⟩

theorem quotaInv_step {c : Ctx} {p : Provider}
    (h1 : c.AD_NOT_FIXED = true) (h2 : c.EACH_AD = true) (hk : 0 < c.each)
    (hsum : c.sum = wrap32 (c.each * wrap32 c.ads.length))
    (s s' : LoopState) {j : Nat} (hs : QuotaInv c s j) (hlt : s.pos < c.sum)
    (hj : j < 4294967296) (hit : iteration c p s = .ok s') :
    (QuotaInv c s' 0 ∧ s'.pos = s.pos + 1 ∧ s'.failTimes = 0) ∨
    (QuotaInv c s' (j + 1) ∧ s'.pos = s.pos ∧ s'.SUCCESS = false ∧
      s'.failTimes = wrap32 (s.failTimes + 1) ∧
      (c.retry < 0 ∨ wrap32 (s.failTimes + 1) ≤ c.retry)) := by
  obtain ⟨s1, ad, hsel, had, hname, hidx⟩ := quota_select h1 h2 hk hsum hs hlt hj
  have hf := selectZone_fields hsel
  obtain ⟨hp0, hft, -⟩ := hs
  have hsumle : c.sum ≤ 2147483647 := by rw [hsum]; unfold wrap32; omega
  have hwp : wrap32 (s.pos + 1) = s.pos + 1 := wrap32_eq (by unfold inInt32; omega)
  cases hl : p.LaunchInstance s1.calls s1.adName s1.displayName with
  | ok inst =>
    obtain ⟨s2, hit2, hpos', -, -, -, -, -, -, hidx', hname', hft', -⟩ :=
      iteration_success_fields (c := c) (p := p) hsel hl
    rw [hit] at hit2
    cases hit2
    rw [hwp] at hpos'
    exact Or.inl ⟨quotaInv_after s.pos ad hk hp0 had hpos' hft' (by rw [hidx']; exact hidx)
      (by rw [hname']; exact hname), hpos', hft'⟩
  | error e =>
    cases hc : classify e with
    | error f =>
      have hit' := hit
      simp only [iteration, hsel, hl, onFailure, hc] at hit'
      cases hit'
    | ok b =>
      obtain ⟨s2, hit2, hidx2, hname2, hcases⟩ :=
        iteration_failure_counted (Or.inr h2) hsel hl hc
      rw [hit] at hit2
      cases hit2
      obtain ⟨t1, okb, hselb, hokb, -, -, -, hsuccb, -⟩ := iteration_ok hit
      rw [hsel] at hselb
      cases hselb
      rcases hcases with ⟨hr, -, hpos', hft'⟩ | ⟨-, hpos', hft'⟩
      · right
        refine ⟨⟨by rw [hpos']; exact hp0, ?_, Or.inr ⟨by omega, ?_, ad, ?_, ?_⟩⟩, hpos', ?_,
          hft', hr⟩
        · rw [hft', hft]; push_cast; exact wrap32_wrap32_succ _
        · rw [hidx2, hpos']; exact hidx
        · rw [hpos']; exact had
        · rw [hname2]; exact hname
        · rw [hsuccb]
          cases okb with
          | false => rfl
          | true =>
            obtain ⟨created, hcr⟩ := hokb.mp rfl
            have e1 : s1.calls = s.calls := hf.2.2.1
            have e2 : s1.displayName = s.displayName := hf.2.2.2.2.1
            rw [e1, e2, hcr] at hl
            cases hl
      · rw [hwp] at hpos'
        exact Or.inl ⟨quotaInv_after s.pos ad hk hp0 had hpos' hft'
          (by rw [hidx2]; exact hidx) (by rw [hname2]; exact hname), hpos', hft'⟩

theorem initCtx_quota (inst : Instance) (EACH : Bool) (p : Provider)
    (ads : List AvailabilityDomain) (h : inst.AvailabilityDomain = "" ∧ 0 < inst.Each) :
    (initCtx inst EACH p ads).AD_NOT_FIXED = true ∧ (initCtx inst EACH p ads).EACH_AD = true ∧
    (initCtx inst EACH p ads).each = inst.Each ∧
    (initCtx inst EACH p ads).sum = wrap32 (inst.Each * wrap32 ads.length) ∧
    (initCtx inst EACH p ads).retry = inst.Retry ∧
    (initCtx inst EACH p ads).ads = ads := by
  have h2 : inst.Each > 0 := h.2
  simp [initCtx, h.1, h2]

theorem quotaInv_init (inst : Instance) (c : Ctx) : QuotaInv c (initState inst c) 0 := by
  refine ⟨by simp [initState], rfl, Or.inl ⟨rfl, ?_, ?_⟩⟩
  · simp [initState]
  · simp [initState]


theorem allOkInv_step {c : Ctx} {p : Provider} (hsum : c.sum ≤ 2147483647)
    (hrr : c.AD_NOT_FIXED = true → c.EACH_AD = false → c.ads ≠ [])
    (hq : c.AD_NOT_FIXED = true → c.EACH_AD = true →
      0 < c.each ∧ c.sum = wrap32 (c.each * wrap32 c.ads.length))
    (hall : ∀ i z d, ∃ created, p.LaunchInstance i z d = .ok created)
    (s : LoopState) (hs : AllOkInv c s) (hlt : s.pos < c.sum) :
    ∃ s', iteration c p s = .ok s' ∧ AllOkInv c s' ∧
      (c.sum - s'.pos).toNat < (c.sum - s.pos).toNat := by
  obtain ⟨hnum, hp0, hpN, hcalls, hok, hlen, hRR, hQ⟩ := hs
  have hwp : wrap32 (s.pos + 1) = s.pos + 1 := wrap32_eq (by unfold inInt32; omega)
  have hwn : wrap32 (s.num + 1) = s.num + 1 := wrap32_eq (by unfold inInt32; omega)
  have hn : (s.pos + 1).toNat = s.pos.toNat + 1 := by omega
  have hc32 : s.calls < 4294967296 := by omega
  -- the zone selection succeeds
  have hsel : ∃ s1, selectZone c s = .ok s1 ∧
      (c.AD_NOT_FIXED = true → c.EACH_AD = true →
        s1.adName = zoneName c.ads (s.pos / c.each)) := by
    cases h1 : c.AD_NOT_FIXED with
    | false => exact ⟨s, selectZone_fixed h1 s, fun h => by cases h⟩
    | true =>
      cases h2 : c.EACH_AD with
      | false =>
        obtain ⟨hus, hidx⟩ := hRR h1 h2
        have hne := hrr h1 h2
        obtain ⟨a, rest, hads⟩ : ∃ a rest, c.ads = a :: rest := by
          cases hc : c.ads with
          | nil => exact absurd hc hne
          | cons a rest => exact ⟨a, rest, rfl⟩
        have hj : (0 : Int) = if (if s.SUCCESS then 0 else s.adIndex) ≥ s.adCount then 0
                  else (if s.SUCCESS then 0 else s.adIndex) := by
          rcases hidx with h | h <;> simp [h]
        have hsl : sliceAt s.usableAds 0 = .ok a := by
          rw [hus, hads]; simp [sliceAt]
        exact ⟨_, selectZone_roundRobin 0 h1 h2 hj hsl, fun _ h => by cases h⟩
      | true =>
        obtain ⟨hk, hsm⟩ := hq h1 h2
        obtain ⟨s1, ad, hs1, had, hname, -⟩ :=
          quota_select h1 h2 hk hsm (hQ h1 h2).1 hlt (by decide)
        refine ⟨s1, hs1, fun _ _ => ?_⟩
        rw [hname]; simp only [zoneName, had]
  obtain ⟨s1, hsel, hzone⟩ := hsel
  obtain ⟨inst, hl⟩ := hall s1.calls s1.adName s1.displayName
  obtain ⟨s', hit, hpos', hnum', hcalls', hus', -, -, hsucc', -, -, -, -, htr, -⟩ :=
    iteration_success_fields (c := c) (p := p) hsel hl
  rw [hwp] at hpos'
  rw [hwn] at hnum'
  refine ⟨s', hit, ⟨by omega, by omega, by omega, by rw [hcalls']; push_cast; omega, ?_, ?_,
    ?_, ?_⟩, by rw [hpos']; omega⟩
  · intro e he
    rw [htr] at he
    rcases List.mem_append.mp he with he | he
    · exact hok e he
    · simp only [List.mem_singleton] at he; subst he; rfl
  · rw [htr, List.length_append, hlen, hcalls']; rfl
  · intro h1 h2
    exact ⟨hus', Or.inl hsucc'⟩
  · intro h1 h2
    obtain ⟨hk, hsm⟩ := hq h1 h2
    refine ⟨?_, ?_⟩
    · rcases quotaInv_step h1 h2 hk hsm s _ (hQ h1 h2).1 hlt (by decide) hit with h | h
      · exact h.1
      · omega
    rw [htr, (hQ h1 h2).2, hpos', hzone h1 h2]
    rw [hn, quotaTrace, Int.toNat_of_nonneg hp0]

theorem allOkInv_init (inst : Instance) (c : Ctx) (h0 : 0 ≤ c.sum) :
    AllOkInv c (initState inst c) := by
  refine ⟨rfl, by simp [initState], by simpa [initState] using h0, by simp [initState], ?_, ?_,
    ?_, ?_⟩
  · rw [zoneTrace_init]; intro e he; cases he
  · rw [zoneTrace_init]; rfl
  · intro h1 h2
    simp [initState, h1, h2]
  · intro h1 h2
    refine ⟨quotaInv_init inst c, ?_⟩
    rw [zoneTrace_init]
    simp [initState, quotaTrace]

theorem successes_eq_length (log : List Event) (h : ∀ e ∈ zoneTrace log, e.2.2 = true) :
    successes log = (zoneTrace log).length := by
  simp only [successes, zoneTrace, List.length_map]
  congr 1
  apply List.filter_eq_self.mpr
  intro e he
  exact h (e.1, e.2.1, e.2.2.2) (by simp only [zoneTrace, List.mem_map]; exact ⟨e, he, rfl⟩)

theorem quotaRunInv_step {c : Ctx} {p : Provider}
    (h1 : c.AD_NOT_FIXED = true) (h2 : c.EACH_AD = true) (hk : 0 < c.each)
    (hsum : c.sum = wrap32 (c.each * wrap32 c.ads.length))
    (s s' : LoopState) (hs : QuotaRunInv c s) (hlt : s.pos < c.sum)
    (hit : iteration c p s = .ok s') : QuotaRunInv c s' := by
  intro hc'
  obtain ⟨t1, ok, hselt, htr, -⟩ := zoneTrace_step hit
  obtain ⟨-, -, -, -, hcalls, -⟩ := iteration_ok hit
  obtain ⟨⟨j, hj, hq⟩, hlog⟩ := hs (by omega)
  obtain ⟨s1, ad, hsel, had, hname, -⟩ := quota_select h1 h2 hk hsum hq hlt (by omega)
  rw [hsel] at hselt
  cases hselt
  refine ⟨?_, ?_⟩
  · rcases quotaInv_step h1 h2 hk hsum s s' hq hlt (by omega) hit with h | h
    · exact ⟨0, Nat.zero_le _, h.1⟩
    · exact ⟨j + 1, by omega, h.1⟩
  · intro e he
    rw [htr] at he
    rcases List.mem_append.mp he with he | he
    · exact hlog e he
    · simp only [List.mem_singleton] at he
      subst he
      show t1.adName = zoneName c.ads (s.pos / c.each)
      rw [hname]; simp only [zoneName, had]

theorem quotaRunInv_init (inst : Instance) (c : Ctx) : QuotaRunInv c (initState inst c) := by
  intro _
  refine ⟨⟨0, Nat.zero_le _, quotaInv_init inst c⟩, ?_⟩
  rw [zoneTrace_init]
  intro e he
  cases he

/-- The trace of an all-success run in quota-per-zone mode. -/
theorem quota_all_success (inst : Instance) (EACH : Bool) (p : Provider)
    (ads : List AvailabilityDomain) (hmode : inst.AvailabilityDomain = "" ∧ 0 < inst.Each)
    (hsetup : SetupOk inst p)
    (hall : ∀ i z d, ∃ created, p.LaunchInstance i z d = .ok created)
    (hN : 0 ≤ (initCtx inst EACH p ads).sum) :
    ∀ fuel, ((initCtx inst EACH p ads).sum).toNat ≤ fuel →
      ∃ r, LaunchInstances inst EACH p ads fuel = .ok (some r) ∧
        zoneTrace r.log = quotaTrace ads inst.Each ((initCtx inst EACH p ads).sum).toNat := by
  intro fuel hfuel
  obtain ⟨c1, c2, c3, c4, -, c6⟩ := initCtx_quota inst EACH p ads hmode
  have hle : (initCtx inst EACH p ads).sum ≤ 2147483647 := by rw [c4]; unfold wrap32; omega
  obtain ⟨s', hloop, hinv, hdone⟩ :=
    loop_inv (AllOkInv (initCtx inst EACH p ads))
      (fun s => ((initCtx inst EACH p ads).sum - s.pos).toNat)
      (fun s hs hlt => allOkInv_step hle (fun _ h => by rw [c2] at h; cases h)
        (fun _ _ => ⟨by rw [c3]; exact hmode.2, by rw [c3, c6]; exact c4⟩) hall s hs hlt)
      fuel (initState inst (initCtx inst EACH p ads))
      (allOkInv_init inst _ hN) (by simpa [initState] using hfuel)
  obtain ⟨-, hp0, hpN, -, -, -, -, hq⟩ := hinv
  refine ⟨RunResult.mk (initCtx inst EACH p ads).sum s'.num s'.calls s'.log, ?_, ?_⟩
  · rw [LaunchInstances_of_setup hsetup, hloop]
  · show zoneTrace s'.log = _
    have hpe : s'.pos = (initCtx inst EACH p ads).sum := by omega
    rw [(hq c1 c2).2, c6, c3, hpe]

/-- In quota-per-zone mode with quota 1, an unlimited budget and every create call failing
with a retryable error, the run stays at target 0 in the first zone of the pool, and
`failTimes` counts the failures as an `int32`. -/
theorem quota_stuck {c : Ctx} {p : Provider} (inst : Instance)
    (h1 : c.AD_NOT_FIXED = true) (h2 : c.EACH_AD = true) (hk : c.each = 1)
    (hr : c.retry < 0) (hsum : 0 < c.sum) (a : AvailabilityDomain)
    (rest : List AvailabilityDomain) (hads : c.ads = a :: rest)
    (hfail : ∀ i z d, ∃ e, p.LaunchInstance i z d = .error e ∧ classify e = .ok false) :
    ∀ m : Nat, m < 4294967296 →
      ∃ s, runFor c p (m + 1) (initState inst c) = .ok s ∧ s.pos = 0 ∧
        s.failTimes = wrap32 ((m + 1 : Nat) : Int) ∧ s.adIndex = 1 ∧ s.adName = a.Name ∧
        s.calls = m + 1 := by
  intro m
  induction m with
  | zero =>
    intro _
    have hsel : selectZone c (initState inst c) =
        .ok { initState inst c with adName := a.Name, adIndex := wrap32 (0 + 1) } := by
      simp [selectZone, h1, h2, hk, initState, hads, sliceAt]
    obtain ⟨e, hl, hc⟩ := hfail (initState inst c).calls a.Name (initState inst c).displayName
    obtain ⟨s', hit, hidx, hname, hcases⟩ :=
      iteration_failure_counted (Or.inr h2) hsel hl hc
    obtain ⟨-, -, -, -, hcalls, -⟩ := iteration_ok hit
    refine ⟨s', ?_, ?_, ?_, ?_, ?_, ?_⟩
    · rw [runFor_succ_end 0 _ _ rfl, if_pos (by simpa [initState] using hsum)]
      exact hit
    · rcases hcases with h | h
      · rw [h.2.2.1]; rfl
      · exact absurd ⟨Or.inl hr, rfl⟩ h.1
    · rcases hcases with h | h
      · rw [h.2.2.2]; rfl
      · exact absurd ⟨Or.inl hr, rfl⟩ h.1
    · rw [hidx]; rfl
    · rw [hname]
    · rw [hcalls]; rfl
  | succ m ih =>
    intro hm
    obtain ⟨s, hrun, hpos, hft, hidx, hname, hcalls⟩ := ih (by omega)
    have hne : s.failTimes ≠ 0 := by
      rw [hft]
      intro h0
      have := (wrap32_nat_eq_zero (m + 1) hm).mp h0
      omega
    have hsel : selectZone c s = .ok s := by
      simp [selectZone, h1, h2, hne]
    obtain ⟨e, hl, hc⟩ := hfail s.calls s.adName s.displayName
    obtain ⟨s', hit, hidx', hname', hcases⟩ :=
      iteration_failure_counted (Or.inr h2) hsel hl hc
    obtain ⟨-, -, -, -, hcalls', -⟩ := iteration_ok hit
    refine ⟨s', ?_, ?_, ?_, ?_, ?_, ?_⟩
    · rw [runFor_succ_end (m + 1) _ _ hrun, if_pos (by rw [hpos]; exact hsum)]
      exact hit
    · rcases hcases with h | h
      · rw [h.2.2.1]; exact hpos
      · exact absurd ⟨Or.inl hr, rfl⟩ h.1
    · rcases hcases with h | h
      · rw [h.2.2.2, hft]; push_cast; exact wrap32_wrap32_succ _
      · exact absurd ⟨Or.inl hr, rfl⟩ h.1
    · rw [hidx']; exact hidx
    · rw [hname']; exact hname
    · rw [hcalls', hcalls]

theorem loop_error_of_runFor {c : Ctx} {p : Provider} {f : Fault} :
    ∀ (n : Nat) (s s' : LoopState), runFor c p n s = .ok s' → s'.pos < c.sum →
      iteration c p s' = .error f → loop c p (n + 1) s = .error f := by
  intro n
  induction n with
  | zero =>
    intro s s' h hlt hit
    simp only [runFor] at h
    cases h
    unfold loop
    simp only [hlt, if_true, hit]
  | succ n ih =>
    intro s s' h hlt hit
    rw [runFor] at h
    split at h
    · rename_i hlt0
      split at h
      · cases h
      · rename_i s2 hit2
        have := ih s2 s' h hlt hit
        unfold loop
        simp only [hlt0, if_true, hit2]
        exact this
    · rename_i hlt0
      cases h
      exact absurd hlt hlt0

/-! ## Lemmas: round-robin mode -/

theorem selectZone_rr {c : Ctx} {s s1 : LoopState}
    (h1 : c.AD_NOT_FIXED = true) (h2 : c.EACH_AD = false) (h : selectZone c s = .ok s1) :
    ∃ ad, sliceAt s.usableAds (eff s) = .ok ad ∧ s1.adName = ad.Name ∧
      s1.adIndex = wrap32 (eff s + 1) := by
  simp only [selectZone, h1, h2, if_true, Bool.false_eq_true, if_false] at h
  split at h
  · cases h
  · rename_i ad had
    cases h
    exact ⟨ad, had, rfl, rfl⟩

/-- The four outcomes of a pass of the loop in round-robin mode. -/
theorem iteration_rr {c : Ctx} {p : Provider} {s s' : LoopState}
    (h1 : c.AD_NOT_FIXED = true) (h2 : c.EACH_AD = false)
    (hit : iteration c p s = .ok s') :
    ∃ s1, selectZone c s = .ok s1 ∧ s'.calls = s.calls + 1 ∧ s'.adName = s1.adName ∧
      ((∃ created, p.LaunchInstance s.calls s1.adName s.displayName = .ok created ∧
          launches s'.log = launches s.log ++ [(s.pos, s1.adName, s.displayName, true)] ∧
          Reset c s s' ∧ s'.SUCCESS = true ∧ s'.num = wrap32 (s.num + 1) ∧
          s'.adIndex = s1.adIndex) ∨
       (∃ e b, p.LaunchInstance s.calls s1.adName s.displayName = .error e ∧
          classify e = .ok b ∧
          launches s'.log = launches s.log ++ [(s.pos, s1.adName, s.displayName, false)] ∧
          s'.SUCCESS = false ∧ s'.num = s.num ∧ s'.displayName = s.displayName ∧
          ((s1.adIndex < s.adCount ∧ s'.pos = s.pos ∧ s'.usableAds = s.usableAds ∧
              s'.adCount = s.adCount ∧
              s'.SKIP_RETRY_MAP = mapSet s.SKIP_RETRY_MAP (wrap32 (s1.adIndex - 1)) b ∧
              s'.failTimes = s.failTimes ∧ s'.adIndex = s1.adIndex) ∨
           (¬ s1.adIndex < s.adCount ∧
              ∃ u, rebuildUsable s.usableAds (p.mapOrder (s.calls + 1)
                    (mapSet s.SKIP_RETRY_MAP (wrap32 (s1.adIndex - 1)) b)) [] = .ok u ∧
                (((c.retry < 0 ∨ wrap32 (s.failTimes + 1) ≤ c.retry) ∧ wrap32 u.length > 0 ∧
                    s'.pos = s.pos ∧ s'.usableAds = u ∧ s'.adCount = wrap32 u.length ∧
                    s'.SKIP_RETRY_MAP = [] ∧ s'.failTimes = wrap32 (s.failTimes + 1) ∧
                    s'.adIndex = s1.adIndex) ∨
                 (¬ ((c.retry < 0 ∨ wrap32 (s.failTimes + 1) ≤ c.retry) ∧
                      wrap32 u.length > 0) ∧
                    Reset c s s' ∧ s'.adIndex = 0)))))) := by
  obtain ⟨s1, ok, hsel, hok, hcalls, hname, hlog, hsucc, hT, hF⟩ := iteration_ok hit
  obtain ⟨f1, f2, f3, f4, f5, f6, f7, f8, f9, f10, f11⟩ := selectZone_fields hsel
  refine ⟨s1, hsel, hcalls, hname, ?_⟩
  cases hl : p.LaunchInstance s1.calls s1.adName s1.displayName with
  | ok created =>
    left
    obtain ⟨s2, hit2, b1, b2, b3, b4, b5, b6, b7, b8, b9, b10, -⟩ :=
      iteration_success_fields (c := c) (p := p) hsel hl
    rw [hit] at hit2
    cases hit2
    have hokt : ok = true := hok.mpr ⟨created, by rw [← f3, ← f5]; exact hl⟩
    subst hokt
    exact ⟨created, by rw [← f3, ← f5]; exact hl, hlog, ⟨b1, b4, b5, b6, b10⟩, b7, b2, b8⟩
  | error e =>
    right
    have hokf : ok = false := by
      cases ok with
      | false => rfl
      | true =>
        obtain ⟨created, hcr⟩ := hok.mp rfl
        rw [← f3, ← f5, hl] at hcr
        cases hcr
    subst hokf
    cases hc : classify e with
    | error f =>
      have hit' := hit
      simp only [iteration, hsel, hl, onFailure, hc] at hit'
      cases hit'
    | ok b =>
      have hit' := hit
      rw [iteration_failure hsel hl hc] at hit'
      simp only [afterFailure, h1, h2, if_true, Bool.false_eq_true, not_false_eq_true] at hit'
      refine ⟨e, b, by rw [← f3, ← f5]; exact hl, hc, hlog, hsucc, (hF rfl).1, ?_, ?_⟩
      · have := (@onFailure_fields c p (called s1 false) s' e
          (by simp only [onFailure, hc]
              simp only [afterFailure, h1, h2, if_true, Bool.false_eq_true, not_false_eq_true]
              exact hit')).2.2.2.1
        rw [this]; exact f5
      · split at hit'
        · rename_i hlt
          left
          cases hit'
          refine ⟨by rw [← f9]; exact hlt, f1, f8, f9, ?_, f6, rfl⟩
          simp only [recordFailure, called, h1, h2]
          simp [f10]
        · rename_i hlt
          right
          refine ⟨by rw [← f9]; exact hlt, ?_⟩
          simp only [endCycle] at hit'
          have hmap : (recordFailure c (called s1 false) b (errInfoOf e)).SKIP_RETRY_MAP =
              mapSet s.SKIP_RETRY_MAP (wrap32 (s1.adIndex - 1)) b := by
            simp only [recordFailure, called, h1, h2]
            simp [f10]
          have hus : (recordFailure c (called s1 false) b (errInfoOf e)).usableAds =
              s.usableAds := f8
          have hca : (recordFailure c (called s1 false) b (errInfoOf e)).calls = s.calls + 1 := by
            show s1.calls + 1 = s.calls + 1
            rw [f3]
          rw [hmap, hus, hca] at hit'
          split at hit'
          · cases hit'
          · rename_i u hu
            refine ⟨u, hu, ?_⟩
            have hft : (recordFailure c (called s1 false) b (errInfoOf e)).failTimes =
                s.failTimes := f6
            simp only [hft] at hit'
            split at hit'
            · rename_i hcond
              left
              cases hit'
              exact ⟨hcond.1, hcond.2, f1, rfl, rfl, rfl, rfl, rfl⟩
            · rename_i hcond
              right
              cases hit'
              refine ⟨hcond, ⟨?_, rfl, rfl, rfl, rfl⟩, rfl⟩
              show wrap32 (s1.pos + 1) = wrap32 (s.pos + 1)
              rw [f1]

theorem zoneName_eq (u : List AvailabilityDomain) (i : Int) :
    zoneName u i = (zoneAt u i).Name := by
  simp only [zoneName, zoneAt]
  cases sliceAt u i <;> rfl

theorem eff_bounds {s : LoopState} (h0 : 0 ≤ s.adIndex) (h1 : 0 < s.adCount) :
    0 ≤ eff s ∧ eff s < s.adCount := by
  unfold eff
  split_ifs <;> omega

theorem eff_of_success {s : LoopState} (h : s.SUCCESS = true) : eff s = 0 := by
  simp [eff, h]

theorem eff_of_zero {s : LoopState} (h : s.adIndex = 0) : eff s = 0 := by
  unfold eff
  rw [h]
  split_ifs <;> rfl

theorem eff_of_ge {s : LoopState} (hs : s.SUCCESS = false) (h : s.adIndex ≥ s.adCount) :
    eff s = 0 := by
  simp [eff, hs, h]

theorem eff_of_lt {s : LoopState} (hs : s.SUCCESS = false) (h : s.adIndex < s.adCount) :
    eff s = s.adIndex := by
  have : ¬ s.adIndex ≥ s.adCount := by omega
  simp [eff, hs, this]

theorem cycleRecord_succ (p : Provider) (u : List AvailabilityDomain) (d : String)
    (base e : Nat) :
    cycleRecord p u d base (e + 1) =
      cycleRecord p u d base e ++ [((e : Int), verdict p (base + e) (zoneName u e) d)] := by
  simp [cycleRecord, List.range_succ]

theorem cycleCalls_succ (pos : Int) (u : List AvailabilityDomain) (d : String) (e : Nat) :
    cycleCalls pos u d (e + 1) = cycleCalls pos u d e ++ [(pos, zoneName u e, d, false)] := by
  simp [cycleCalls, List.range_succ]

theorem mapSet_cycleRecord (p : Provider) (u : List AvailabilityDomain) (d : String)
    (base e : Nat) (b : Bool) :
    mapSet (cycleRecord p u d base e) (e : Int) b = cycleRecord p u d base e ++ [((e : Int), b)] := by
  simp only [mapSet]
  congr 1
  apply List.filter_eq_self.mpr
  intro x hx
  simp only [cycleRecord, List.mem_map, List.mem_range] at hx
  obtain ⟨k, hk, rfl⟩ := hx
  simp only [decide_eq_true_eq]
  omega

theorem sliceAt_zoneAt (u : List AvailabilityDomain) (i : Int) (h0 : 0 ≤ i)
    (h1 : i < u.length) : sliceAt u i = .ok (zoneAt u i) := by
  obtain ⟨x, hx, -⟩ := sliceAt_ok u i h0 h1
  simp only [zoneAt, hx]

theorem rebuildUsable_ok (u : List AvailabilityDomain) :
    ∀ (m : List (Int × Bool)) (temp : List AvailabilityDomain),
      (∀ e ∈ m, 0 ≤ e.1 ∧ e.1 < u.length) →
      rebuildUsable u m temp =
        .ok (temp ++ (m.filter (fun e => !e.2)).map (fun e => zoneAt u e.1)) := by
  intro m
  induction m with
  | nil => intro temp _; simp [rebuildUsable]
  | cons x rest ih =>
    intro temp hk
    obtain ⟨k, skip⟩ := x
    have hx := hk (k, skip) (List.mem_cons_self _ _)
    have hrest : ∀ e ∈ rest, 0 ≤ e.1 ∧ e.1 < u.length :=
      fun e he => hk e (List.mem_cons_of_mem _ he)
    cases skip with
    | true =>
      simp only [rebuildUsable, Bool.not_true, Bool.false_eq_true, if_false]
      rw [ih temp hrest]
      simp
    | false =>
      simp only [rebuildUsable, Bool.not_false, if_true]
      rw [sliceAt_zoneAt u k hx.1 hx.2]
      simp only
      rw [ih _ hrest]
      simp

theorem cycleRecord_keys (p : Provider) (u : List AvailabilityDomain) (d : String)
    (base e : Nat) (he : e ≤ u.length) :
    ∀ x ∈ cycleRecord p u d base e, 0 ≤ x.1 ∧ x.1 < u.length := by
  intro x hx
  simp only [cycleRecord, List.mem_map, List.mem_range] at hx
  obtain ⟨k, hk, rfl⟩ := hx
  simp only
  omega

/-- At the end of a cycle over the usable zones `u` the rebuilt list holds, in the order
in which the map is ranged over, the zones whose attempt was not zone-terminal. -/
theorem rebuild_cycle (p : Provider) (u : List AvailabilityDomain) (d : String) (base : Nat)
    (m : List (Int × Bool)) (hperm : m.Perm (cycleRecord p u d base u.length)) :
    ∃ v, rebuildUsable u m [] = .ok v ∧ v.Perm (survivors p u d base) ∧
      v.length ≤ u.length := by
  have hkeys : ∀ e ∈ m, 0 ≤ e.1 ∧ e.1 < u.length := fun e he =>
    cycleRecord_keys p u d base u.length (Nat.le_refl _) e (hperm.mem_iff.mp he)
  refine ⟨_, rebuildUsable_ok u m [] hkeys, ?_, ?_⟩
  · simp only [List.nil_append]
    have h1 := (hperm.filter (fun e => !e.2)).map (fun e => zoneAt u e.1)
    refine h1.trans ?_
    simp only [cycleRecord, survivors, List.filter_map, List.map_map]
    exact List.Perm.refl _
  · simp only [List.nil_append, List.length_map]
    calc (m.filter (fun e => !e.2)).length ≤ m.length := List.length_filter_le _ _
      _ = (cycleRecord p u d base u.length).length := hperm.length_eq
      _ = u.length := by simp [cycleRecord]

theorem rrInv_fresh {c : Ctx} {p : Provider} {s : LoopState}
    (hne : s.usableAds ≠ []) (hlen : s.usableAds.length ≤ c.ads.length)
    (hcnt : s.adCount = s.usableAds.length) (hidx : 0 ≤ s.adIndex) (heff : eff s = 0)
    (hmap : s.SKIP_RETRY_MAP = []) (hlog : (launches s.log).length = s.calls) :
    RRInv c p s := by
  refine ⟨hne, hlen, hcnt, hidx, ?_, ?_, hlog, ?_⟩
  · rw [heff]; exact Nat.zero_le _
  · rw [heff, hmap]; rfl
  · rw [heff]
    show (launches s.log).drop (s.calls - 0) = []
    rw [Nat.sub_zero, ← hlog]
    exact List.drop_length _

theorem rr_select {c : Ctx} {p : Provider} {s : LoopState}
    (h1 : c.AD_NOT_FIXED = true) (h2 : c.EACH_AD = false)
    (hlen : (c.ads.length : Int) ≤ 2147483647) (hs : RRInv c p s) :
    ∃ s1, selectZone c s = .ok s1 ∧ 0 ≤ eff s ∧ eff s < s.usableAds.length ∧
      s1.adName = zoneName s.usableAds (eff s) ∧ s1.adIndex = eff s + 1 := by
  obtain ⟨hne, hle, hcnt, hidx, -⟩ := hs
  have hpos : 0 < s.usableAds.length := List.length_pos.mpr hne
  obtain ⟨e0, e1⟩ := eff_bounds hidx (by rw [hcnt]; exact_mod_cast hpos)
  rw [hcnt] at e1
  have had := sliceAt_zoneAt s.usableAds (eff s) e0 e1
  refine ⟨_, selectZone_roundRobin (eff s) h1 h2 rfl had, e0, e1, ?_, ?_⟩
  · show (zoneAt s.usableAds (eff s)).Name = _
    rw [zoneName_eq]
  · show wrap32 (eff s + 1) = eff s + 1
    exact wrap32_eq (by unfold inInt32; omega)

/-- In round-robin mode the record written after a failed create call extends the records
of the cycle by the entry for the zone just tried. -/
theorem rr_record {c : Ctx} {p : Provider} {s s1 : LoopState} {e : LaunchError} {b : Bool}
    (hs : RRInv c p s) (e0 : 0 ≤ eff s) (e1 : eff s < s.usableAds.length)
    (hidx : s1.adIndex = eff s + 1)
    (hname : s1.adName = zoneName s.usableAds (eff s))
    (hlen : (c.ads.length : Int) ≤ 2147483647)
    (hl : p.LaunchInstance s.calls s1.adName s.displayName = .error e)
    (hc : classify e = .ok b) :
    mapSet s.SKIP_RETRY_MAP (wrap32 (s1.adIndex - 1)) b =
      cycleRecord p s.usableAds s.displayName (s.calls - (eff s).toNat) ((eff s).toNat + 1) := by
  obtain ⟨-, hle, -, -, hcalls, hmap, -⟩ := hs
  have hE : ((eff s).toNat : Int) = eff s := Int.toNat_of_nonneg e0
  have hw : wrap32 (s1.adIndex - 1) = ((eff s).toNat : Int) := by
    rw [hidx, hE]
    have : eff s + 1 - 1 = eff s := by omega
    rw [this]
    exact wrap32_eq ⟨by omega, by omega⟩
  rw [hw, hmap, mapSet_cycleRecord, cycleRecord_succ]
  have hv : verdict p (s.calls - (eff s).toNat + (eff s).toNat)
      (zoneName s.usableAds ((eff s).toNat : Int)) s.displayName = b := by
    rw [Nat.sub_add_cancel hcalls, hE, ← hname]
    simp only [verdict, hl, hc]
  rw [hv]

theorem drop_append_singleton {α : Type} (xs : List α) (x : α) (n : Nat)
    (h : n ≤ xs.length) : (xs ++ [x]).drop n = xs.drop n ++ [x] := by
  rw [List.drop_append_of_le_length h]

theorem rrInv_init (inst : Instance) (c : Ctx) (p : Provider)
    (h1 : c.AD_NOT_FIXED = true) (h2 : c.EACH_AD = false) (hne : c.ads ≠ [])
    (hlen : (c.ads.length : Int) ≤ 2147483647) : RRInv c p (initState inst c) := by
  have hus : (initState inst c).usableAds = c.ads := by simp [initState, h1, h2]
  refine rrInv_fresh (by rw [hus]; exact hne) (by rw [hus]) ?_ (by simp [initState])
    (eff_of_zero rfl) rfl ?_
  · rw [hus]
    show wrap32 (c.ads.length : Int) = _
    exact wrap32_eq ⟨by omega, hlen⟩
  · have := zoneTrace_init inst c
    simp only [zoneTrace, List.map_eq_nil_iff] at this
    rw [this]; rfl

theorem rrInv_step {c : Ctx} {p : Provider} {s s' : LoopState}
    (h1 : c.AD_NOT_FIXED = true) (h2 : c.EACH_AD = false) (hne : c.ads ≠ [])
    (hlen : (c.ads.length : Int) ≤ 2147483647)
    (hperm : ∀ i m, (p.mapOrder i m).Perm m)
    (hs : RRInv c p s) (hit : iteration c p s = .ok s') : RRInv c p s' := by
  obtain ⟨s1, hsel, e0, e1, hname, hidx⟩ := rr_select h1 h2 hlen hs
  obtain ⟨t1, hselt, hcalls', hname', hcases⟩ := iteration_rr h1 h2 hit
  rw [hsel] at hselt
  cases hselt
  have hs0 := hs
  obtain ⟨hune, hule, hcnt, hidx0, hEc, hmap, hlog, hdrop⟩ := hs
  have hE : ((eff s).toNat : Int) = eff s := Int.toNat_of_nonneg e0
  rcases hcases with ⟨created, hl, hlg, ⟨r1, r2, r3, r4, r5⟩, hsucc, hnum, hidx'⟩ |
    ⟨e, b, hl, hc, hlg, hsucc, hnum, hdn, hcases⟩
  · refine rrInv_fresh (by rw [r2]; exact hne) (by rw [r2]) (by rw [r3, r2]; exact wrap32_eq ⟨by omega, hlen⟩)
      (by rw [hidx', hidx]; omega) (eff_of_success hsucc) r4 ?_
    rw [hlg, List.length_append, hlog, hcalls']; rfl
  · have hrec := rr_record hs0 e0 e1 hidx hname hlen hl hc
    have hlen' : (launches s'.log).length = s'.calls := by
      rw [hlg, List.length_append, hlog, hcalls']; rfl
    rcases hcases with ⟨hlt, m1, m2, m3, m4, m5, m6⟩ | ⟨hge, u, hu, hcases⟩
    · have heff' : eff s' = eff s + 1 := by
        rw [eff_of_lt hsucc (by rw [m6, m3]; exact hlt), m6, hidx]
      have hEn : (eff s').toNat = (eff s).toNat + 1 := by omega
      refine ⟨by rw [m2]; exact hune, by rw [m2]; exact hule, by rw [m3, m2]; exact hcnt,
        by rw [m6, hidx]; omega, by omega, ?_, hlen', ?_⟩
      · have hb : s.calls + 1 - ((eff s).toNat + 1) = s.calls - (eff s).toNat := by omega
        rw [m4, hrec, m2, hdn, hEn, hcalls', hb]
      · have hb : s.calls + 1 - ((eff s).toNat + 1) = s.calls - (eff s).toNat := by omega
        rw [hEn, hcalls', hlg, m1, m2, hdn, cycleCalls_succ]
        rw [hb, drop_append_singleton _ _ _ (by rw [hlog]; omega), hdrop, hname, hE]
    · have hfull : (eff s).toNat + 1 = s.usableAds.length := by
        rw [hidx, hcnt] at hge
        omega
      rw [hrec, hfull] at hu
      obtain ⟨v, hv, -, hvl⟩ := rebuild_cycle p s.usableAds s.displayName
        (s.calls - (eff s).toNat) _ (hperm (s.calls + 1) _)
      rw [hu] at hv
      cases hv
      have hvl' : (u.length : Int) ≤ s.usableAds.length := by exact_mod_cast hvl
      rcases hcases with ⟨-, hpos, -, m2, m3, m4, -, m6⟩ | ⟨-, ⟨r1, r2, r3, r4, r5⟩, hz⟩
      · have hwu : wrap32 (u.length : Int) = u.length := wrap32_eq ⟨by omega, by omega⟩
        rw [hwu] at hpos m3
        clear hwu
        have hune' : s'.usableAds ≠ [] := by
          rw [m2]
          intro h0
          rw [h0] at hpos
          simp at hpos
        refine rrInv_fresh hune' (by rw [m2]; omega) (by rw [m3, m2])
          (by rw [m6, hidx]; omega) (eff_of_ge hsucc ?_) m4 hlen'
        rw [m6, m3, hidx]
        omega
      · exact rrInv_fresh (by rw [r2]; exact hne) (by rw [r2]) (by rw [r3, r2]; exact wrap32_eq ⟨by omega, hlen⟩)
          (by rw [hz]) (eff_of_zero hz) r4 hlen'

theorem targetZones_length (log : List Event) (k : Int) :
    (targetZones log k).length = attemptsFor log k := by
  simp [targetZones, attemptsFor]

theorem targetZones_step {s s' : LoopState} {z d : String} {ok : Bool}
    (h : launches s'.log = launches s.log ++ [(s.pos, z, d, ok)]) (k : Int) :
    targetZones s'.log k = targetZones s.log k ++ (if s.pos = k then [z] else []) := by
  simp only [targetZones, h, List.filter_append, List.map_append]
  by_cases hk : s.pos = k <;> simp [List.filter, hk]

theorem attemptsFor_launch {s s' : LoopState} {z d : String} {ok : Bool}
    (h : launches s'.log = launches s.log ++ [(s.pos, z, d, ok)]) (k : Int) :
    attemptsFor s'.log k = attemptsFor s.log k + (if s.pos = k then 1 else 0) := by
  simp only [attemptsFor, h, List.filter_append, List.length_append]
  by_cases hk : s.pos = k <;> simp [List.filter, hk]

theorem firstCycleInv_fresh {c : Ctx} {s s' : LoopState} {z d : String} {ok : Bool}
    (hlen : (c.ads.length : Int) ≤ 2147483647) (hs : FirstCycleInv c s)
    (hpos : s.pos < 2147483647)
    (hlg : launches s'.log = launches s.log ++ [(s.pos, z, d, ok)])
    (hz : attemptsFor s.log s.pos < c.ads.length →
      z = zoneName c.ads (attemptsFor s.log s.pos))
    (hstate : (s'.pos = s.pos ∧ (attemptsFor s.log s.pos + 1 < c.ads.length →
          s'.usableAds = c.ads ∧ s'.adCount = c.ads.length ∧
          eff s' = attemptsFor s.log s.pos + 1)) ∨
      (Reset c s s' ∧ eff s' = 0)) :
    FirstCycleInv c s' := by
  obtain ⟨hp0, hlater, hcur, hlogz⟩ := hs
  have hatt := attemptsFor_launch hlg
  have htz := targetZones_step hlg
  have hwp : wrap32 (s.pos + 1) = s.pos + 1 := wrap32_eq (by unfold inInt32; omega)
  have hlogz' : ∀ (k : Int) (t : Nat) (z' : String), t < c.ads.length →
      (targetZones s'.log k)[t]? = some z' → z' = zoneName c.ads t := by
    intro k t z' ht hget
    rw [htz k] at hget
    by_cases hk : s.pos = k
    · rw [if_pos hk] at hget
      by_cases hlt : t < (targetZones s.log k).length
      · rw [List.getElem?_append_left hlt] at hget
        exact hlogz k t z' ht hget
      · rw [List.getElem?_append_right (by omega)] at hget
        have hlen0 := targetZones_length s.log k
        by_cases heq : t = (targetZones s.log k).length
        · rw [heq, Nat.sub_self] at hget
          simp only [List.getElem?_cons_zero, Option.some.injEq] at hget
          rw [← hget, heq, hlen0, ← hk]
          exact hz (by rw [hk, ← hlen0, ← heq]; exact ht)
        · have : t - (targetZones s.log k).length = (t - (targetZones s.log k).length - 1) + 1 := by
            omega
          rw [this] at hget
          simp at hget
    · rw [if_neg hk, List.append_nil] at hget
      exact hlogz k t z' ht hget
  rcases hstate with ⟨hsame, hst⟩ | ⟨⟨r1, r2, r3, r4, r5⟩, heff⟩
  · refine ⟨by rw [hsame]; exact hp0, ?_, ?_, hlogz'⟩
    · intro k hk
      rw [hsame] at hk
      rw [hatt k, hlater k hk, if_neg (by omega)]
    · rw [hsame, hatt s.pos, if_pos rfl]
      intro hlt
      obtain ⟨a, b, e⟩ := hst hlt
      exact ⟨a, b, by rw [e]; push_cast; rfl⟩
  · rw [hwp] at r1
    refine ⟨by omega, ?_, ?_, hlogz'⟩
    · intro k hk
      rw [r1] at hk
      rw [hatt k, hlater k (by omega), if_neg (by omega)]
    · intro _
      refine ⟨r2, by rw [r3]; exact wrap32_eq ⟨by omega, hlen⟩, ?_⟩
      rw [heff, r1, hatt (s.pos + 1), hlater (s.pos + 1) (by omega), if_neg (by omega)]
      rfl

theorem firstCycleInv_step {c : Ctx} {p : Provider}
    (h1 : c.AD_NOT_FIXED = true) (h2 : c.EACH_AD = false)
    (hlen : (c.ads.length : Int) ≤ 2147483647) (hsum : c.sum ≤ 2147483647)
    (s s' : LoopState) (hs : FirstCycleInv c s) (hlt : s.pos < c.sum)
    (hit : iteration c p s = .ok s') : FirstCycleInv c s' := by
  obtain ⟨s1, hsel, hcalls', hname', hcases⟩ := iteration_rr h1 h2 hit
  obtain ⟨ad, had, hname, hidx⟩ := selectZone_rr h1 h2 hsel
  have hcur := hs.2.2.1
  have hz : attemptsFor s.log s.pos < c.ads.length →
      s1.adName = zoneName c.ads (attemptsFor s.log s.pos) := by
    intro ha
    obtain ⟨a, b, e⟩ := hcur ha
    rw [hname, ← e, ← a]
    simp only [zoneName, had]
  have hmid : attemptsFor s.log s.pos + 1 < c.ads.length → s1.adIndex < s.adCount ∧
      s1.adIndex = attemptsFor s.log s.pos + 1 ∧ s.usableAds = c.ads ∧
      s.adCount = c.ads.length := by
    intro ha
    obtain ⟨a, b, e⟩ := hcur (by omega)
    have hw : wrap32 (eff s + 1) = eff s + 1 := wrap32_eq (by unfold inInt32; omega)
    rw [hw] at hidx
    refine ⟨by omega, by omega, a, b⟩
  rcases hcases with ⟨created, hl, hlg, hreset, hsucc, hnum, hidx'⟩ |
    ⟨e, b, hl, hc, hlg, hsucc, hnum, hdn, hcases⟩
  · exact firstCycleInv_fresh hlen hs (by omega) hlg hz
      (Or.inr ⟨hreset, eff_of_success hsucc⟩)
  · rcases hcases with ⟨hlt', m1, m2, m3, m4, m5, m6⟩ | ⟨hge, u, hu, hcases⟩
    · refine firstCycleInv_fresh hlen hs (by omega) hlg hz (Or.inl ⟨m1, ?_⟩)
      intro ha
      obtain ⟨q1, q2, q3, q4⟩ := hmid ha
      refine ⟨by rw [m2]; exact q3, by rw [m3]; exact q4, ?_⟩
      rw [eff_of_lt hsucc (by rw [m6, m3]; exact q1), m6, q2]
    · rcases hcases with ⟨-, -, hpos, -⟩ | ⟨-, hreset, hz0⟩
      · refine firstCycleInv_fresh hlen hs (by omega) hlg hz (Or.inl ⟨hpos, ?_⟩)
        intro ha
        exact absurd (hmid ha).1 hge
      · exact firstCycleInv_fresh hlen hs (by omega) hlg hz
          (Or.inr ⟨hreset, eff_of_zero hz0⟩)

theorem firstCycleInv_init (inst : Instance) (c : Ctx)
    (h1 : c.AD_NOT_FIXED = true) (h2 : c.EACH_AD = false)
    (hlen : (c.ads.length : Int) ≤ 2147483647) : FirstCycleInv c (initState inst c) := by
  have hl : launches (initState inst c).log = [] := by
    have := zoneTrace_init inst c
    simpa only [zoneTrace, List.map_eq_nil_iff] using this
  refine ⟨by simp [initState], fun k _ => attemptsFor_init inst c k, ?_, ?_⟩
  · intro _
    refine ⟨by simp [initState, h1, h2], ?_, ?_⟩
    · show wrap32 (c.ads.length : Int) = _
      exact wrap32_eq ⟨by omega, hlen⟩
    · rw [attemptsFor_init, eff_of_zero rfl]; rfl
  · intro k t z _ hget
    simp [targetZones, hl] at hget

theorem wrap32_succ_ne (x : Int) : wrap32 (x + 1) ≠ x := by
  unfold wrap32; omega

theorem rrInv_reachable (inst : Instance) (EACH : Bool) (p : Provider)
    (ads : List AvailabilityDomain) (hmode : inst.AvailabilityDomain = "" ∧ inst.Each ≤ 0)
    (hne : ads ≠ []) (hlen : (ads.length : Int) ≤ 2147483647)
    (hperm : ∀ i m, (p.mapOrder i m).Perm m) (n : Nat) (s : LoopState)
    (hrun : runFor (initCtx inst EACH p ads) p n (initState inst (initCtx inst EACH p ads))
      = .ok s) :
    RRInv (initCtx inst EACH p ads) p s := by
  obtain ⟨c1, c2, -, -, c5⟩ := initCtx_roundRobin inst EACH p ads hmode
  have hne' : (initCtx inst EACH p ads).ads ≠ [] := by rw [c5]; exact hne
  have hlen' : (((initCtx inst EACH p ads).ads.length : Nat) : Int) ≤ 2147483647 := by
    rw [c5]; exact hlen
  exact runFor_inv (RRInv (initCtx inst EACH p ads) p)
    (fun s s' hs _ hit => rrInv_step c1 c2 hne' hlen' hperm hs hit)
    n _ s (rrInv_init inst _ p c1 c2 hne' hlen') hrun

/-- What a pass of the loop does to the usable zones in round-robin mode. -/
theorem rr_usable_step {c : Ctx} {p : Provider} {s s' : LoopState}
    (h1 : c.AD_NOT_FIXED = true) (h2 : c.EACH_AD = false)
    (hlen : (c.ads.length : Int) ≤ 2147483647)
    (hperm : ∀ i m, (p.mapOrder i m).Perm m)
    (hs : RRInv c p s) (hit : iteration c p s = .ok s') :
    (s'.pos ≠ s.pos → s'.usableAds = c.ads ∧ s'.SKIP_RETRY_MAP = []) ∧
    (s'.pos = s.pos → eff s + 1 < s.usableAds.length → s'.usableAds = s.usableAds) ∧
    (s'.pos = s.pos → ¬ eff s + 1 < s.usableAds.length →
      (launches s'.log).drop (s'.calls - s.usableAds.length) =
        cycleCalls s.pos s.usableAds s.displayName s.usableAds.length ∧
      s'.usableAds.Perm (survivors p s.usableAds s.displayName
        (s'.calls - s.usableAds.length)) ∧
      s'.SKIP_RETRY_MAP = [] ∧ s'.adCount = s'.usableAds.length) := by
  obtain ⟨s1, hsel, e0, e1, hname, hidx⟩ := rr_select h1 h2 hlen hs
  obtain ⟨t1, hselt, hcalls', hname', hcases⟩ := iteration_rr h1 h2 hit
  rw [hsel] at hselt
  cases hselt
  have hs0 := hs
  obtain ⟨hune, hule, hcnt, hidx0, hEc, hmap, hlog, hdrop⟩ := hs
  have hE : ((eff s).toNat : Int) = eff s := Int.toNat_of_nonneg e0
  rcases hcases with ⟨created, hl, hlg, ⟨r1, r2, r3, r4, r5⟩, hsucc, hnum, hidx'⟩ |
    ⟨e, b, hl, hc, hlg, hsucc, hnum, hdn, hcases⟩
  · exact ⟨fun _ => ⟨r2, r4⟩, fun h => absurd (r1.symm.trans h) (wrap32_succ_ne _),
      fun h => absurd (r1.symm.trans h) (wrap32_succ_ne _)⟩
  · have hrec := rr_record hs0 e0 e1 hidx hname hlen hl hc
    rcases hcases with ⟨hlt, m1, m2, m3, m4, m5, m6⟩ | ⟨hge, u, hu, hcases⟩
    · refine ⟨fun h => absurd m1 h, fun _ _ => m2, fun _ h => ?_⟩
      rw [hidx, hcnt] at hlt
      exact absurd hlt h
    · have hfull : (eff s).toNat + 1 = s.usableAds.length := by
        rw [hidx, hcnt] at hge
        omega
      rw [hrec, hfull] at hu
      obtain ⟨v, hv, hvp, hvl⟩ := rebuild_cycle p s.usableAds s.displayName
        (s.calls - (eff s).toNat) _ (hperm (s.calls + 1) _)
      rw [hu] at hv
      cases hv
      have hvl' : (u.length : Int) ≤ s.usableAds.length := by exact_mod_cast hvl
      have hbase : s'.calls - s.usableAds.length = s.calls - (eff s).toNat := by
        rw [hcalls', ← hfull]; omega
      rcases hcases with ⟨-, hpos, m1, m2, m3, m4, -, m6⟩ | ⟨-, ⟨r1, r2, r3, r4, r5⟩, hz⟩
      · refine ⟨fun h => absurd m1 h, fun _ h => ?_, fun _ _ => ⟨?_, ?_, m4, ?_⟩⟩
        · rw [hidx, hcnt] at hge
          exact absurd h hge
        · rw [hbase, hlg, drop_append_singleton _ _ _ (by rw [hlog]; omega), hdrop, hname,
            ← hfull, cycleCalls_succ, hE]
        · rw [hbase, m2]; exact hvp
        · rw [m3, m2]
          exact wrap32_eq ⟨by omega, by omega⟩
      · exact ⟨fun _ => ⟨r2, r4⟩, fun h => absurd (r1.symm.trans h) (wrap32_succ_ne _),
          fun h => absurd (r1.symm.trans h) (wrap32_succ_ne _)⟩

/-- In round-robin mode a pass from a state that satisfies `RRInv` does not fault, provided
the error of the create call, if any, is classified without fault. -/
theorem iteration_rr_total {c : Ctx} {p : Provider} {s : LoopState}
    (h1 : c.AD_NOT_FIXED = true) (h2 : c.EACH_AD = false)
    (hlen : (c.ads.length : Int) ≤ 2147483647)
    (hperm : ∀ i m, (p.mapOrder i m).Perm m) (hs : RRInv c p s)
    (hserv : ∀ e, p.LaunchInstance s.calls (zoneName s.usableAds (eff s)) s.displayName
      = .error e → ∃ b, classify e = .ok b) :
    ∃ s', iteration c p s = .ok s' := by
  obtain ⟨s1, hsel, e0, e1, hname, hidx⟩ := rr_select h1 h2 hlen hs
  obtain ⟨f1, f2, f3, f4, f5, f6, f7, f8, f9, f10, f11⟩ := selectZone_fields hsel
  cases hl : p.LaunchInstance s1.calls s1.adName s1.displayName with
  | ok created => exact ⟨_, iteration_success hsel hl⟩
  | error e =>
    obtain ⟨b, hc⟩ := hserv e (by rw [← hname, ← f3, ← f5]; exact hl)
    rw [iteration_failure hsel hl hc]
    simp only [afterFailure, h1, h2, if_true, Bool.false_eq_true, not_false_eq_true]
    split
    · exact ⟨_, rfl⟩
    · rename_i hge
      have hge' : ¬ s1.adIndex < s.adCount := by rw [← f9]; exact hge
      have hl' : p.LaunchInstance s.calls s1.adName s.displayName = .error e := by
        rw [← f3, ← f5]; exact hl
      have hrec := rr_record hs e0 e1 hidx hname hlen hl' hc
      obtain ⟨hune, hule, hcnt, hidx0, hEc, hmap, hlog, hdrop⟩ := hs
      have hfull : (eff s).toNat + 1 = s.usableAds.length := by
        rw [hidx, hcnt] at hge'
        omega
      rw [hfull] at hrec
      obtain ⟨v, hv, -, -⟩ := rebuild_cycle p s.usableAds s.displayName
        (s.calls - (eff s).toNat) _ (hperm (s.calls + 1) _)
      have hmap' : (recordFailure c (called s1 false) b (errInfoOf e)).SKIP_RETRY_MAP =
          mapSet s.SKIP_RETRY_MAP (wrap32 (s1.adIndex - 1)) b := by
        simp only [recordFailure, called, h1, h2]
        simp [f10]
      have hus : (recordFailure c (called s1 false) b (errInfoOf e)).usableAds =
          s.usableAds := f8
      have hca : (recordFailure c (called s1 false) b (errInfoOf e)).calls = s.calls + 1 := by
        show s1.calls + 1 = s.calls + 1
        rw [f3]
      simp only [endCycle]
      rw [hmap', hus, hca, hrec, hv]
      simp only
      split
      · exact ⟨_, rfl⟩
      · exact ⟨_, rfl⟩

/-- The zone tried last in a cycle survives it when its attempt was not zone-terminal. -/
theorem survivors_ne_nil (p : Provider) (u : List AvailabilityDomain) (d : String)
    (base : Nat) (k : Nat) (hk : k < u.length)
    (hv : verdict p (base + k) (zoneName u k) d = false) : survivors p u d base ≠ [] := by
  intro h
  have hmem : zoneAt u k ∈ survivors p u d base := by
    simp only [survivors, List.mem_map, List.mem_filter, List.mem_range]
    exact ⟨k, ⟨hk, by simp [hv]⟩, rfl⟩
  rw [h] at hmem
  cases hmem

/-- In round-robin mode with an unlimited retry budget, a create call that fails with a
retryable error keeps the run at the same target. -/
theorem rr_retryable_step {c : Ctx} {p : Provider} {s : LoopState}
    (h1 : c.AD_NOT_FIXED = true) (h2 : c.EACH_AD = false)
    (hlen : (c.ads.length : Int) ≤ 2147483647)
    (hperm : ∀ i m, (p.mapOrder i m).Perm m) (hs : RRInv c p s) (hr : c.retry < 0)
    (hfail : ∀ z d, ∃ e, p.LaunchInstance s.calls z d = .error e ∧ classify e = .ok false) :
    ∃ s', iteration c p s = .ok s' ∧ s'.pos = s.pos ∧ s'.num = s.num ∧
      s'.calls = s.calls + 1 := by
  obtain ⟨s1, hsel, e0, e1, hname, hidx⟩ := rr_select h1 h2 hlen hs
  obtain ⟨f1, f2, f3, f4, f5, f6, f7, f8, f9, f10, f11⟩ := selectZone_fields hsel
  obtain ⟨e, hl, hc⟩ := hfail s1.adName s.displayName
  have hl1 : p.LaunchInstance s1.calls s1.adName s1.displayName = .error e := by
    rw [f3, f5]; exact hl
  have hex : ∃ s', iteration c p s = .ok s' :=
    iteration_rr_total h1 h2 hlen hperm hs (fun e2 h2 => by
      obtain ⟨e3, hl3, hc3⟩ := hfail (zoneName s.usableAds (eff s)) s.displayName
      rw [hl3] at h2
      cases h2
      exact ⟨false, hc3⟩)
  obtain ⟨s', hit⟩ := hex
  obtain ⟨t1, hselt, hcalls', hname', hcases⟩ := iteration_rr h1 h2 hit
  rw [hsel] at hselt
  cases hselt
  refine ⟨s', hit, ?_, ?_, hcalls'⟩
  · rcases hcases with ⟨created, hl2, -⟩ | ⟨e2, b2, hl2, hc2, hlg, hsucc, hnum, hdn, hcases⟩
    · rw [hl] at hl2; cases hl2
    · rw [hl] at hl2
      cases hl2
      rw [hc] at hc2
      cases hc2
      rcases hcases with ⟨-, m1, -⟩ | ⟨hge, u, hu, hcases⟩
      · exact m1
      · rcases hcases with ⟨-, -, m1, -⟩ | ⟨hcond, -⟩
        · exact m1
        · exfalso
          apply hcond
          refine ⟨Or.inl hr, ?_⟩
          have hrec := rr_record hs e0 e1 hidx hname hlen hl hc
          obtain ⟨hune, hule, hcnt, hidx0, hEc, hmap, hlog, hdrop⟩ := hs
          have hfull : (eff s).toNat + 1 = s.usableAds.length := by
            rw [hidx, hcnt] at hge
            omega
          rw [hrec, hfull] at hu
          obtain ⟨v, hv, hvp, hvl⟩ := rebuild_cycle p s.usableAds s.displayName
            (s.calls - (eff s).toNat) _ (hperm (s.calls + 1) _)
          rw [hu] at hv
          cases hv
          have hE : ((eff s).toNat : Int) = eff s := Int.toNat_of_nonneg e0
          have hne : survivors p s.usableAds s.displayName (s.calls - (eff s).toNat) ≠ [] := by
            apply survivors_ne_nil p _ _ _ (eff s).toNat (by omega)
            rw [Nat.sub_add_cancel hEc, hE, ← hname]
            simp only [verdict, hl, hc]
          have hupos : 0 < u.length := by
            cases hu' : u with
            | nil => rw [hu'] at hvp; exact absurd hvp.symm.eq_nil hne
            | cons a rest => simp
          have hw : wrap32 (u.length : Int) = u.length := wrap32_eq ⟨by omega, by omega⟩
          rw [hw]
          exact_mod_cast hupos
  · rcases hcases with ⟨created, hl2, -⟩ | ⟨e2, b2, hl2, hc2, hlg, hsucc, hnum, -⟩
    · rw [hl] at hl2; cases hl2
    · exact hnum

theorem iteration_fail_fields {c : Ctx} {p : Provider} {s s' : LoopState}
    (hit : iteration c p s = .ok s')
    (hl : ∀ z, ∃ e, p.LaunchInstance s.calls z s.displayName = .error e) :
    s'.num = s.num ∧ s'.calls = s.calls + 1 := by
  obtain ⟨s1, ok, hsel, hok, hcalls, -, -, -, -, hF⟩ := iteration_ok hit
  have hokf : ok = false := by
    cases ok with
    | false => rfl
    | true =>
      obtain ⟨created, hcr⟩ := hok.mp rfl
      obtain ⟨e2, he2⟩ := hl s1.adName
      rw [he2] at hcr
      cases hcr
  exact ⟨(hF hokf).1, hcalls⟩

theorem convergeInv_step {c : Ctx} {p : Provider}
    (hmode : c.AD_NOT_FIXED = false ∨
      (c.AD_NOT_FIXED = true ∧ c.EACH_AD = false ∧ c.ads ≠ [] ∧
        (c.ads.length : Int) ≤ 2147483647 ∧ ∀ i m, (p.mapOrder i m).Perm m))
    (hr : c.retry < 0) (hsum : c.sum = 2)
    (hfail : ∀ i z d, i < 3 → ∃ e, p.LaunchInstance i z d = .error e ∧ classify e = .ok false)
    (hok : ∀ i z d, 3 ≤ i → ∃ created, p.LaunchInstance i z d = .ok created)
    (s : LoopState) (hs : ConvergeInv c p s) (hlt : s.pos < c.sum) :
    ∃ s', iteration c p s = .ok s' ∧ ConvergeInv c p s' ∧ 5 - s'.calls < 5 - s.calls := by
  obtain ⟨hrr, hc5, hlow, hhigh, hexact, hlen5⟩ := hs
  have hexact' : ∀ s', iteration c p s = .ok s' → CountersExact c s' ∧
      (launches s'.log).length = s'.calls := by
    intro s' hit
    refine ⟨countersExact_step (by rw [hsum]; decide) s s' hexact hlt hit, ?_⟩
    obtain ⟨s1, ok, -, -, hcalls, -, hlog, -⟩ := iteration_ok hit
    rw [hlog, List.length_append, hlen5, hcalls]; rfl
  rw [hsum] at hlt
  have hc4 : s.calls ≤ 4 := by
    by_contra hcon
    have := (hhigh (by omega)).1
    omega
  -- the pass returns, and the round-robin invariant is kept
  have hstep : ∃ s', iteration c p s = .ok s' ∧ s'.calls = s.calls + 1 ∧
      (s.calls < 3 → s'.pos = s.pos ∧ s'.num = s.num) ∧
      (3 ≤ s.calls → s'.pos = wrap32 (s.pos + 1) ∧ s'.num = wrap32 (s.num + 1)) := by
    by_cases h3 : s.calls < 3
    · rcases hmode with hfix | ⟨h1, h2, hne, hlen, hperm⟩
      · obtain ⟨e, hl, hc⟩ := hfail s.calls s.adName s.displayName h3
        obtain ⟨s', hit, -, -, hcases⟩ :=
          iteration_failure_counted (Or.inl hfix) (selectZone_fixed hfix s) hl hc
        have hf := iteration_fail_fields hit
          (fun z => (hfail s.calls z s.displayName h3).imp fun _ h => h.1)
        rcases hcases with h | h
        · exact ⟨s', hit, hf.2, fun _ => ⟨h.2.2.1, hf.1⟩, fun h' => absurd h3 (by omega)⟩
        · exact absurd ⟨Or.inl hr, rfl⟩ h.1
      · obtain ⟨s', hit, a, b, d⟩ := rr_retryable_step h1 h2 hlen hperm (hrr h1) hr
          (fun z d => hfail s.calls z d h3)
        exact ⟨s', hit, d, fun _ => ⟨a, b⟩, fun h' => absurd h3 (by omega)⟩
    · have hsel : ∃ s1, selectZone c s = .ok s1 := by
        rcases hmode with hfix | ⟨h1, h2, hne, hlen, hperm⟩
        · exact ⟨s, selectZone_fixed hfix s⟩
        · obtain ⟨s1, hsel, -⟩ := rr_select h1 h2 hlen (hrr h1)
          exact ⟨s1, hsel⟩
      obtain ⟨s1, hsel⟩ := hsel
      have hf := selectZone_fields hsel
      obtain ⟨created, hl⟩ := hok s1.calls s1.adName s1.displayName (by rw [hf.2.2.1]; omega)
      obtain ⟨s', hit, a, b, d, -⟩ := iteration_success_fields (c := c) (p := p) hsel hl
      exact ⟨s', hit, d, fun h' => absurd h' h3, fun _ => ⟨a, b⟩⟩
  obtain ⟨s', hit, hcalls, hA, hB⟩ := hstep
  refine ⟨s', hit, ⟨?_, by omega, ?_, ?_, (hexact' s' hit).1, (hexact' s' hit).2⟩, by omega⟩
  · intro h1
    rcases hmode with hfix | ⟨-, h2, hne, hlen, hperm⟩
    · rw [hfix] at h1; cases h1
    · exact rrInv_step h1 h2 hne hlen hperm (hrr h1) hit
  · intro h
    have h3 : s.calls < 3 := by omega
    obtain ⟨a, b⟩ := hA h3
    obtain ⟨a0, b0⟩ := hlow (by omega)
    exact ⟨by rw [a]; exact a0, by rw [b]; exact b0⟩
  · intro h
    rw [hcalls]
    push_cast
    by_cases h3 : s.calls < 3
    · obtain ⟨a, b⟩ := hA h3
      obtain ⟨a0, b0⟩ := hlow (by omega)
      have : s.calls = 2 := by omega
      rw [a, b, a0, b0, this]
      exact ⟨by norm_num, by norm_num⟩
    · obtain ⟨a, b⟩ := hB (by omega)
      obtain ⟨a0, b0⟩ := hhigh (by omega)
      have hw1 : wrap32 (s.pos + 1) = s.pos + 1 := wrap32_eq (by unfold inInt32; omega)
      have hw2 : wrap32 (s.num + 1) = s.num + 1 := by
        rw [b0, ← a0]; exact hw1
      rw [hw1] at a
      rw [hw2] at b
      clear hw1 hw2
      omega

theorem classify_fault {e : LaunchError} {f : Fault} (h : classify e = .error f) :
    f = Fault.nilDereference := by
  cases e with
  | service se => rw [classify_service] at h; cases h
  | other text => rw [classify_other] at h; cases h; rfl

/-- A pass whose zone selection succeeds and whose create call fails with an error that
cannot be classified faults on the nil service error, not on an index. -/
theorem iteration_unclassified {c : Ctx} {p : Provider} {s s1 : LoopState} {e : LaunchError}
    (hsel : selectZone c s = .ok s1)
    (hl : p.LaunchInstance s1.calls s1.adName s1.displayName = .error e)
    (hc : ¬ ∃ b, classify e = .ok b) :
    iteration c p s = .error Fault.nilDereference := by
  cases hc' : classify e with
  | ok b => exact absurd ⟨b, hc'⟩ hc
  | error f =>
    have hf := classify_fault hc'
    subst hf
    simp only [iteration, hsel, hl, onFailure, hc']

/-- In fixed-zone and quota-per-zone modes a pass whose zone selection succeeds does not
fault on an index. -/
theorem iteration_counted_no_index {c : Ctx} {p : Provider} {s s1 : LoopState}
    (hmode : c.AD_NOT_FIXED = false ∨ c.EACH_AD = true) (hsel : selectZone c s = .ok s1) :
    iteration c p s ≠ .error Fault.indexOutOfRange := by
  cases hl : p.LaunchInstance s1.calls s1.adName s1.displayName with
  | ok created => rw [iteration_success hsel hl]; intro h; cases h
  | error e =>
    by_cases hc : ∃ b, classify e = .ok b
    · obtain ⟨b, hc⟩ := hc
      obtain ⟨s', hit, -⟩ := iteration_failure_counted hmode hsel hl hc
      rw [hit]; intro h; cases h
    · rw [iteration_unclassified hsel hl hc]; intro h; cases h

/-- In round-robin mode a pass from a state that satisfies `RRInv` does not fault on an
index. -/
theorem iteration_rr_no_index {c : Ctx} {p : Provider} {s : LoopState}
    (h1 : c.AD_NOT_FIXED = true) (h2 : c.EACH_AD = false)
    (hlen : (c.ads.length : Int) ≤ 2147483647)
    (hperm : ∀ i m, (p.mapOrder i m).Perm m) (hs : RRInv c p s) :
    iteration c p s ≠ .error Fault.indexOutOfRange := by
  by_cases hserv : ∀ e, p.LaunchInstance s.calls (zoneName s.usableAds (eff s)) s.displayName
      = .error e → ∃ b, classify e = .ok b
  · obtain ⟨s', hit⟩ := iteration_rr_total h1 h2 hlen hperm hs hserv
    rw [hit]; intro h; cases h
  · obtain ⟨s1, hsel, -, -, hname, -⟩ := rr_select h1 h2 hlen hs
    have hf := selectZone_fields hsel
    push_neg at hserv
    obtain ⟨e, hl, hc⟩ := hserv
    rw [← hname, ← hf.2.2.1, ← hf.2.2.2.2.1] at hl
    rw [iteration_unclassified hsel hl (by push_neg; exact hc)]
    intro h; cases h

theorem rrInv_keys {c : Ctx} {p : Provider} {s : LoopState}
    (hlen : (c.ads.length : Int) ≤ 2147483647) (hs : RRInv c p s) :
    ∀ e ∈ s.SKIP_RETRY_MAP, 0 ≤ e.1 ∧ e.1 < s.usableAds.length := by
  obtain ⟨hune, hule, hcnt, hidx0, hEc, hmap, -⟩ := hs
  have hpos : 0 < s.usableAds.length := List.length_pos.mpr hune
  obtain ⟨e0, e1⟩ := eff_bounds hidx0 (by rw [hcnt]; exact_mod_cast hpos)
  rw [hmap]
  exact cycleRecord_keys p s.usableAds s.displayName _ _ (by rw [hcnt] at e1; omega)

/-! ## Lemmas: termination with a bounded retry budget -/

theorem boundInv_of_case {c : Ctx} {s s' : LoopState} (hr0 : 0 ≤ c.retry)
    (hs : BoundInv c s) (hlt : s.pos < c.sum) (hcalls : s'.calls = s.calls + 1)
    (hatt : ∀ k, attemptsFor s'.log k = attemptsFor s.log k + (if s.pos = k then 1 else 0))
    (hcase : StepCase c s s') :
    BoundInv c s' ∧ (potential c s').toNat < (potential c s).toNat := by
  obtain ⟨hp0, hf0, hfr, hc0, hcw, -, hpot, hcur, hprev, hlater⟩ := hs
  have hW : (0 : Int) ≤ (width c : Int) := Int.ofNat_nonneg _
  have hT : budget c = c.retry * width c + width c := by unfold budget; ring
  have hRW : 0 ≤ c.retry * (width c : Int) := Int.mul_nonneg hr0 hW
  have hFW : s.failTimes * (width c : Int) ≤ c.retry * width c :=
    Int.mul_le_mul_of_nonneg_right hfr hW
  have hFW0 : 0 ≤ s.failTimes * (width c : Int) := Int.mul_nonneg hf0 hW
  have hN1 : (1 : Int) ≤ ((c.sum - s.pos).toNat : Int) := by omega
  have hT0 : 0 ≤ budget c := by rw [hT]; omega
  have hNT : budget c ≤ ((c.sum - s.pos).toNat : Int) * budget c := by
    have := Int.mul_le_mul_of_nonneg_right hN1 hT0
    rw [Int.one_mul] at this
    exact this
  have hattp := hatt s.pos
  rw [if_pos rfl] at hattp
  rcases hcase with ⟨a, b, d⟩ | ⟨a, b, d, d'⟩ | ⟨a, b, b', d⟩
  · -- the target index advances
    have hN' : ((c.sum - s'.pos).toNat : Int) = ((c.sum - s.pos).toNat : Int) - 1 := by
      rw [a]; omega
    have hpot' : potential c s' = ((c.sum - s.pos).toNat : Int) * budget c - budget c := by
      unfold potential
      rw [hN', b, d]
      ring
    have hpot0 : potential c s = ((c.sum - s.pos).toNat : Int) * budget c -
        (s.failTimes * width c + cursor c s) := rfl
    refine ⟨⟨by omega, by omega, by omega, by omega, by omega, fun _ => ⟨b, d⟩, by omega,
      ?_, ?_, ?_⟩, by omega⟩
    · rw [a, hatt (s.pos + 1), hlater (s.pos + 1) (by omega), if_neg (by omega), b, d]
      simp
    · intro k hk
      rw [a] at hk
      by_cases hkp : k = s.pos
      · rw [hkp, hattp]
        push_cast
        omega
      · rw [hatt k, if_neg (fun h => hkp h.symm)]
        exact hprev k (by omega)
    · intro k hk
      rw [a] at hk
      rw [hatt k, hlater k (by omega), if_neg (by omega)]
  · -- one zone further in the cycle
    have hpot' : potential c s' = potential c s - 1 := by
      unfold potential
      rw [a, b, d]
      ring
    have hpot0 : potential c s = ((c.sum - s.pos).toNat : Int) * budget c -
        (s.failTimes * width c + cursor c s) := rfl
    refine ⟨⟨by omega, by omega, by omega, by omega, by omega,
      fun h => absurd (a ▸ hlt) h, by omega, ?_, ?_, ?_⟩, by omega⟩
    · rw [a, hattp, b, d]
      push_cast
      omega
    · intro k hk
      rw [a] at hk
      rw [hatt k, if_neg (by omega)]
      exact hprev k hk
    · intro k hk
      rw [a] at hk
      rw [hatt k, hlater k hk, if_neg (by omega)]
  · -- a new cycle for the same target
    have hFW' : s'.failTimes * (width c : Int) = s.failTimes * width c + width c := by
      rw [b]; ring
    have hFW'' : s'.failTimes * (width c : Int) ≤ c.retry * width c :=
      Int.mul_le_mul_of_nonneg_right b' hW
    have hpot' : potential c s' = ((c.sum - s.pos).toNat : Int) * budget c -
        (s.failTimes * width c + width c) := by
      unfold potential
      rw [a, hFW', d]
      ring
    have hpot0 : potential c s = ((c.sum - s.pos).toNat : Int) * budget c -
        (s.failTimes * width c + cursor c s) := rfl
    refine ⟨⟨by omega, by omega, b', by omega, by omega,
      fun h => absurd (a ▸ hlt) h, by omega, ?_, ?_, ?_⟩, by omega⟩
    · rw [a, hattp, hFW', d]
      push_cast
      omega
    · intro k hk
      rw [a] at hk
      rw [hatt k, if_neg (by omega)]
      exact hprev k hk
    · intro k hk
      rw [a] at hk
      rw [hatt k, hlater k hk, if_neg (by omega)]

theorem cursor_rr {c : Ctx} (h1 : c.AD_NOT_FIXED = true) (h2 : c.EACH_AD = false)
    (s : LoopState) : cursor c s = eff s := by
  simp [cursor, h1, h2]

theorem width_rr {c : Ctx} (h1 : c.AD_NOT_FIXED = true) (h2 : c.EACH_AD = false) :
    width c = c.ads.length := by
  simp [width, h1, h2]

theorem cursor_counted {c : Ctx} (h : c.AD_NOT_FIXED = false ∨ c.EACH_AD = true)
    (s : LoopState) : cursor c s = 0 := by
  rcases h with h | h <;> simp [cursor, h]

theorem width_counted {c : Ctx} (h : c.AD_NOT_FIXED = false ∨ c.EACH_AD = true) :
    width c = 1 := by
  rcases h with h | h <;> simp [width, h]

/-- In fixed-zone and quota-per-zone modes, with `0 ≤ failTimes ≤ retry ≤ 2 ^ 31 - 2`, a
pass whose zone selection succeeds returns, and either advances the target index or
retries the target with `failTimes` one higher, still within the budget. -/
theorem counted_step_case {c : Ctx} {p : Provider} {s s1 : LoopState}
    (hmode : c.AD_NOT_FIXED = false ∨ c.EACH_AD = true)
    (hr0 : 0 ≤ c.retry) (hr1 : c.retry ≤ 2147483646) (hsum : c.sum ≤ 2147483647)
    (hserv : ∀ i z d e, p.LaunchInstance i z d = .error e → ∃ b, classify e = .ok b)
    (hp0 : 0 ≤ s.pos) (hlt : s.pos < c.sum) (hf0 : 0 ≤ s.failTimes)
    (hfr : s.failTimes ≤ c.retry) (hsel : selectZone c s = .ok s1) :
    ∃ s', iteration c p s = .ok s' ∧ StepCase c s s' := by
  have hwp : wrap32 (s.pos + 1) = s.pos + 1 := wrap32_eq (by unfold inInt32; omega)
  have hwf : wrap32 (s.failTimes + 1) = s.failTimes + 1 :=
    wrap32_eq (by unfold inInt32; omega)
  cases hl : p.LaunchInstance s1.calls s1.adName s1.displayName with
  | ok created =>
    obtain ⟨s', hit, a, -, -, -, -, -, -, -, -, b, -⟩ :=
      iteration_success_fields (c := c) (p := p) hsel hl
    rw [hwp] at a
    exact ⟨s', hit, Or.inl ⟨a, b, cursor_counted hmode s'⟩⟩
  | error e =>
    obtain ⟨b, hc⟩ := hserv _ _ _ _ hl
    obtain ⟨s', hit, -, -, hcases⟩ := iteration_failure_counted hmode hsel hl hc
    rw [hwp, hwf] at hcases
    refine ⟨s', hit, ?_⟩
    rcases hcases with ⟨hcond, -, a, b'⟩ | ⟨-, a, b'⟩
    · refine Or.inr (Or.inr ⟨a, b', ?_, cursor_counted hmode s'⟩)
      rw [b']
      rcases hcond with h | h
      · omega
      · exact h
    · exact Or.inl ⟨a, b', cursor_counted hmode s'⟩

/-- In round-robin mode, with `0 ≤ failTimes ≤ retry ≤ 2 ^ 31 - 2`, a pass from a state
that satisfies `RRInv` returns, and ends in one of the three ways of `StepCase`. -/
theorem rr_step_case {c : Ctx} {p : Provider} {s : LoopState}
    (h1 : c.AD_NOT_FIXED = true) (h2 : c.EACH_AD = false) (hne : c.ads ≠ [])
    (hlen : (c.ads.length : Int) ≤ 2147483647)
    (hperm : ∀ i m, (p.mapOrder i m).Perm m)
    (hr0 : 0 ≤ c.retry) (hr1 : c.retry ≤ 2147483646) (hsum : c.sum ≤ 2147483647)
    (hserv : ∀ i z d e, p.LaunchInstance i z d = .error e → ∃ b, classify e = .ok b)
    (hp0 : 0 ≤ s.pos) (hlt : s.pos < c.sum) (hf0 : 0 ≤ s.failTimes)
    (hfr : s.failTimes ≤ c.retry) (hs : RRInv c p s) :
    ∃ s', iteration c p s = .ok s' ∧ RRInv c p s' ∧ StepCase c s s' := by
  have hwp : wrap32 (s.pos + 1) = s.pos + 1 := wrap32_eq (by unfold inInt32; omega)
  have hwf : wrap32 (s.failTimes + 1) = s.failTimes + 1 :=
    wrap32_eq (by unfold inInt32; omega)
  obtain ⟨s', hit⟩ := iteration_rr_total h1 h2 hlen hperm hs (fun e h => hserv _ _ _ e h)
  have hs' := rrInv_step h1 h2 hne hlen hperm hs hit
  obtain ⟨s1, hsel, e0, e1, hname, hidx⟩ := rr_select h1 h2 hlen hs
  obtain ⟨t1, hselt, hcalls', hname', hcases⟩ := iteration_rr h1 h2 hit
  rw [hsel] at hselt
  cases hselt
  refine ⟨s', hit, hs', ?_⟩
  unfold StepCase
  rw [cursor_rr h1 h2, cursor_rr h1 h2, width_rr h1 h2]
  have hcnt := hs.2.2.1
  have hule := hs.2.1
  rcases hcases with ⟨created, hl, hlg, ⟨r1, r2, r3, r4, r5⟩, hsucc, hnum, hidx'⟩ |
    ⟨e, b, hl, hc, hlg, hsucc, hnum, hdn, hcases⟩
  · rw [hwp] at r1
    exact Or.inl ⟨r1, r5, eff_of_success hsucc⟩
  · rcases hcases with ⟨hlt', m1, m2, m3, m4, m5, m6⟩ | ⟨hge, u, hu, hcases⟩
    · have heff : eff s' = eff s + 1 := by
        rw [eff_of_lt hsucc (by rw [m6, m3]; exact hlt'), m6, hidx]
      refine Or.inr (Or.inl ⟨m1, m5, heff, ?_⟩)
      rw [heff]
      rw [hidx, hcnt] at hlt'
      have : (s.usableAds.length : Int) ≤ c.ads.length := by exact_mod_cast hule
      clear hwp hwf
      omega
    · rcases hcases with ⟨hcond, -, m1, m2, m3, m4, m5, m6⟩ | ⟨-, ⟨r1, r2, r3, r4, r5⟩, hz⟩
      · rw [hwf] at hcond m5
        clear hwp hwf
        have heff : eff s' = 0 := by
          obtain ⟨hune', -, hcnt', hidx0', -, hmap', -⟩ := hs'
          have hpos' : 0 < s'.usableAds.length := List.length_pos.mpr hune'
          obtain ⟨a0, -⟩ := eff_bounds hidx0' (by rw [hcnt']; exact_mod_cast hpos')
          rw [m4] at hmap'
          have hl0 := congrArg List.length hmap'
          simp only [cycleRecord, List.length_nil, List.length_map, List.length_range] at hl0
          clear hcond m3
          omega
        refine Or.inr (Or.inr ⟨m1, m5, ?_, heff⟩)
        rw [m5]
        rcases hcond with h | h
        · omega
        · exact h
      · rw [hwp] at r1
        exact Or.inl ⟨r1, r5, eff_of_zero hz⟩

theorem termInv_step {c : Ctx} {p : Provider} (hok : ModeOk c p)
    (hr0 : 0 ≤ c.retry) (hr1 : c.retry ≤ 2147483646) (hsum : c.sum ≤ 2147483647)
    (hserv : ∀ i z d e, p.LaunchInstance i z d = .error e → ∃ b, classify e = .ok b)
    (s : LoopState) (hs : TermInv c p s) (hlt : s.pos < c.sum) :
    ∃ s', iteration c p s = .ok s' ∧ TermInv c p s' ∧
      (potential c s').toNat < (potential c s).toNat := by
  obtain ⟨hb, hm⟩ := hs
  have hp0 := hb.1
  have hf0 := hb.2.1
  have hfr := hb.2.2.1
  have hstep : ∃ s', iteration c p s = .ok s' ∧ ModeInv c p s' ∧ StepCase c s s' := by
    cases h1 : c.AD_NOT_FIXED with
    | false =>
      obtain ⟨s', hit, hcase⟩ := counted_step_case (p := p) (Or.inl h1) hr0 hr1 hsum hserv
        hp0 hlt hf0 hfr (selectZone_fixed h1 s)
      exact ⟨s', hit, ⟨fun h => (by rw [h1] at h; cases h), fun h => (by rw [h1] at h; cases h)⟩,
        hcase⟩
    | true =>
      cases h2 : c.EACH_AD with
      | false =>
        obtain ⟨hne, hlen, hperm⟩ := hok.1 h1 h2
        obtain ⟨s', hit, hs', hcase⟩ :=
          rr_step_case h1 h2 hne hlen hperm hr0 hr1 hsum hserv hp0 hlt hf0 hfr (hm.1 h1 h2)
        exact ⟨s', hit, ⟨fun _ _ => hs', fun _ h => (by rw [h2] at h; cases h)⟩, hcase⟩
      | true =>
        obtain ⟨hk, hsm⟩ := hok.2 h1 h2
        obtain ⟨j, hq, hj⟩ := hm.2 h1 h2
        have hj32 : j < 4294967296 := by omega
        obtain ⟨s1, ad, hsel, -⟩ := quota_select h1 h2 hk hsm hq hlt hj32
        obtain ⟨s', hit, hcase⟩ := counted_step_case (p := p) (Or.inr h2) hr0 hr1 hsum hserv
          hp0 hlt hf0 hfr hsel
        refine ⟨s', hit, ⟨fun _ h => (by rw [h2] at h; cases h), fun _ _ => ?_⟩, hcase⟩
        rcases quotaInv_step h1 h2 hk hsm s s' hq hlt hj32 hit with ⟨a, -, b⟩ | ⟨a, -, -, b, -⟩
        · exact ⟨0, a, by rw [b]; rfl⟩
        · refine ⟨j + 1, a, ?_⟩
          rw [b, wrap32_eq (by unfold inInt32; omega)]
          push_cast
          omega
  obtain ⟨s', hit, hm', hcase⟩ := hstep
  obtain ⟨-, -, -, -, hcalls, -⟩ := iteration_ok hit
  obtain ⟨hb', hdec⟩ := boundInv_of_case hr0 hb hlt hcalls (attemptsFor_step hit) hcase
  exact ⟨s', hit, ⟨hb', hm'⟩, hdec⟩

theorem termInv_init (inst : Instance) (c : Ctx) (p : Provider) (hok : ModeOk c p)
    (hr0 : 0 ≤ c.retry) : TermInv c p (initState inst c) := by
  have hcur : cursor c (initState inst c) = 0 := by
    unfold cursor
    split
    · exact eff_of_zero rfl
    · rfl
  have hw : 0 < width c := by
    unfold width
    split
    · rename_i h
      exact List.length_pos.mpr (hok.1 h.1 h.2).1
    · decide
  refine ⟨⟨by simp [initState], by simp [initState], by simpa [initState] using hr0,
    by rw [hcur], by rw [hcur]; exact_mod_cast hw, fun _ => ⟨rfl, hcur⟩, ?_, ?_,
    fun k _ => ?_, fun k _ => attemptsFor_init inst c k⟩, ?_⟩
  · unfold potential
    rw [hcur]
    simp [initState]
  · rw [attemptsFor_init, hcur]
    simp [initState]
  · rw [attemptsFor_init]
    unfold budget
    exact Int.mul_nonneg (by omega) (Int.ofNat_nonneg _)
  · refine ⟨fun h1 h2 => ?_, fun h1 h2 => ⟨0, quotaInv_init inst c, rfl⟩⟩
    obtain ⟨hne, hlen, -⟩ := hok.1 h1 h2
    exact rrInv_init inst c p h1 h2 hne hlen

theorem wrap32_le_max (x : Int) : wrap32 x ≤ 2147483647 := by
  unfold wrap32; omega

/-- With the retry budget `2 ^ 31 - 1` the test `failTimes <= retry` never fails: in
fixed-zone mode, when every create call fails with a retryable error, the loop never
leaves a target. -/
theorem max_retry_stuck {c : Ctx} {p : Provider} (hfix : c.AD_NOT_FIXED = false)
    (hr : c.retry = 2147483647)
    (hfail : ∀ i z d, ∃ e, p.LaunchInstance i z d = .error e ∧ classify e = .ok false) :
    ∀ (fuel : Nat) (s : LoopState), s.pos < c.sum → loop c p fuel s = .ok none := by
  intro fuel
  induction fuel with
  | zero =>
    intro s hlt
    unfold loop
    simp [hlt]
  | succ n ih =>
    intro s hlt
    obtain ⟨e, hl, hc⟩ := hfail s.calls s.adName s.displayName
    obtain ⟨s', hit, -, -, hcases⟩ :=
      iteration_failure_counted (Or.inl hfix) (selectZone_fixed hfix s) hl hc
    have hpos : s'.pos = s.pos := by
      rcases hcases with h | h
      · exact h.2.2.1
      · exact absurd ⟨Or.inr (by rw [hr]; exact wrap32_le_max _), rfl⟩ h.1
    unfold loop
    simp only [hlt, if_true, hit]
    exact ih s' (by rw [hpos]; exact hlt)

theorem modeOk_initCtx (inst : Instance) (EACH : Bool) (p : Provider)
    (ads : List AvailabilityDomain) (hne : ads ≠ []) (hlen : (ads.length : Int) ≤ 2147483647)
    (hperm : ∀ i m, (p.mapOrder i m).Perm m) : ModeOk (initCtx inst EACH p ads) p := by
  refine ⟨fun _ _ => ⟨hne, hlen, hperm⟩, fun h1 h2 => ?_⟩
  have a1 : inst.AvailabilityDomain = "" := by simpa [initCtx] using h1
  have a2 : 0 < inst.Each := by
    by_contra hc
    have : ¬ inst.Each > 0 := by omega
    simp [initCtx, a1, this] at h2
  obtain ⟨-, -, c3, c4, -, c6⟩ := initCtx_quota inst EACH p ads ⟨a1, a2⟩
  rw [c3, c6]
  exact ⟨a2, c4⟩

theorem width_initCtx (inst : Instance) (EACH : Bool) (p : Provider)
    (ads : List AvailabilityDomain) :
    width (initCtx inst EACH p ads) =
      if inst.AvailabilityDomain = "" ∧ inst.Each ≤ 0 then ads.length else 1 := by
  by_cases h1 : inst.AvailabilityDomain = ""
  · by_cases h2 : inst.Each ≤ 0
    · obtain ⟨c1, c2, -, -, c5⟩ := initCtx_roundRobin inst EACH p ads ⟨h1, h2⟩
      rw [width_rr c1 c2, c5, if_pos ⟨h1, h2⟩]
    · obtain ⟨c1, c2, -⟩ := initCtx_quota inst EACH p ads ⟨h1, by omega⟩
      rw [width_counted (Or.inr c2), if_neg (fun h => h2 h.2)]
  · rw [width_counted (Or.inl (initCtx_fixed inst EACH p ads h1)), if_neg (fun h => h1 h.1)]

theorem advance_log (c : Ctx) (s : LoopState) :
    (advance c s).log = s.log ++
      (if (advance c s).pos ≠ s.pos ∧ (advance c s).pos < c.sum ∧ c.EACH = true
        then [Event.send (Text.trying (wrap32 ((advance c s).pos + 1)) c.sum)] else []) := by
  have hne : (advance c s).pos ≠ s.pos := wrap32_succ_ne s.pos
  simp only [advance] at hne ⊢
  by_cases h : wrap32 (s.pos + 1) < c.sum ∧ c.EACH = true
  · rw [if_pos h, if_pos ⟨hne, h⟩]
  · rw [if_neg h, if_neg (fun h' => h h'.2), List.append_nil]

/-- What follows the sleep after a failed create call adds to the log: nothing when the
loop continues with the same target, and the "trying" message for the next target when
the target is given up, a further target remains and notification is enabled. -/
theorem afterFailure_log {c : Ctx} {p : Provider} {s s' : LoopState} {b : Bool}
    (h : afterFailure c p s b = .ok s') :
    s'.log = s.log ++
      (if s'.pos ≠ s.pos ∧ s'.pos < c.sum ∧ c.EACH = true
        then [Event.send (Text.trying (wrap32 (s'.pos + 1)) c.sum)] else []) := by
  have hsame : ∀ t : LoopState, t.pos = s.pos → t.log = s.log → t.log = s.log ++
      (if t.pos ≠ s.pos ∧ t.pos < c.sum ∧ c.EACH = true
        then [Event.send (Text.trying (wrap32 (t.pos + 1)) c.sum)] else []) := by
    intro t hp hl
    rw [if_neg (fun h' => h'.1 hp), List.append_nil, hl]
  have hadv : ∀ t : LoopState, t.pos = s.pos → t.log = s.log → (advance c t).log = s.log ++
      (if (advance c t).pos ≠ s.pos ∧ (advance c t).pos < c.sum ∧ c.EACH = true
        then [Event.send (Text.trying (wrap32 ((advance c t).pos + 1)) c.sum)] else []) := by
    intro t hp hl
    rw [advance_log c t, hp, hl]
  simp only [afterFailure, endCycle, countFailure] at h
  repeat' split at h
  all_goals first
    | (cases h; done)
    | (cases h; exact hsame _ rfl rfl)
    | (cases h; exact hadv _ rfl rfl)

theorem interleave_four (k : Nat) (schedule : List Nat) (t : Totals) (ws : List Worker)
    (sm nm rg : Int) (h : ws[k]? = some ⟨sm, nm, 0, rg⟩) :
    interleave (k :: k :: k :: k :: schedule) t ws =
      interleave schedule ⟨wrap32 (t.totalSUM + sm), wrap32 (t.totalNUM + nm)⟩
        (ws.set k ⟨sm, nm, 4, t.totalNUM⟩) := by
  have hk : k < ws.length := by
    by_contra hc
    rw [List.getElem?_eq_none (by omega)] at h
    cases h
  simp [interleave, h, access, List.getElem?_set, hk]

theorem interleave_oneByOne (rs : List (Int × Int)) :
    ∀ (pre : List Worker) (t : Totals),
      (interleave (oneByOne pre.length rs.length) t (pre ++ workers rs)).1 = addAll t rs := by
  induction rs with
  | nil => intro pre t; simp [oneByOne, interleave, addAll]
  | cons r rest ih =>
    intro pre t
    have hget : (pre ++ workers (r :: rest))[pre.length]? = some ⟨r.1, r.2, 0, 0⟩ := by
      rw [List.getElem?_append_right (Nat.le_refl _), Nat.sub_self]
      simp [workers]
    simp only [List.length_cons, oneByOne, List.cons_append, List.nil_append]
    rw [interleave_four pre.length _ t _ r.1 r.2 0 hget]
    have hset : (pre ++ workers (r :: rest)).set pre.length ⟨r.1, r.2, 4, t.totalNUM⟩ =
        (pre ++ [⟨r.1, r.2, 4, t.totalNUM⟩]) ++ workers rest := by
      simp [workers]
    rw [hset]
    have := ih (pre ++ [⟨r.1, r.2, 4, t.totalNUM⟩])
      ⟨wrap32 (t.totalSUM + r.1), wrap32 (t.totalNUM + r.2)⟩
    simp only [List.length_append, List.length_singleton] at this
    rw [this]
    simp [addAll]

theorem addAll_exact (rs : List (Int × Int)) :
    ∀ t : Totals, (∀ r ∈ rs, 0 ≤ r.2 ∧ r.2 ≤ r.1) → 0 ≤ t.totalNUM →
      t.totalNUM ≤ t.totalSUM → t.totalSUM + (rs.map (fun r => r.1)).sum ≤ 2147483647 →
      (addAll t rs).totalSUM = t.totalSUM + (rs.map (fun r => r.1)).sum ∧
      (addAll t rs).totalNUM = t.totalNUM + (rs.map (fun r => r.2)).sum ∧
      0 ≤ (addAll t rs).totalNUM ∧ (addAll t rs).totalNUM ≤ (addAll t rs).totalSUM := by
  induction rs with
  | nil => intro t _ h0 h1 _; simp [addAll, h0, h1]
  | cons r rest ih =>
    intro t hr h0 h1 hs
    have hr0 := hr r (List.mem_cons_self _ _)
    have hrest : ∀ x ∈ rest, 0 ≤ x.2 ∧ x.2 ≤ x.1 := fun x hx => hr x (List.mem_cons_of_mem _ hx)
    simp only [List.map_cons, List.sum_cons] at hs ⊢
    have hpos : 0 ≤ (rest.map (fun r => r.1)).sum := by
      apply List.sum_nonneg
      intro x hx
      simp only [List.mem_map] at hx
      obtain ⟨y, hy, rfl⟩ := hx
      have := hrest y hy
      omega
    have hw1 : wrap32 (t.totalSUM + r.1) = t.totalSUM + r.1 :=
      wrap32_eq (by unfold inInt32; omega)
    have hw2 : wrap32 (t.totalNUM + r.2) = t.totalNUM + r.2 :=
      wrap32_eq (by unfold inInt32; omega)
    have := ih ⟨wrap32 (t.totalSUM + r.1), wrap32 (t.totalNUM + r.2)⟩ hrest
      (by show 0 ≤ wrap32 (t.totalNUM + r.2); rw [hw2]; omega)
      (by show wrap32 (t.totalNUM + r.2) ≤ wrap32 (t.totalSUM + r.1); rw [hw1, hw2]; omega)
      (by show wrap32 (t.totalSUM + r.1) + _ ≤ _; rw [hw1]; omega)
    simp only [addAll]
    rw [hw1, hw2] at this
    rw [hw1, hw2]
    clear hw1 hw2
    simp only at this
    omega

/-- When the goroutines add their pairs to the totals one after the other, the pairs have
`0 ≤ num ≤ sum` and the requested counts add up to an `int32`, the totals are the sums of
the pairs and the failure figure is not negative. -/
theorem totals_one_by_one (results : List (Int × Int))
    (hr : ∀ r ∈ results, 0 ≤ r.2 ∧ r.2 ≤ r.1)
    (hs : (results.map (fun r => r.1)).sum ≤ 2147483647) :
    (interleave (oneByOne 0 results.length) ⟨0, 0⟩ (workers results)).1 =
      ⟨(results.map (fun r => r.1)).sum, (results.map (fun r => r.2)).sum⟩ ∧
    0 ≤ failureFigure (interleave (oneByOne 0 results.length) ⟨0, 0⟩ (workers results)).1 := by
  have h1 := interleave_oneByOne results [] ⟨0, 0⟩
  simp only [List.length_nil, List.nil_append] at h1
  obtain ⟨a, b, c, d⟩ := addAll_exact results ⟨0, 0⟩ hr (Int.le_refl _) (Int.le_refl _)
    (by simpa using hs)
  simp only [Int.zero_add] at a b
  rw [h1]
  refine ⟨?_, ?_⟩
  · cases h : addAll ⟨0, 0⟩ results with
    | mk x y =>
      rw [h] at a b
      simp only at a b
      rw [a, b]
  · unfold failureFigure
    rw [wrap32_eq (by unfold inInt32; omega)]
    omega

/-! ## The claims -/

/-- C1: for a failed create call whose error is a provider service error with HTTP status
`s` and code `c`, the classification of lines 476-477 completes and is zone-terminal
(`SKIP_RETRY = true`) exactly when `400 ≤ s ≤ 405`, or `s = 409` and `c` differs from
"IncorrectState" up to letter case (as `strings.EqualFold` decides it), or `s` is one of
412, 413, 422, 431, 501; every other service error is retryable, in particular 409
IncorrectState (in any letter case, also written with the long s or the Kelvin sign, which
fold to `s` and `k`), 429 and 500. A 409 whose code is another word is zone-terminal. -/
theorem classify_service_error (e : ServiceError) :
    (classify (.service e) = .ok true ↔
      (400 ≤ e.status ∧ e.status ≤ 405) ∨
      (e.status = 409 ∧ EqualFold e.code "IncorrectState" = false) ∨
      e.status = 412 ∨ e.status = 413 ∨ e.status = 422 ∨ e.status = 431 ∨ e.status = 501) ∧
    (classify (.service e) = .ok false ↔
      ¬ ((400 ≤ e.status ∧ e.status ≤ 405) ∨
      (e.status = 409 ∧ EqualFold e.code "IncorrectState" = false) ∨
      e.status = 412 ∨ e.status = 413 ∨ e.status = 422 ∨ e.status = 431 ∨ e.status = 501)) ∧
    (∀ m, classify (.service ⟨409, "IncorrectState", m⟩) = .ok false) ∧
    (∀ m, classify (.service ⟨409, "incorrectstate", m⟩) = .ok false) ∧
    (∀ c m, classify (.service ⟨429, c, m⟩) = .ok false) ∧
    (∀ c m, classify (.service ⟨500, c, m⟩) = .ok false) ∧
    (∀ m, classify (.service ⟨409, "Incorrectſtate", m⟩) = .ok false) ∧
    (∀ m, classify (.service ⟨409, "INCORRECTSTATE", m⟩) = .ok false) ∧
    (∀ m, classify (.service ⟨409, "Conflict", m⟩) = .ok true) ∧
    (∀ m, classify (.service ⟨409, "IncorrectStates", m⟩) = .ok true) := by
  refine ⟨?_, ?_, ?_, ?_, ?_, ?_, ?_, ?_, ?_, ?_⟩
  · rw [classify_service]; simp
  · rw [classify_service]; simp
  · intro m
    have h : EqualFold "IncorrectState" "IncorrectState" = true := by decide
    rw [classify_service]; simp [h]
  · intro m
    have h : EqualFold "incorrectstate" "IncorrectState" = true := by decide
    rw [classify_service]; simp [h]
  · intro c m; rw [classify_service]; simp
  · intro c m; rw [classify_service]; simp
  · intro m
    have h : EqualFold "Incorrectſtate" "IncorrectState" = true := by decide
    rw [classify_service]; simp [h]
  · intro m
    have h : EqualFold "INCORRECTSTATE" "IncorrectState" = true := by decide
    rw [classify_service]; simp [h]
  · intro m
    have h : EqualFold "Conflict" "IncorrectState" = false := by decide
    rw [classify_service]; simp [h]
  · intro m
    have h : EqualFold "IncorrectStates" "IncorrectState" = false := by decide
    rw [classify_service]; simp [h]

/-- C2 (the code departs from the claim): for a failed create call whose error is not a
provider service error, `common.IsServiceError` yields the nil interface and `false`; the
first disjunct of line 477 is then false and the second one calls
`servErr.GetHTTPStatusCode()` on nil. The classification panics for every such error, in
every mode and state, and so does a whole run whose create call times out: the attempt is
not classified as retryable and no retry follows. -/
theorem non_service_error_panics :
    (∀ text, classify (.other text) = .error .nilDereference) ∧
    (∀ c p s text, onFailure c p s (.other text) = .error .nilDereference) ∧
    (∀ fuel, LaunchInstances demoPlan true timeoutProvider demoPool (fuel + 1) =
      .error .nilDereference) := by
  refine ⟨classify_other, ?_, ?_⟩
  · intro c p s text
    simp [onFailure, classify_other]
  · intro fuel
    rfl

/-- C9: with a fixed zone configured (`AvailabilityDomain` non-empty), at every state a
run reaches, whatever the pool, `each` and the outcomes so far: every create call logged so
far was issued to the configured zone, and the zone selected for the next create call is
the configured zone again. -/
theorem fixed_zone_every_attempt (inst : Instance) (EACH : Bool) (p : Provider)
    (ads : List AvailabilityDomain) (hfix : inst.AvailabilityDomain ≠ "") (n : Nat)
    (s : LoopState)
    (hrun : runFor (initCtx inst EACH p ads) p n
      (initState inst (initCtx inst EACH p ads)) = .ok s) :
    (∀ e ∈ launches s.log, e.2.1 = inst.AvailabilityDomain) ∧
    ∃ s1, selectZone (initCtx inst EACH p ads) s = .ok s1 ∧
      s1.adName = inst.AvailabilityDomain := by
  have hc := initCtx_fixed inst EACH p ads hfix
  generalize initCtx inst EACH p ads = c at hrun hc ⊢
  have hinit : AllInZone inst.AvailabilityDomain (initState inst c) := by
    constructor
    · rfl
    · intro e he
      simp only [initState] at he
      split at he <;> simp [launches] at he
  have hinv := runFor_inv (AllInZone inst.AvailabilityDomain) (allInZone_step hc) n _ _ hinit hrun
  exact ⟨hinv.2, s, selectZone_fixed hc s, hinv.1⟩

/-- Witness for C9: four passes of a fixed-zone run over a three-zone pool in which every
create call fails with a retryable service error. -/
theorem fixed_zone_every_attempt_witness :
    "AD-1" ≠ "" ∧
    ∃ s, runFor (initCtx demoPlan false (failingProvider err500) demoPool)
        (failingProvider err500) 4
        (initState demoPlan (initCtx demoPlan false (failingProvider err500) demoPool)) = .ok s ∧
      launches s.log = [(0, "AD-1", "vm-1", false), (0, "AD-1", "vm-1", false),
        (0, "AD-1", "vm-1", false), (1, "AD-1", "vm-1", false)] ∧
      ((∀ e ∈ launches s.log, e.2.1 = "AD-1") ∧
        ∃ s1, selectZone (initCtx demoPlan false (failingProvider err500) demoPool) s = .ok s1 ∧
          s1.adName = "AD-1") :=
  ⟨by decide, _, rfl, by decide,
    fixed_zone_every_attempt demoPlan false (failingProvider err500) demoPool (by decide) 4 _ rfl⟩

/-- C10: at every state a run can reach, a create call that succeeds increases the
success count `num` by exactly one and the target index `pos` by exactly one, and
`getInstancePublicIps` is called for the new instance in that pass; this holds for every
provider, hence whatever the waiter returns (addresses, an empty list, an error). -/
theorem success_advances_num_and_pos (inst : Instance) (EACH : Bool) (p : Provider)
    (ads : List AvailabilityDomain) (hsum : inInt32 inst.Sum) (n : Nat)
    (s s1 : LoopState) (created : CoreInstance)
    (hrun : runFor (initCtx inst EACH p ads) p n
      (initState inst (initCtx inst EACH p ads)) = .ok s)
    (hpos : s.pos < (initCtx inst EACH p ads).sum)
    (hsel : selectZone (initCtx inst EACH p ads) s = .ok s1)
    (hok : p.LaunchInstance s1.calls s1.adName s1.displayName = .ok created) :
    ∃ s', iteration (initCtx inst EACH p ads) p s = .ok s' ∧
      s'.num = s.num + 1 ∧ s'.pos = s.pos + 1 ∧
      Event.waitReady created.Id ∈ s'.log := by
  have hle := initCtx_sum_le inst EACH p ads hsum
  generalize initCtx inst EACH p ads = c at hrun hpos hsel hle ⊢
  have hinv : CountersOk c s :=
    runFor_inv (CountersOk c) (countersOk_step hle) n _ _ (countersOk_init inst _) hrun
  obtain ⟨h0, h1, h2⟩ := hinv
  have hf := selectZone_fields hsel
  have h3 := advance_fields c (onSuccess c p (called s1 true) created)
  have h4 := onSuccess_fields c p (called s1 true) created
  refine ⟨advance c (onSuccess c p (called s1 true) created), ?_, ?_, ?_, ?_⟩
  · simp only [iteration, hsel, hok]
  · rw [h3.2.1, h4.2.1]
    simp only [called, hf]
    exact wrap32_eq (by unfold inInt32; omega)
  · rw [h3.1, h4.1]
    simp only [called, hf]
    exact wrap32_eq (by unfold inInt32; omega)
  · exact waitReady_logged _ _ _ _

/-- Witness for C10: the first pass of a run whose create call succeeds while the waiter
times out (the instance state can never be fetched). -/
theorem success_advances_num_and_pos_witness :
    (getInstancePublicIps unreadyProvider "ocid1.instance").err = some "timeout" ∧
    ∃ s', iteration (initCtx demoPlan true unreadyProvider demoPool) unreadyProvider
        (initState demoPlan (initCtx demoPlan true unreadyProvider demoPool)) = .ok s' ∧
      s'.num = 0 + 1 ∧ s'.pos = 0 + 1 ∧ Event.waitReady "ocid1.instance" ∈ s'.log :=
  ⟨by decide,
   success_advances_num_and_pos demoPlan true unreadyProvider demoPool (by decide) 0
    _ _ { Id := "ocid1.instance", DisplayName := "vm-1", AvailabilityDomain := "AD-1" }
    rfl (by decide) rfl rfl⟩

/-- C8, as stated, fails: with no fixed zone, `each = 1073741824` and a pool of two zones
the `int32` product `each * adCount` wraps, and `LaunchInstances` returns the target count
`-2147483648` instead of `2 * 1073741824`. -/
theorem quota_target_count_wraps :
    LaunchInstances hugeQuotaPlan false demoProvider [⟨"z0"⟩, ⟨"z1"⟩] 0 =
      .ok (some { sum := -2147483648, num := 0, calls := 0, log := [] }) ∧
    (-2147483648 : Int) ≠ 1073741824 * 2 := by
  constructor
  · rfl
  · decide

/-- C8, amended: the target count used by the loop, which every return of
`LaunchInstances` gives back as first result, is the `int32` value of
`each * adCount` (with `adCount` the `int32` length of the pool) when no fixed zone is
configured and `each > 0`, and the configured `Sum` otherwise; when `each` times the
number of zones fits `int32`, the former is exactly that product. -/
theorem target_count (inst : Instance) (EACH : Bool) (p : Provider)
    (ads : List AvailabilityDomain) :
    ((initCtx inst EACH p ads).sum =
      if inst.AvailabilityDomain = "" ∧ inst.Each > 0
      then wrap32 (inst.Each * wrap32 ads.length) else inst.Sum) ∧
    (∀ fuel r, LaunchInstances inst EACH p ads fuel = .ok (some r) →
      r.sum = (initCtx inst EACH p ads).sum) ∧
    (inst.AvailabilityDomain = "" → inst.Each > 0 →
      inst.Each * ads.length ≤ 2147483647 →
      (initCtx inst EACH p ads).sum = inst.Each * ads.length) ∧
    (inst.AvailabilityDomain ≠ "" ∨ inst.Each ≤ 0 →
      (initCtx inst EACH p ads).sum = inst.Sum) := by
  refine ⟨?_, fun fuel r h => LaunchInstances_sum h, ?_, ?_⟩
  · simp only [initCtx]
    by_cases h1 : inst.AvailabilityDomain = "" <;> by_cases h2 : inst.Each > 0 <;>
      simp [h1, h2]
  · intro h1 h2 h3
    have hlen : (ads.length : Int) ≤ 2147483647 := by
      have h0 : (0 : Int) ≤ ads.length := Int.ofNat_nonneg _
      nlinarith
    have hw : wrap32 (ads.length : Int) = ads.length := wrap32_eq ⟨by omega, hlen⟩
    have hpos : 0 ≤ inst.Each * ads.length :=
      Int.mul_nonneg (by omega) (Int.ofNat_nonneg _)
    simp only [initCtx, h1, h2, decide_True, Bool.and_self, if_true, hw]
    exact wrap32_eq ⟨by omega, h3⟩
  · intro h
    simp only [initCtx]
    rcases h with h | h
    · simp [h]
    · have : ¬ inst.Each > 0 := by omega
      simp [this]

/-- Witness for the amended C8: quota 2 over the three-zone pool gives the target 6,
whatever `Sum` says. -/
theorem target_count_witness :
    (initCtx quotaPlan false demoProvider demoPool).sum = (2 : Int) * (3 : Nat) ∧
    (∀ fuel r, LaunchInstances quotaPlan false demoProvider demoPool fuel = .ok (some r) →
      r.sum = (initCtx quotaPlan false demoProvider demoPool).sum) :=
  ⟨(target_count quotaPlan false demoProvider demoPool).2.2.1 rfl (by decide) (by decide),
   (target_count quotaPlan false demoProvider demoPool).2.1⟩

/-- C5, as stated, fails for a target count of 2: with retry budget 2, a fixed zone and
every create call failing with the retryable service error 500, the run makes 6 create
calls, the last three after the budget of the first target was used up. -/
theorem budget_exhaustion_two_targets :
    classify (.service err500) = .ok false ∧
    ∃ r, LaunchInstances twoTargetPlan false (failingProvider err500) demoPool 6 = .ok (some r) ∧
      r.num = 0 ∧ r.calls = 6 ∧ r.calls ≠ 3 ∧
      launches r.log =
        [(0, "AD-1", "vm-1", false), (0, "AD-1", "vm-1", false), (0, "AD-1", "vm-1", false),
         (1, "AD-1", "vm-1", false), (1, "AD-1", "vm-1", false), (1, "AD-1", "vm-1", false)] :=
  ⟨rfl, _, rfl, rfl, rfl, by decide, by decide⟩

/-- C5, amended: with retry budget 2, a fixed zone, a target count `Sum ≥ 1` and every
create call failing with an error the classifier treats as retryable, the run (once the
preparation has succeeded) terminates with 0 successes after exactly `3 * Sum` create
calls: exactly 3 for each target (the first call and 2 retries), none for any other
index. The budget is counted for each target, not for the run. -/
theorem retry_budget_two_per_target (inst : Instance) (EACH : Bool) (p : Provider)
    (ads : List AvailabilityDomain) (hfix : inst.AvailabilityDomain ≠ "")
    (hretry : inst.Retry = 2) (hsum : 1 ≤ inst.Sum ∧ inst.Sum ≤ 2147483647)
    (hsetup : SetupOk inst p)
    (hfail : ∀ i z d, ∃ e, p.LaunchInstance i z d = .error e ∧ classify e = .ok false)
    (fuel : Nat) (hfuel : 3 * inst.Sum.toNat ≤ fuel) :
    ∃ r, LaunchInstances inst EACH p ads fuel = .ok (some r) ∧ r.sum = inst.Sum ∧
      r.num = 0 ∧ (r.calls : Int) = 3 * inst.Sum ∧
      (∀ k : Int, 0 ≤ k → k < inst.Sum → attemptsFor r.log k = 3) ∧
      (∀ k : Int, ¬ (0 ≤ k ∧ k < inst.Sum) → attemptsFor r.log k = 0) := by
  have hc := initCtx_fixed inst EACH p ads hfix
  obtain ⟨hcs, hcr⟩ := initCtx_fixed_fields inst EACH p ads hfix
  rw [LaunchInstances_of_setup hsetup]
  generalize initCtx inst EACH p ads = c at hc hcs hcr ⊢
  have hinit : ExhaustInv c.sum (initState inst c) := by
    refine ⟨rfl, by simp [initState], by simp [initState]; omega, by simp [initState],
      by simp [initState], fun _ => rfl, by simp [initState], ?_⟩
    intro k
    rw [attemptsFor_init]
    simp only [initState]
    split_ifs <;> first | rfl | omega
  have hμ : (3 * (c.sum - (initState inst c).pos) - (initState inst c).failTimes).toNat ≤ fuel := by
    simp only [initState]; omega
  obtain ⟨s, hloop, hinv, hdone⟩ :=
    loop_inv (ExhaustInv c.sum) (fun s => (3 * (c.sum - s.pos) - s.failTimes).toNat)
      (exhaustInv_step hc (by rw [hcr]; exact hretry) (by omega) hfail) fuel _ hinit hμ
  obtain ⟨hnum, hp0, hpN, hf0, hf2, hend, hcalls, hatt⟩ := hinv
  have hpos : s.pos = c.sum := by omega
  have hft := hend hpos
  rw [hloop]
  refine ⟨_, rfl, hcs, hnum, ?_, ?_, ?_⟩
  · show (s.calls : Int) = 3 * inst.Sum
    omega
  · intro k hk0 hk1
    have := hatt k
    rw [if_pos ⟨hk0, by omega⟩] at this
    exact_mod_cast this
  · intro k hk
    have := hatt k
    have h1 : ¬ (0 ≤ k ∧ k < s.pos) := by omega
    rw [if_neg h1] at this
    split_ifs at this with h2
    · show attemptsFor s.log k = 0
      omega
    · exact_mod_cast this

/-- Witness for the amended C5: two targets, every create call failing with the service
error 500. -/
theorem retry_budget_two_per_target_witness :
    ∃ r, LaunchInstances twoTargetPlan true (failingProvider err500) demoPool 6 = .ok (some r) ∧
      r.sum = 2 ∧ r.num = 0 ∧ (r.calls : Int) = 3 * 2 ∧
      (∀ k : Int, 0 ≤ k → k < 2 → attemptsFor r.log k = 3) ∧
      (∀ k : Int, ¬ (0 ≤ k ∧ k < 2) → attemptsFor r.log k = 0) :=
  retry_budget_two_per_target twoTargetPlan true (failingProvider err500) demoPool
    (by decide) rfl (by decide) ⟨⟨"image", rfl⟩, fun h => absurd h (by decide), rfl⟩
    (fun _ _ _ => ⟨.service err500, rfl, rfl⟩) 6 (by decide)

/-- C11, as stated, fails: when all 100 poll iterations pass with every state fetch and
every interface listing succeeding and every listing empty (the instance stays in state
`Provisioning`), `getInstancePublicIps` returns an empty address list and a nil error. -/
theorem poll_exhausted_nil_error :
    pollState noInterfaceProvider "ocid1.instance" 100 =
      some (.Provisioning, { ips := [], err := none, polls := 100, fetches := 100,
                             listings := 100, sleeps := 100 }) ∧
    getInstancePublicIps noInterfaceProvider "ocid1.instance" =
      { ips := [], err := none, polls := 100, fetches := 100, listings := 100, sleeps := 100 } :=
  ⟨pollState_noInterface "ocid1.instance" 99,
   (getInstancePublicIps_eq_pollFrom noInterfaceProvider "ocid1.instance" 100 _ _
      (Nat.le_refl _) (pollState_noInterface "ocid1.instance" 99)).trans rfl⟩

/-- C11, amended: when `getInstancePublicIps` goes through all 100 poll iterations without
returning, it returns an empty address list together with the error left by the last
provider call of the 100th iteration: the error of the state fetch or of the interface
listing if that call failed, and nil if the last listing succeeded with no attachment. No
timeout error of its own is produced. -/
theorem poll_exhausted_result (p : Provider) (id : String) (ins : LifecycleState)
    (w : WaitResult) (h : pollState p id 100 = some (ins, w)) :
    getInstancePublicIps p id = w ∧ w.ips = [] ∧ w.polls = 100 ∧
    ((∃ e, p.getInstance id 99 = .error e ∧ w.err = some e) ∨
     (∃ e, p.ListVnicAttachments id 99 = .error e ∧ w.err = some e) ∨
     (p.ListVnicAttachments id 99 = .ok [] ∧ w.err = none)) := by
  have h1 := getInstancePublicIps_eq_pollFrom p id 100 ins w (Nat.le_refl _) h
  obtain ⟨a, b, -, -⟩ := pollState_fields p id 100 ins w h
  refine ⟨by rw [h1]; rfl, a, b, ?_⟩
  have h' := h
  rw [show (100 : Nat) = 99 + 1 from rfl, pollState] at h'
  split at h'
  · cases h'
  · rename_i ins0 w0 h0
    split at h'
    · cases h'
    · rename_i ins1 w1 h2
      cases h'
      exact (pollOnce_next h2).2.2.2.2

/-- Witness for the amended C11: the instance that never gets a network interface. -/
theorem poll_exhausted_result_witness :
    getInstancePublicIps noInterfaceProvider "ocid1.instance" =
      { ips := [], err := none, polls := 100, fetches := 100, listings := 100, sleeps := 100 } ∧
    ([] : List String) = [] ∧ 100 = 100 ∧
    ((∃ e, noInterfaceProvider.getInstance "ocid1.instance" 99 = .error e ∧
        (none : Option String) = some e) ∨
     (∃ e, noInterfaceProvider.ListVnicAttachments "ocid1.instance" 99 = .error e ∧
        (none : Option String) = some e) ∨
     (noInterfaceProvider.ListVnicAttachments "ocid1.instance" 99 = .ok [] ∧
        (none : Option String) = none)) :=
  poll_exhausted_result noInterfaceProvider "ocid1.instance" .Provisioning
    { ips := [], err := none, polls := 100, fetches := 100, listings := 100, sleeps := 100 }
    (pollState_noInterface "ocid1.instance" 99)

/-- C12: when a state fetch inside `getInstancePublicIps` (made in poll iteration `k`, the
instance not yet seen running) succeeds and reports `Terminating` or `Terminated`, the
function returns at once: the error is "实例已终止😔", the address list is empty, no
interface listing is made in that iteration (`listings` is unchanged) and iteration `k` is
the last one (`polls = k + 1`). -/
theorem terminated_returns_at_once (p : Provider) (id : String) (k : Nat)
    (ins st : LifecycleState) (w : WaitResult) (hk : k < 100)
    (hstate : pollState p id k = some (ins, w)) (hins : ins ≠ .Running)
    (hfetch : p.getInstance id k = .ok st) (hterm : st = .Terminating ∨ st = .Terminated) :
    getInstancePublicIps p id =
      { w with polls := w.polls + 1, fetches := w.fetches + 1, err := some "实例已终止😔" } ∧
    (getInstancePublicIps p id).err = some "实例已终止😔" ∧
    (getInstancePublicIps p id).ips = [] ∧
    (getInstancePublicIps p id).listings = w.listings ∧
    (getInstancePublicIps p id).polls = k + 1 := by
  obtain ⟨a, b, -, -⟩ := pollState_fields p id k ins w hstate
  have h1 := getInstancePublicIps_eq_pollFrom p id k ins w (by omega) hstate
  have h2 : 100 - k = (100 - (k + 1)) + 1 := by omega
  have h3 : pollOnce p id k ins w =
      .done { w with polls := w.polls + 1, fetches := w.fetches + 1,
                     err := some "实例已终止😔" } := by
    simp only [pollOnce, hfetch]
    rw [if_pos hins, if_pos hterm]
  have h4 : getInstancePublicIps p id =
      { w with polls := w.polls + 1, fetches := w.fetches + 1, err := some "实例已终止😔" } := by
    rw [h1, h2, pollFrom, h3]
  rw [h4]
  exact ⟨rfl, rfl, a, rfl, by simp [b]⟩

/-- Witness for C12: the instance reported `Terminated` by the third state fetch. -/
theorem terminated_returns_at_once_witness :
    getInstancePublicIps terminatedProvider "ocid1.instance" =
      { ips := [], err := some "实例已终止😔", polls := 3, fetches := 3, listings := 2,
        sleeps := 2 } ∧
    (getInstancePublicIps terminatedProvider "ocid1.instance").err = some "实例已终止😔" ∧
    (getInstancePublicIps terminatedProvider "ocid1.instance").ips = [] ∧
    (getInstancePublicIps terminatedProvider "ocid1.instance").listings = 2 ∧
    (getInstancePublicIps terminatedProvider "ocid1.instance").polls = 2 + 1 :=
  terminated_returns_at_once terminatedProvider "ocid1.instance" 2 .Provisioning .Terminated
    { ips := [], err := none, polls := 2, fetches := 2, listings := 2, sleeps := 2 }
    (by decide) (by decide) (by decide) rfl (Or.inr rfl)

/-- C13: `getInstancePublicIps` is a total function (it returns for every provider
behaviour), and the result it returns was reached after at most 100 poll iterations, with
at most one state fetch and at most one interface listing in each of them, hence at most
100 fetches and at most 100 listings. -/
theorem poll_bounded (p : Provider) (id : String) :
    (getInstancePublicIps p id).polls ≤ 100 ∧
    (getInstancePublicIps p id).fetches ≤ (getInstancePublicIps p id).polls ∧
    (getInstancePublicIps p id).listings ≤ (getInstancePublicIps p id).polls ∧
    (getInstancePublicIps p id).fetches ≤ 100 ∧
    (getInstancePublicIps p id).listings ≤ 100 := by
  have h := pollFrom_counts p id 100 0 .unset
    { ips := [], err := none, polls := 0, fetches := 0, listings := 0, sleeps := 0 }
  simp only [getInstancePublicIps]
  simp only [Nat.zero_add, Nat.add_zero] at h
  omega

/-- C16: for `int32` arguments with `0 < min < max`, `sleepRandomSecond(min, max)` does not
panic and sleeps a whole number `d` of seconds with `min ≤ d ≤ max` (indeed `d < max`), for
every value `rand.Int31n` can return. -/
theorem sleepRandomSecond_in_window (min max : Int) (Int31n : Int → Int)
    (hmin : inInt32 min) (hmax : inInt32 max) (h0 : 0 < min) (hlt : min < max)
    (hrand : IsInt31n Int31n) :
    ∃ d, sleepRandomSecond min max Int31n = .ok d ∧ min ≤ d ∧ d ≤ max ∧ d < max := by
  have hw : wrap32 (max - min) = max - min :=
    wrap32_eq (by unfold inInt32 at *; omega)
  obtain ⟨r0, r1⟩ := hrand (max - min) (by omega)
  have hw2 : wrap32 (Int31n (max - min) + min) = Int31n (max - min) + min :=
    wrap32_eq (by unfold inInt32 at *; omega)
  refine ⟨Int31n (max - min) + min, ?_, by omega, by omega, by omega⟩
  simp only [sleepRandomSecond, hw, hw2]
  rw [if_neg (by omega), if_neg (by omega), if_neg (by omega)]

/-- Witness for C16: the window from 5 to 30 seconds with a random source that always
returns the largest value it can. -/
theorem sleepRandomSecond_in_window_witness :
    ∃ d, sleepRandomSecond 5 30 (fun n => n - 1) = .ok d ∧ 5 ≤ d ∧ d ≤ 30 ∧ d < 30 :=
  sleepRandomSecond_in_window 5 30 (fun n => n - 1) (by decide) (by decide) (by decide)
    (by decide) (fun n hn => ⟨by show 0 ≤ n - 1; omega, by show n - 1 < n; omega⟩)

/-- C17: if the plan's operating system or operating-system version is empty,
`LaunchInstances` returns before the loop: no create call is issued (the log of the run is
empty, so there is no retry and no notification either) and the number of successes
returned is 0. -/
theorem empty_system_no_attempt (inst : Instance) (EACH : Bool) (p : Provider)
    (ads : List AvailabilityDomain) (fuel : Nat)
    (h : inst.OperatingSystem = "" ∨ inst.OperatingSystemVersion = "") :
    LaunchInstances inst EACH p ads fuel =
      .ok (some { sum := (initCtx inst EACH p ads).sum, num := 0, calls := 0, log := [] }) := by
  have h1 : GetImage inst p = .error "操作系统类型和版本不能为空, 请检查配置文件" := by
    simp only [GetImage, listImages]
    rw [if_pos h]
  simp only [LaunchInstances, h1]

/-- Witness for C17: a plan without operating system, two targets, every provider call
succeeding. -/
theorem empty_system_no_attempt_witness :
    LaunchInstances noSystemPlan true demoProvider demoPool 10 =
      .ok (some { sum := (initCtx noSystemPlan true demoProvider demoPool).sum,
                  num := 0, calls := 0, log := [] }) :=
  empty_system_no_attempt noSystemPlan true demoProvider demoPool 10 (Or.inl rfl)

/-- C18 (the code departs from the claim): with a target count of 0 and per-attempt
notification enabled (`EACH = true`), a run whose preparation succeeds makes no create
call and returns 0 successes, but it does send one notification, "正在尝试创建第 1 个实例",
at line 410-412: that send is guarded by `EACH` alone, unlike the same send at line 547,
which is guarded by `pos < sum && EACH`. With `EACH = false` nothing is sent. -/
theorem zero_target_still_notifies :
    (∀ fuel, LaunchInstances zeroTargetPlan true demoProvider demoPool fuel =
      .ok (some { sum := 0, num := 0, calls := 0, log := [Event.send (Text.trying 1 0)] })) ∧
    (∀ fuel, LaunchInstances zeroTargetPlan false demoProvider demoPool fuel =
      .ok (some { sum := 0, num := 0, calls := 0, log := [] })) ∧
    (∀ (inst : Instance) (p : Provider) (ads : List AvailabilityDomain) (fuel : Nat),
      SetupOk inst p → (initCtx inst true p ads).sum = 0 →
      LaunchInstances inst true p ads fuel =
        .ok (some { sum := 0, num := 0, calls := 0, log := [Event.send (Text.trying 1 0)] })) := by
  have key : ∀ (inst : Instance) (EACH : Bool) (p : Provider) (ads : List AvailabilityDomain)
      (fuel : Nat), SetupOk inst p → (initCtx inst EACH p ads).sum = 0 →
      LaunchInstances inst EACH p ads fuel =
        .ok (some { sum := 0, num := 0, calls := 0,
                    log := if EACH then [Event.send (Text.trying 1 0)] else [] }) := by
    intro inst EACH p ads fuel hs h0
    have hE : (initCtx inst EACH p ads).EACH = EACH := rfl
    rw [LaunchInstances_of_setup hs]
    have hl : loop (initCtx inst EACH p ads) p fuel (initState inst (initCtx inst EACH p ads)) =
        .ok (some (initState inst (initCtx inst EACH p ads))) := by
      unfold loop
      have : ¬ (initState inst (initCtx inst EACH p ads)).pos < (initCtx inst EACH p ads).sum := by
        rw [h0]; simp [initState]
      cases fuel <;> simp [this]
    rw [hl]
    simp only [initState, h0, hE]
  refine ⟨fun fuel => ?_, fun fuel => ?_, fun inst p ads fuel hs h0 => ?_⟩
  · exact key zeroTargetPlan true demoProvider demoPool fuel
      ⟨⟨"image", rfl⟩, fun h => absurd h (by decide), rfl⟩ rfl
  · exact key zeroTargetPlan false demoProvider demoPool fuel
      ⟨⟨"image", rfl⟩, fun h => absurd h (by decide), rfl⟩ rfl
  · exact key inst true p ads fuel hs h0

/-- C19: whenever `token` or `chat_id` is empty, `sendMessage` and `editMessage` return
the zero `Message` and a nil error, having built no request and performed none, for every
name, text and message id (and whatever the network would have answered). -/
theorem unconfigured_notifier_is_noop (t : Telegram) (name text : String) (messageId : Int)
    (h : t.token = "" ∨ t.chat_id = "") :
    sendMessage t name text =
      { msg := zeroMessage, err := none, built := [], performed := [] } ∧
    editMessage t messageId name text =
      { msg := zeroMessage, err := none, built := [], performed := [] } := by
  constructor
  · simp only [sendMessage]; rw [if_pos h]
  · simp only [editMessage]; rw [if_pos h]

/-- Witness for C19: a notifier without token. -/
theorem unconfigured_notifier_is_noop_witness :
    sendMessage unconfiguredTelegram "[acct]" "开始批量创建" =
      { msg := zeroMessage, err := none, built := [], performed := [] } ∧
    editMessage unconfiguredTelegram 7 "" "text" =
      { msg := zeroMessage, err := none, built := [], performed := [] } :=
  unconfigured_notifier_is_noop unconfiguredTelegram "[acct]" "开始批量创建" 7 (Or.inl rfl)

/-- C20: for every duration `d` of at least one second (in nanoseconds), `fmtDuration(d)`
is the concatenation, in this order, of "D 天 ", "H 时 ", "M 分 ", "S 秒" for exactly the
components that are non-zero, with `D = d / 24h`, `H = (d mod 24h) / 1h`,
`M = (d mod 1h) / 1min`, `S = (d mod 1min) / 1s` (floor divisions); moreover `H < 24`,
`M < 60`, `S < 60` and `86400 D + 3600 H + 60 M + S` is the whole number of seconds in
`d`. -/
theorem fmtDuration_components (d : Int) (h : 1000000000 ≤ d) :
    fmtDuration d =
      (if d / 86400000000000 ≠ 0 then toString (d / 86400000000000) ++ " 天 " else "") ++
      (if d % 86400000000000 / 3600000000000 ≠ 0
        then toString (d % 86400000000000 / 3600000000000) ++ " 时 " else "") ++
      (if d % 3600000000000 / 60000000000 ≠ 0
        then toString (d % 3600000000000 / 60000000000) ++ " 分 " else "") ++
      (if d % 60000000000 / 1000000000 ≠ 0
        then toString (d % 60000000000 / 1000000000) ++ " 秒" else "") ∧
    d % 86400000000000 / 3600000000000 < 24 ∧
    d % 3600000000000 / 60000000000 < 60 ∧
    d % 60000000000 / 1000000000 < 60 ∧
    86400 * (d / 86400000000000) + 3600 * (d % 86400000000000 / 3600000000000) +
      60 * (d % 3600000000000 / 60000000000) + d % 60000000000 / 1000000000 =
      d / 1000000000 := by
  refine ⟨?_, by omega, by omega, by omega, by omega⟩
  have hd : 0 ≤ d := by omega
  have e1 : Int.tdiv d (Hour * 24) = d / 86400000000000 := by
    rw [Int.tdiv_eq_ediv hd (by decide)]; rfl
  have e2 : Int.tmod d (Hour * 24) = d % 86400000000000 := by
    rw [Int.tmod_eq_emod hd (by decide)]; rfl
  have e3 : Int.tmod d Hour = d % 3600000000000 := by
    rw [Int.tmod_eq_emod hd (by decide)]; rfl
  have e4 : Int.tmod d Minute = d % 60000000000 := by
    rw [Int.tmod_eq_emod hd (by decide)]; rfl
  unfold fmtDuration
  rw [if_neg (one_le_Seconds d h)]
  simp only [e1, e2, e3, e4]
  rw [truncate_Hours _ (by omega), truncate_Minutes _ (by omega), truncate_Seconds _ (by omega)]
  rw [ite_pos_eq_ite_ne _ (by omega), ite_pos_eq_ite_ne _ (by omega),
    ite_pos_eq_ite_ne _ (by omega), ite_pos_eq_ite_ne _ (by omega)]

/-- Witness for C20: 1 day, 1 hour, 1 minute and 1.5 seconds. -/
theorem fmtDuration_components_witness :
    fmtDuration 90061500000000 =
      (if (90061500000000 : Int) / 86400000000000 ≠ 0
        then toString ((90061500000000 : Int) / 86400000000000) ++ " 天 " else "") ++
      (if (90061500000000 : Int) % 86400000000000 / 3600000000000 ≠ 0
        then toString ((90061500000000 : Int) % 86400000000000 / 3600000000000) ++ " 时 "
        else "") ++
      (if (90061500000000 : Int) % 3600000000000 / 60000000000 ≠ 0
        then toString ((90061500000000 : Int) % 3600000000000 / 60000000000) ++ " 分 "
        else "") ++
      (if (90061500000000 : Int) % 60000000000 / 1000000000 ≠ 0
        then toString ((90061500000000 : Int) % 60000000000 / 1000000000) ++ " 秒" else "") ∧
    (90061500000000 : Int) % 86400000000000 / 3600000000000 < 24 ∧
    (90061500000000 : Int) % 3600000000000 / 60000000000 < 60 ∧
    (90061500000000 : Int) % 60000000000 / 1000000000 < 60 ∧
    86400 * ((90061500000000 : Int) / 86400000000000) +
      3600 * ((90061500000000 : Int) % 86400000000000 / 3600000000000) +
      60 * ((90061500000000 : Int) % 3600000000000 / 60000000000) +
      (90061500000000 : Int) % 60000000000 / 1000000000 =
      (90061500000000 : Int) / 1000000000 :=
  fmtDuration_components 90061500000000 (by decide)

/-- C14 (the code departs from the claim): the goroutine maps the base section and its
template section into `localInstance` and then calls `LaunchInstances`, which reads the
package variable `instance` instead. So the run does not depend on the template section at
all; for two templates asking for 1 and for 3 instances, with `instance` still at its zero
value, both runs return `(0, 0)` (no operating system is configured in the zero plan),
although the plans mapped for them ask for 1 and 3 (run with its own plan, the second
template would have returned 3 requested, 3 succeeded). -/
theorem template_plan_not_used :
    (∀ global EACH p base sec sec' ads fuel,
      (templateRun global EACH p base sec ads fuel).added =
        (templateRun global EACH p base sec' ads fuel).added) ∧
    (templateRun zeroInstance true demoProvider baseSection (templateSection 1)
        (.ok demoPool) 10).localInstance.Sum = 1 ∧
    (templateRun zeroInstance true demoProvider baseSection (templateSection 3)
        (.ok demoPool) 10).localInstance.Sum = 3 ∧
    (templateRun zeroInstance true demoProvider baseSection (templateSection 1)
        (.ok demoPool) 10).added = .ok (some (0, 0)) ∧
    (templateRun zeroInstance true demoProvider baseSection (templateSection 3)
        (.ok demoPool) 10).added = .ok (some (0, 0)) ∧
    ∃ r, LaunchInstances ((templateSection 3).MapTo (baseSection.MapTo zeroInstance)) true
        demoProvider demoPool 10 = .ok (some r) ∧ r.sum = 3 ∧ r.num = 3 :=
  ⟨fun _ _ _ _ _ _ _ _ => rfl, rfl, rfl, rfl, rfl, _, rfl, rfl, rfl⟩

/-- C15 (the code departs from the claim): the totals are updated by plain `+=` on shared
variables. For two runs that each returned `(1, 1)`, the interleaving in which both
goroutines read `totalSUM` before either writes it (and likewise `totalNUM`) ends, with
both goroutines finished, in the totals `(1, 1)`: one update is lost. Only when the
goroutines happen to run one after the other do the totals come out as `(2, 2)`. -/
theorem totals_lose_updates :
    interleave [0, 1, 0, 1, 0, 1, 0, 1] ⟨0, 0⟩ (workers [(1, 1), (1, 1)]) =
      (⟨1, 1⟩, [⟨1, 1, 4, 0⟩, ⟨1, 1, 4, 0⟩]) ∧
    interleave [0, 0, 0, 0, 1, 1, 1, 1] ⟨0, 0⟩ (workers [(1, 1), (1, 1)]) =
      (⟨2, 2⟩, [⟨1, 1, 4, 0⟩, ⟨1, 1, 4, 1⟩]) := by
  constructor <;> decide

/-- C30: for `int32` arguments, `sleepRandomSecond(min, max)` never panics and sleeps at
least 1 second: exactly 1 second when `min ≤ 0` or `max ≤ 0`, exactly `max` seconds when
`0 < max ≤ min`, and otherwise `rand.Int31n` is called with the argument `max - min`, which
is strictly positive (and does not overflow). -/
theorem sleepRandomSecond_cases (min max : Int) (Int31n : Int → Int)
    (hmin : inInt32 min) (hmax : inInt32 max) (hrand : IsInt31n Int31n) :
    ∃ d, sleepRandomSecond min max Int31n = .ok d ∧ 1 ≤ d ∧
      (min ≤ 0 ∨ max ≤ 0 → d = 1) ∧
      (0 < max → max ≤ min → d = max) ∧
      (0 < min → min < max →
        0 < wrap32 (max - min) ∧ wrap32 (max - min) = max - min ∧
        d = Int31n (max - min) + min) := by
  by_cases h1 : min ≤ 0 ∨ max ≤ 0
  · refine ⟨1, ?_, by omega, fun _ => rfl, ?_, ?_⟩
    · simp only [sleepRandomSecond]; rw [if_pos h1]
    · intro a b; omega
    · intro a b; omega
  · by_cases h2 : min ≥ max
    · refine ⟨max, ?_, by omega, fun h => absurd h h1, fun _ _ => rfl, ?_⟩
      · simp only [sleepRandomSecond]; rw [if_neg h1, if_pos h2]
      · intro a b; omega
    · have hw : wrap32 (max - min) = max - min :=
        wrap32_eq (by unfold inInt32 at *; omega)
      obtain ⟨r0, r1⟩ := hrand (max - min) (by omega)
      have hw2 : wrap32 (Int31n (max - min) + min) = Int31n (max - min) + min :=
        wrap32_eq (by unfold inInt32 at *; omega)
      refine ⟨Int31n (max - min) + min, ?_, by omega, fun h => absurd h h1, ?_, ?_⟩
      · simp only [sleepRandomSecond, hw, hw2]
        rw [if_neg h1, if_neg h2, if_neg (by omega)]
      · intro a b; omega
      · intro a b; exact ⟨by omega, hw, rfl⟩

/-- Witness for C30: the call `sleepRandomSecond(5, 5)` of `multiBatchLaunchInstances`. -/
theorem sleepRandomSecond_cases_witness :
    ∃ d, sleepRandomSecond 5 5 (fun _ => 0) = .ok d ∧ 1 ≤ d ∧
      ((5 : Int) ≤ 0 ∨ (5 : Int) ≤ 0 → d = 1) ∧
      ((0 : Int) < 5 → (5 : Int) ≤ 5 → d = 5) ∧
      ((0 : Int) < 5 → (5 : Int) < 5 →
        0 < wrap32 (5 - 5) ∧ wrap32 (5 - 5) = 5 - 5 ∧ d = (fun _ => (0 : Int)) (5 - 5) + 5) :=
  sleepRandomSecond_cases 5 5 (fun _ => 0) (by decide) (by decide)
    (fun n hn => ⟨by show (0 : Int) ≤ 0; omega, by show (0 : Int) < n; omega⟩)

/-- C21, as stated, fails: in fixed-zone mode with retry budget 2, a create call that fails
with the zone-terminal service error 400 is not retried although the budget is not
exhausted (one failure, budget 2): each of the two targets is given up after a single
create call. -/
theorem terminal_error_not_retried :
    classify (.service err400) = .ok true ∧
    ∃ r, LaunchInstances twoTargetPlan false terminalProvider demoPool 6 = .ok (some r) ∧
      r.num = 0 ∧ r.calls = 2 ∧
      launches r.log = [(0, "AD-1", "vm-1", false), (1, "AD-1", "vm-1", false)] :=
  ⟨rfl, _, rfl, rfl, rfl, by decide⟩

/-- C21, amended: in fixed-zone and quota-per-zone modes, a failed create call classified
`b` (`true` = zone-terminal) is followed by a retry of the same target exactly when the
error is retryable and the budget is not exhausted (`retry < 0`, or the failure count of
the target, this failure included, is at most `retry`); after a zone-terminal error, or with
the budget exhausted, the target is given up (`pos` advances, the failure count is reset). -/
theorem retry_decision_fixed_or_quota (c : Ctx) (p : Provider) (s s1 : LoopState)
    (e : LaunchError) (b : Bool) (hmode : c.AD_NOT_FIXED = false ∨ c.EACH_AD = true)
    (hsel : selectZone c s = .ok s1)
    (hl : p.LaunchInstance s1.calls s1.adName s1.displayName = .error e)
    (hc : classify e = .ok b) :
    ∃ s', iteration c p s = .ok s' ∧
      (((c.retry < 0 ∨ wrap32 (s.failTimes + 1) ≤ c.retry) ∧ b = false ∧
        s'.pos = s.pos ∧ s'.failTimes = wrap32 (s.failTimes + 1)) ∨
       (¬ ((c.retry < 0 ∨ wrap32 (s.failTimes + 1) ≤ c.retry) ∧ b = false) ∧
        s'.pos = wrap32 (s.pos + 1) ∧ s'.failTimes = 0)) := by
  obtain ⟨s', hit, -, -, h⟩ := iteration_failure_counted hmode hsel hl hc
  exact ⟨s', hit, h⟩

/-- Witness for the amended C21: the first pass of a fixed-zone run with budget 2 whose
create call fails with the retryable service error 500, and is retried. -/
theorem retry_decision_fixed_or_quota_witness :
    ∃ s', iteration (initCtx demoPlan false (failingProvider err500) demoPool)
        (failingProvider err500)
        (initState demoPlan (initCtx demoPlan false (failingProvider err500) demoPool)) = .ok s' ∧
      ((((2 : Int) < 0 ∨ wrap32 (0 + 1) ≤ 2) ∧ false = false ∧
        s'.pos = 0 ∧ s'.failTimes = wrap32 (0 + 1)) ∨
       (¬ (((2 : Int) < 0 ∨ wrap32 (0 + 1) ≤ 2) ∧ false = false) ∧
        s'.pos = wrap32 (0 + 1) ∧ s'.failTimes = 0)) :=
  retry_decision_fixed_or_quota (initCtx demoPlan false (failingProvider err500) demoPool)
    (failingProvider err500)
    (initState demoPlan (initCtx demoPlan false (failingProvider err500) demoPool)) _
    (.service err500) false (Or.inl rfl) rfl rfl rfl

/-- C26, amended (the batch's figure only for updates that do not interleave): for a
target count `sum ≥ 0` (an `int32` value, `Sum` being one), at every evaluation of the
loop condition of `LaunchInstances` the counters satisfy `0 ≤ num ≤ pos ≤ sum` and `num`
is exactly the number of successful create calls so far; hence every return of
`LaunchInstances` gives a success count that does not exceed the requested count, and the
run's `sum - num` is not negative. When the goroutines of a batch add such pairs to the
totals one after the other, and the requested counts add up to an `int32`, the totals are
the sums of the pairs and the batch's failure figure `totalSUM-totalNUM` is not
negative. -/
theorem counters_ordered (inst : Instance) (EACH : Bool) (p : Provider)
    (ads : List AvailabilityDomain) (hint : inInt32 inst.Sum)
    (hsum : 0 ≤ (initCtx inst EACH p ads).sum) :
    (∀ n s, runFor (initCtx inst EACH p ads) p n
        (initState inst (initCtx inst EACH p ads)) = .ok s →
      0 ≤ s.num ∧ s.num ≤ s.pos ∧ s.pos ≤ (initCtx inst EACH p ads).sum ∧
      s.num = (successes s.log : Int)) ∧
    (∀ fuel r, LaunchInstances inst EACH p ads fuel = .ok (some r) →
      0 ≤ r.num ∧ r.num ≤ r.sum ∧ 0 ≤ r.sum - r.num ∧ r.num = (successes r.log : Int)) ∧
    (∀ results : List (Int × Int), (∀ r ∈ results, 0 ≤ r.2 ∧ r.2 ≤ r.1) →
      (results.map (fun r => r.1)).sum ≤ 2147483647 →
      (interleave (oneByOne 0 results.length) ⟨0, 0⟩ (workers results)).1 =
        ⟨(results.map (fun r => r.1)).sum, (results.map (fun r => r.2)).sum⟩ ∧
      0 ≤ failureFigure
        (interleave (oneByOne 0 results.length) ⟨0, 0⟩ (workers results)).1) := by
  have hle := initCtx_sum_le inst EACH p ads hint
  have hinit : CountersExact (initCtx inst EACH p ads)
      (initState inst (initCtx inst EACH p ads)) := by
    refine ⟨by simp [initState], by simp [initState], by simpa [initState] using hsum, ?_⟩
    rw [successes_init]; rfl
  have hreach : ∀ n s, runFor (initCtx inst EACH p ads) p n
      (initState inst (initCtx inst EACH p ads)) = .ok s →
      CountersExact (initCtx inst EACH p ads) s := fun n s h =>
    runFor_inv (CountersExact (initCtx inst EACH p ads)) (countersExact_step hle) n _ _ hinit h
  refine ⟨hreach, ?_, totals_one_by_one⟩
  intro fuel r h
  simp only [LaunchInstances] at h
  have early : ∀ r' : RunResult,
      r' = RunResult.mk (initCtx inst EACH p ads).sum 0 0 [] →
      0 ≤ r'.num ∧ r'.num ≤ r'.sum ∧ 0 ≤ r'.sum - r'.num ∧ r'.num = (successes r'.log : Int) := by
    intro r' hr
    subst hr
    exact ⟨Int.le_refl _, hsum, by simpa using hsum, rfl⟩
  split at h
  · cases h; exact early _ rfl
  · split at h
    · cases h; exact early _ rfl
    · split at h
      · cases h; exact early _ rfl
      · split at h
        · cases h
        · cases h
        · rename_i s hl
          cases h
          obtain ⟨hr, -⟩ := loop_runFor fuel _ _ hl
          obtain ⟨a, b, c, d⟩ := hreach fuel s hr
          refine ⟨a, ?_, ?_, d⟩
          · show s.num ≤ (initCtx inst EACH p ads).sum; omega
          · show 0 ≤ (initCtx inst EACH p ads).sum - s.num; omega

/-- Witness for the amended C26: the fixed-zone plan with two targets, every create call
succeeding; and a batch of two runs that returned `(2, 1)` and `(1, 1)`, added one after
the other: totals `(3, 2)`, failure figure 1. -/
theorem counters_ordered_witness :
    (∀ n s, runFor (initCtx demoPlan true demoProvider demoPool) demoProvider n
        (initState demoPlan (initCtx demoPlan true demoProvider demoPool)) = .ok s →
      0 ≤ s.num ∧ s.num ≤ s.pos ∧ s.pos ≤ (initCtx demoPlan true demoProvider demoPool).sum ∧
      s.num = (successes s.log : Int)) ∧
    (∀ fuel r, LaunchInstances demoPlan true demoProvider demoPool fuel = .ok (some r) →
      0 ≤ r.num ∧ r.num ≤ r.sum ∧ 0 ≤ r.sum - r.num ∧ r.num = (successes r.log : Int)) ∧
    (∀ results : List (Int × Int), (∀ r ∈ results, 0 ≤ r.2 ∧ r.2 ≤ r.1) →
      (results.map (fun r => r.1)).sum ≤ 2147483647 →
      (interleave (oneByOne 0 results.length) ⟨0, 0⟩ (workers results)).1 =
        ⟨(results.map (fun r => r.1)).sum, (results.map (fun r => r.2)).sum⟩ ∧
      0 ≤ failureFigure
        (interleave (oneByOne 0 results.length) ⟨0, 0⟩ (workers results)).1) ∧
    (interleave (oneByOne 0 2) ⟨0, 0⟩ (workers [(2, 1), (1, 1)])).1 = ⟨3, 2⟩ ∧
    failureFigure (interleave (oneByOne 0 2) ⟨0, 0⟩ (workers [(2, 1), (1, 1)])).1 = 1 :=
  ⟨(counters_ordered demoPlan true demoProvider demoPool (by decide) (by decide)).1,
   (counters_ordered demoPlan true demoProvider demoPool (by decide) (by decide)).2.1,
   (counters_ordered demoPlan true demoProvider demoPool (by decide) (by decide)).2.2,
   ((counters_ordered demoPlan true demoProvider demoPool (by decide) (by decide)).2.2
      [(2, 1), (1, 1)] (by decide) (by decide)).1,
   by decide⟩

/-- C29 (the code departs from the claim): with a target count of 3 and every create call
succeeding, the three create requests carry the display names "vm-1", "vm-1", "vm-2". The
name for the next request is set at line 470, before `pos++`, to `name-(pos+1)`, the
number of the instance just created: the second request repeats the name of the first and
request `k ≥ 2` carries `name-(k-1)`. -/
theorem display_names_repeat :
    ∃ r, LaunchInstances threeTargetPlan false demoProvider demoPool 3 = .ok (some r) ∧
      r.num = 3 ∧
      launches r.log =
        [(0, "AD-1", "vm-1", true), (1, "AD-1", "vm-1", true), (2, "AD-1", "vm-2", true)] :=
  ⟨_, rfl, rfl, by decide⟩

/-- C25, as stated, fails: with per-attempt notification enabled, a create call that fails
with the retryable service error 500 produces no failure notification; the only send of
the run is the initial "正在尝试创建第 1 个实例". -/
theorem retryable_failure_not_notified :
    classify (.service err500) = .ok false ∧
    LaunchInstances oneShotPlan true (failingProvider err500) demoPool 1 =
      .ok (some { sum := 1, num := 0, calls := 1,
                  log := [Event.send (Text.trying 1 1), Event.launch 0 "AD-1" "vm" false,
                          Event.sleep 1 5] }) :=
  ⟨rfl, rfl⟩

/-- C24, as stated, fails: for an instance still in state `Provisioning` whose only
network interface has no public address, `getInstancePublicIps` returns in the first poll
iteration with a nil error and an empty address list, the instance never having been
observed running. -/
theorem nil_error_without_address :
    getInstancePublicIps noAddressProvider "ocid1.instance" =
      { ips := [], err := none, polls := 1, fetches := 1, listings := 1, sleeps := 0 } := by
  decide

/-- C24, amended: `getInstancePublicIps` returns a nil error only after a successful
interface listing: either some poll iteration `k` listed at least one attachment, and then
the address list holds the non-empty public addresses of those attachments whose VNIC could
be fetched (possibly none; the state of the instance plays no part), or all 100 iterations
passed and the last listing was empty, the address list being empty. -/
theorem nil_error_means_listing (p : Provider) (id : String)
    (h : (getInstancePublicIps p id).err = none) :
    (∃ k vnics, k < 100 ∧ vnics ≠ [] ∧ p.ListVnicAttachments id k = .ok vnics ∧
      (getInstancePublicIps p id).ips = collectIps p vnics [] ∧
      (getInstancePublicIps p id).polls = k + 1) ∨
    (p.ListVnicAttachments id 99 = .ok [] ∧ (getInstancePublicIps p id).ips = [] ∧
      (getInstancePublicIps p id).polls = 100) := by
  have h0 : getInstancePublicIps p id = pollFrom p id 100 0 pollStart.1 pollStart.2 := rfl
  rcases pollFrom_cases p id 100 0 pollStart.1 pollStart.2 rfl rfl with
    ⟨k, ins, w, hk, hs, hd⟩ | ⟨ins, hs⟩
  · rw [← h0] at hd
    obtain ⟨hips, hpolls, -, -⟩ := pollState_fields p id k ins w hs
    left
    rcases pollOnce_done hd with ⟨he, -⟩ | ⟨-, vnics, hne, hv, hi⟩
    · rw [h] at he; cases he
    · refine ⟨k, vnics, hk, hne, hv, by rw [hi, hips], ?_⟩
      have := (pollOnce_counts p id k ins w).1 _ hd
      omega
  · rw [← h0] at hs
    obtain ⟨hips, hpolls, -, -⟩ := pollState_fields p id 100 _ _ hs
    right
    refine ⟨?_, hips, hpolls⟩
    have h' := hs
    rw [show (100 : Nat) = 99 + 1 from rfl, pollState] at h'
    split at h'
    · cases h'
    · rename_i ins0 w0 h1
      split at h'
      · cases h'
      · rename_i ins1 w1 h2
        cases h'
        rcases (pollOnce_next h2).2.2.2.2 with ⟨e, -, he⟩ | ⟨e, -, he⟩ | ⟨hv, -⟩
        · rw [h] at he; cases he
        · rw [h] at he; cases he
        · exact hv

/-- Witness for the amended C24: the interface without public address. -/
theorem nil_error_means_listing_witness :
    (∃ k vnics, k < 100 ∧ vnics ≠ [] ∧
      noAddressProvider.ListVnicAttachments "ocid1.instance" k = .ok vnics ∧
      (getInstancePublicIps noAddressProvider "ocid1.instance").ips =
        collectIps noAddressProvider vnics [] ∧
      (getInstancePublicIps noAddressProvider "ocid1.instance").polls = k + 1) ∨
    (noAddressProvider.ListVnicAttachments "ocid1.instance" 99 = .ok [] ∧
      (getInstancePublicIps noAddressProvider "ocid1.instance").ips = [] ∧
      (getInstancePublicIps noAddressProvider "ocid1.instance").polls = 100) :=
  nil_error_means_listing noAddressProvider "ocid1.instance" (by decide)

/-- C7, as stated, fails for a target count of 2: in round-robin mode over the pool
`[z0, z1]`, with every create call in `z0` failing zone-terminally (service error 400) and
every create call in `z1` succeeding, the third create call of the run, made after the
first cycle has ended with a success in `z1`, is issued to `z0` again. -/
theorem terminal_zone_tried_again_next_target :
    classify (.service err400) = .ok true ∧
    ∃ r, LaunchInstances roundRobinPlan false firstZoneFullProvider [⟨"z0"⟩, ⟨"z1"⟩] 4 =
        .ok (some r) ∧ r.num = 2 ∧
      zoneTrace r.log = [(0, "z0", false), (0, "z1", true), (1, "z0", false), (1, "z1", true)] := by
  refine ⟨rfl, ?_⟩
  obtain ⟨r, h1, -, h3, -, h5⟩ :=
    skip_run roundRobinPlan false firstZoneFullProvider "z0" "z1" ⟨rfl, by decide⟩
      ⟨by decide, by decide⟩ ⟨⟨"image", rfl⟩, fun h => absurd h (by decide), rfl⟩
      (fun _ _ => ⟨.service err400, rfl, rfl⟩) (fun _ _ => ⟨_, rfl⟩) 4 (by decide)
  exact ⟨r, h1, h3, h5⟩

/-- C7, amended: in round-robin mode with pool `[A, B]`, every create call in `A` failing
with a zone-terminal error and every create call in `B` succeeding, for every target count
`Sum ≥ 0` the run (once the preparation has succeeded) terminates with `Sum` successes
after exactly `2 * Sum` create calls: each target is tried once in `A`, which fails, and
then once in `B`, which succeeds. So every success is in `B`, `A` is not tried again for
the same target after its failure, and `A` is tried once for every target, because the
usable zones are reset to the full pool whenever the target index advances. -/
theorem terminal_zone_once_per_target (inst : Instance) (EACH : Bool) (p : Provider)
    (a b : String) (hmode : inst.AvailabilityDomain = "" ∧ inst.Each ≤ 0)
    (hsum : 0 ≤ inst.Sum ∧ inst.Sum ≤ 2147483647) (hsetup : SetupOk inst p)
    (hA : ∀ i d, ∃ e, p.LaunchInstance i a d = .error e ∧ classify e = .ok true)
    (hB : ∀ i d, ∃ created, p.LaunchInstance i b d = .ok created)
    (fuel : Nat) (hfuel : 2 * inst.Sum.toNat ≤ fuel) :
    ∃ r, LaunchInstances inst EACH p [⟨a⟩, ⟨b⟩] fuel = .ok (some r) ∧ r.sum = inst.Sum ∧
      r.num = inst.Sum ∧ (r.calls : Int) = 2 * inst.Sum ∧
      zoneTrace r.log = alternating a b inst.Sum.toNat :=
  skip_run inst EACH p a b hmode hsum hsetup hA hB fuel hfuel

/-- Witness for the amended C7: two targets over the pool `[z0, z1]`, `z0` full. -/
theorem terminal_zone_once_per_target_witness :
    ∃ r, LaunchInstances roundRobinPlan true firstZoneFullProvider [⟨"z0"⟩, ⟨"z1"⟩] 4 =
        .ok (some r) ∧ r.sum = 2 ∧ r.num = 2 ∧ (r.calls : Int) = 2 * 2 ∧
      zoneTrace r.log = alternating "z0" "z1" 2 :=
  terminal_zone_once_per_target roundRobinPlan true firstZoneFullProvider "z0" "z1"
    ⟨rfl, by decide⟩ ⟨by decide, by decide⟩
    ⟨⟨"image", rfl⟩, fun h => absurd h (by decide), rfl⟩
    (fun _ _ => ⟨.service err400, rfl, rfl⟩) (fun _ _ => ⟨_, rfl⟩) 4 (by decide)

/-- C4, as stated, fails in round-robin mode over an empty pool: every call of the
provider succeeds, the target count is 2, and the first pass of the loop faults on
`usableAds[0]`. -/
theorem empty_pool_faults :
    (∀ i z d, ∃ created, demoProvider.LaunchInstance i z d = .ok created) ∧
    (initCtx roundRobinPlan false demoProvider []).sum = 2 ∧
    ∀ fuel, LaunchInstances roundRobinPlan false demoProvider [] (fuel + 1) =
      .error Fault.indexOutOfRange := by
  refine ⟨fun i z d => ⟨_, rfl⟩, rfl, fun fuel => ?_⟩
  rw [LaunchInstances_of_setup (by refine ⟨⟨"image", rfl⟩, fun h => absurd h (by decide), rfl⟩)]
  rfl

/-- C4, amended (pool not empty in round-robin mode): when the preparation succeeds and
every create call succeeds, `LaunchInstances` with target count `N ≥ 0` returns, once
`N` passes of the loop are available, having made exactly `N` create calls, all of them
successful, with `num = N`. -/
theorem all_success_reaches_target (inst : Instance) (EACH : Bool) (p : Provider)
    (ads : List AvailabilityDomain) (hsetup : SetupOk inst p)
    (hall : ∀ i z d, ∃ created, p.LaunchInstance i z d = .ok created)
    (hsum : inInt32 inst.Sum) (hN : 0 ≤ (initCtx inst EACH p ads).sum)
    (hpool : inst.AvailabilityDomain = "" → inst.Each ≤ 0 → ads ≠ []) :
    ∀ fuel, ((initCtx inst EACH p ads).sum).toNat ≤ fuel →
      ∃ r, LaunchInstances inst EACH p ads fuel = .ok (some r) ∧
        r.sum = (initCtx inst EACH p ads).sum ∧ r.num = r.sum ∧ (r.calls : Int) = r.sum ∧
        successes r.log = r.calls := by
  intro fuel hfuel
  have hle := initCtx_sum_le inst EACH p ads hsum
  have hrr : (initCtx inst EACH p ads).AD_NOT_FIXED = true →
      (initCtx inst EACH p ads).EACH_AD = false → (initCtx inst EACH p ads).ads ≠ [] := by
    intro h1 h2
    have a1 : inst.AvailabilityDomain = "" := by simpa [initCtx] using h1
    have a2 : inst.Each ≤ 0 := by
      by_contra hc
      have : inst.Each > 0 := by omega
      simp [initCtx, a1, this] at h2
    exact hpool a1 a2
  have hq : (initCtx inst EACH p ads).AD_NOT_FIXED = true →
      (initCtx inst EACH p ads).EACH_AD = true →
      0 < (initCtx inst EACH p ads).each ∧ (initCtx inst EACH p ads).sum =
        wrap32 ((initCtx inst EACH p ads).each * wrap32 (initCtx inst EACH p ads).ads.length) := by
    intro h1 h2
    have a1 : inst.AvailabilityDomain = "" := by simpa [initCtx] using h1
    have a2 : 0 < inst.Each := by
      by_contra hc
      have : ¬ inst.Each > 0 := by omega
      simp [initCtx, a1, this] at h2
    have := initCtx_quota inst EACH p ads ⟨a1, a2⟩
    rw [this.2.2.1, this.2.2.2.1, this.2.2.2.2.2]
    exact ⟨a2, rfl⟩
  obtain ⟨s', hloop, hinv, hdone⟩ :=
    loop_inv (AllOkInv (initCtx inst EACH p ads))
      (fun s => ((initCtx inst EACH p ads).sum - s.pos).toNat)
      (fun s hs hlt => allOkInv_step hle hrr hq hall s hs hlt)
      fuel (initState inst (initCtx inst EACH p ads))
      (allOkInv_init inst _ hN) (by simpa [initState] using hfuel)
  obtain ⟨hnum, hp0, hpN, hcalls, hok, hlen, -, -⟩ := hinv
  refine ⟨RunResult.mk (initCtx inst EACH p ads).sum s'.num s'.calls s'.log, ?_, rfl, ?_, ?_, ?_⟩
  · rw [LaunchInstances_of_setup hsetup, hloop]
  · show s'.num = (initCtx inst EACH p ads).sum
    omega
  · show (s'.calls : Int) = (initCtx inst EACH p ads).sum
    omega
  · show successes s'.log = s'.calls
    rw [successes_eq_length _ hok, hlen]

/-- Witness for the amended C4: the three-target plan in a fixed zone on the provider on
which everything succeeds. -/
theorem all_success_reaches_target_witness :
    ∃ r, LaunchInstances threeTargetPlan false demoProvider demoPool 3 = .ok (some r) ∧
      r.sum = (initCtx threeTargetPlan false demoProvider demoPool).sum ∧ r.num = r.sum ∧
      (r.calls : Int) = r.sum ∧ successes r.log = r.calls :=
  all_success_reaches_target threeTargetPlan false demoProvider demoPool
    ⟨⟨"image", rfl⟩, fun h => absurd h (by decide), rfl⟩ (fun i z d => ⟨_, rfl⟩)
    (by decide) (by decide) (fun h => absurd h (by decide)) 3 (by decide)

/-- C3, as stated, fails once `failTimes` has wrapped around: with quota 1, the pool
`[z0, z1]`, an unlimited retry budget and every create call failing with the retryable
service error 500, the run is still at target 0 after `2 ^ 32` failed calls, `failTimes`
is 0 again, and the next create call for target 0 goes to `z1`, not to `ads[0 / 1]`. -/
theorem quota_zone_changes_after_wrap :
    classify (.service err500) = .ok false ∧
    ∃ s s1 s',
      runFor (initCtx unlimitedQuotaPlan false (failingProvider err500) [⟨"z0"⟩, ⟨"z1"⟩])
        (failingProvider err500) (4294967295 + 1)
        (initState unlimitedQuotaPlan
          (initCtx unlimitedQuotaPlan false (failingProvider err500) [⟨"z0"⟩, ⟨"z1"⟩])) = .ok s ∧
      s.pos = 0 ∧
      s.pos < (initCtx unlimitedQuotaPlan false (failingProvider err500) [⟨"z0"⟩, ⟨"z1"⟩]).sum ∧
      zoneName [⟨"z0"⟩, ⟨"z1"⟩] (s.pos / unlimitedQuotaPlan.Each) = "z0" ∧
      selectZone (initCtx unlimitedQuotaPlan false (failingProvider err500) [⟨"z0"⟩, ⟨"z1"⟩]) s
        = .ok s1 ∧ s1.adName = "z1" ∧
      iteration (initCtx unlimitedQuotaPlan false (failingProvider err500) [⟨"z0"⟩, ⟨"z1"⟩])
        (failingProvider err500) s = .ok s' ∧
      zoneTrace s'.log = zoneTrace s.log ++ [(0, "z1", false)] := by
  refine ⟨rfl, ?_⟩
  obtain ⟨s, hrun, hpos, hft, hidx, hname, hcalls⟩ :=
    quota_stuck (c := initCtx unlimitedQuotaPlan false (failingProvider err500) [⟨"z0"⟩, ⟨"z1"⟩])
      (p := failingProvider err500) unlimitedQuotaPlan rfl rfl rfl (by decide) (by decide)
      ⟨"z0"⟩ [⟨"z1"⟩] rfl (fun _ _ _ => ⟨.service err500, rfl, rfl⟩) 4294967295 (by decide)
  have hft0 : s.failTimes = 0 := by rw [hft]; decide
  have hsel : selectZone (initCtx unlimitedQuotaPlan false (failingProvider err500)
      [⟨"z0"⟩, ⟨"z1"⟩]) s = .ok { s with adName := "z1", adIndex := wrap32 (s.adIndex + 1) } := by
    have hsl : sliceAt (initCtx unlimitedQuotaPlan false (failingProvider err500)
        [⟨"z0"⟩, ⟨"z1"⟩]).ads s.adIndex = .ok ⟨"z1"⟩ := by rw [hidx]; rfl
    have hcond : Int.tmod s.pos (initCtx unlimitedQuotaPlan false (failingProvider err500)
        [⟨"z0"⟩, ⟨"z1"⟩]).each = 0 ∧ s.failTimes = 0 := by rw [hpos, hft0]; exact ⟨rfl, rfl⟩
    have a1 : (initCtx unlimitedQuotaPlan false (failingProvider err500)
        [⟨"z0"⟩, ⟨"z1"⟩]).AD_NOT_FIXED = true := rfl
    have a2 : (initCtx unlimitedQuotaPlan false (failingProvider err500)
        [⟨"z0"⟩, ⟨"z1"⟩]).EACH_AD = true := rfl
    simp only [selectZone, a1, a2, if_true]
    rw [if_pos hcond, hsl]
  obtain ⟨s', hit, -, -, -⟩ :=
    iteration_failure_counted (p := failingProvider err500) (e := .service err500)
      (Or.inr rfl) hsel rfl rfl
  obtain ⟨t1, ok, hselt, htr, hok⟩ := zoneTrace_step hit
  rw [hsel] at hselt
  cases hselt
  have hokf : ok = false := by
    cases ok with
    | false => rfl
    | true =>
      obtain ⟨created, hcr⟩ := hok.mp rfl
      cases hcr
  refine ⟨s, _, s', hrun, hpos, by rw [hpos]; decide, by rw [hpos]; rfl, hsel, rfl, hit, ?_⟩
  rw [htr, hpos, hokf]

/-- C3, amended (fewer than `2 ^ 32` create calls so far): in quota-per-zone mode (no fixed
zone, `each = k > 0`), at every loop state reached by the run, every create call made so
far for a target `pos` went to zone `ads[pos / k]`, and the next create call, for the
current target `pos`, goes to `ads[pos / k]`, which exists, whatever the outcomes of the
earlier calls. In particular with `k = 2` and the pool `[z0, z1, z2]`, on a provider on
which every call succeeds, the run makes six create calls, in the zones
`[z0, z0, z1, z1, z2, z2]`. -/
theorem quota_zone_by_target (inst : Instance) (EACH : Bool) (p : Provider)
    (ads : List AvailabilityDomain) (hmode : inst.AvailabilityDomain = "" ∧ 0 < inst.Each)
    (n : Nat) (s : LoopState)
    (hrun : runFor (initCtx inst EACH p ads) p n (initState inst (initCtx inst EACH p ads))
      = .ok s)
    (hcalls : s.calls < 4294967296) :
    (∀ e ∈ zoneTrace s.log, e.2.1 = zoneName ads (e.1 / inst.Each)) ∧
    (s.pos < (initCtx inst EACH p ads).sum →
      ∃ s1 ad, selectZone (initCtx inst EACH p ads) s = .ok s1 ∧
        sliceAt ads (s.pos / inst.Each) = .ok ad ∧ s1.adName = ad.Name ∧
        ∀ s', iteration (initCtx inst EACH p ads) p s = .ok s' →
          ∃ ok, zoneTrace s'.log = zoneTrace s.log ++ [(s.pos, ad.Name, ok)]) ∧
    (∀ q : Provider, SetupOk quotaPlan q →
      (∀ i z d, ∃ created, q.LaunchInstance i z d = .ok created) →
      ∃ r, LaunchInstances quotaPlan EACH q demoPool 6 = .ok (some r) ∧
        zoneTrace r.log = [(0, "z0", true), (1, "z0", true), (2, "z1", true),
          (3, "z1", true), (4, "z2", true), (5, "z2", true)]) := by
  obtain ⟨c1, c2, c3, c4, -, c6⟩ := initCtx_quota inst EACH p ads hmode
  have hk : 0 < (initCtx inst EACH p ads).each := by rw [c3]; exact hmode.2
  have hsm : (initCtx inst EACH p ads).sum =
      wrap32 ((initCtx inst EACH p ads).each * wrap32 (initCtx inst EACH p ads).ads.length) := by
    rw [c3, c6]; exact c4
  have hinv := runFor_inv (QuotaRunInv (initCtx inst EACH p ads))
    (fun s s' hs hlt hit => quotaRunInv_step c1 c2 hk hsm s s' hs hlt hit)
    n _ s (quotaRunInv_init inst _) hrun
  obtain ⟨⟨j, hj, hq⟩, hlog⟩ := hinv hcalls
  rw [c6, c3] at hlog
  refine ⟨hlog, ?_, ?_⟩
  · intro hlt
    obtain ⟨s1, ad, hsel, had, hname, -⟩ := quota_select c1 c2 hk hsm hq hlt (by omega)
    rw [c6, c3] at had
    refine ⟨s1, ad, hsel, had, hname, ?_⟩
    intro s' hit
    obtain ⟨t1, ok, hselt, htr, -⟩ := zoneTrace_step hit
    rw [hsel] at hselt
    cases hselt
    exact ⟨ok, by rw [htr, hname]⟩
  · intro q hsetup hall
    obtain ⟨r, hr, htr⟩ := quota_all_success quotaPlan EACH q demoPool ⟨rfl, by decide⟩
      hsetup hall (by rw [(initCtx_quota quotaPlan EACH q demoPool ⟨rfl, by decide⟩).2.2.2.1];
                      decide) 6
      (by rw [(initCtx_quota quotaPlan EACH q demoPool ⟨rfl, by decide⟩).2.2.2.1]; decide)
    refine ⟨r, hr, ?_⟩
    rw [htr, (initCtx_quota quotaPlan EACH q demoPool ⟨rfl, by decide⟩).2.2.2.1]
    decide

/-- C23: in round-robin mode (no fixed zone, `each ≤ 0`) over a pool `ads` of `n` zones, at
every loop state reached by the run: the `t`-th create call logged for any target, `t < n`
(0-based), went to `ads[t]`, so the first call of every target went to `ads[0]`; and when
the current target has had `i < n` attempts so far (`i = 0` for a target just started,
after a success as well as after an abandoned target), the zone selected for the next
create call is `ads[i]`. -/
theorem first_cycle_in_pool_order (inst : Instance) (EACH : Bool) (p : Provider)
    (ads : List AvailabilityDomain) (hmode : inst.AvailabilityDomain = "" ∧ inst.Each ≤ 0)
    (hsum : inInt32 inst.Sum) (hlen : (ads.length : Int) ≤ 2147483647)
    (n : Nat) (s : LoopState)
    (hrun : runFor (initCtx inst EACH p ads) p n (initState inst (initCtx inst EACH p ads))
      = .ok s) :
    (∀ (k : Int) (t : Nat) (z : String), t < ads.length →
      (targetZones s.log k)[t]? = some z → z = zoneName ads t) ∧
    (s.pos < (initCtx inst EACH p ads).sum → attemptsFor s.log s.pos < ads.length →
      ∃ s1 ad, selectZone (initCtx inst EACH p ads) s = .ok s1 ∧
        sliceAt ads (attemptsFor s.log s.pos) = .ok ad ∧ s1.adName = ad.Name ∧
        ∀ s', iteration (initCtx inst EACH p ads) p s = .ok s' →
          targetZones s'.log s.pos = targetZones s.log s.pos ++ [ad.Name]) := by
  obtain ⟨c1, c2, c3, -, c5⟩ := initCtx_roundRobin inst EACH p ads hmode
  have hlen' : (((initCtx inst EACH p ads).ads.length : Nat) : Int) ≤ 2147483647 := by
    rw [c5]; exact hlen
  have hinv := runFor_inv (FirstCycleInv (initCtx inst EACH p ads))
    (fun s s' hs hlt hit => firstCycleInv_step c1 c2 hlen' (by rw [c3]; exact hsum.2)
      s s' hs hlt hit)
    n _ s (firstCycleInv_init inst _ c1 c2 hlen') hrun
  obtain ⟨hp0, -, hcur, hlogz⟩ := hinv
  rw [c5] at hcur hlogz
  refine ⟨hlogz, ?_⟩
  intro _ ha
  obtain ⟨a, b, e⟩ := hcur ha
  have had := sliceAt_zoneAt ads (attemptsFor s.log s.pos) (by omega) (by omega)
  have hsel := selectZone_roundRobin (c := initCtx inst EACH p ads) (s := s)
    (attemptsFor s.log s.pos : Int) c1 c2 (by rw [← e]; rfl) (by rw [a]; exact had)
  refine ⟨_, _, hsel, had, rfl, ?_⟩
  intro s' hit
  obtain ⟨t1, ok, hselt, -, -, -, hlg, -⟩ := iteration_ok hit
  rw [hsel] at hselt
  cases hselt
  rw [targetZones_step hlg s.pos, if_pos rfl]

/-- C22: in round-robin mode (no fixed zone, `each ≤ 0`) over a non-empty pool, for every
pass of the loop from a reachable state `s` to `s'`, with `u` the usable zones of `s`:
if the target index advances, the usable zones of `s'` are the whole pool and the skip
records are empty; if the pass stays at the target and is not the last of its cycle, the
usable zones are unchanged; if it stays at the target and ends the cycle (the cursor has
passed all of `u`), then the last `len u` logged create calls are the failed attempts of
this cycle, one in each zone of `u` in order, the usable zones of `s'` are, up to the order
in which the map is ranged over, exactly the zones of `u` whose attempt was not
zone-terminal, and the skip records are empty. -/
theorem cycle_end_rebuilds_usable (inst : Instance) (EACH : Bool) (p : Provider)
    (ads : List AvailabilityDomain) (hmode : inst.AvailabilityDomain = "" ∧ inst.Each ≤ 0)
    (hne : ads ≠ []) (hlen : (ads.length : Int) ≤ 2147483647)
    (hperm : ∀ i m, (p.mapOrder i m).Perm m) (n : Nat) (s s' : LoopState)
    (hrun : runFor (initCtx inst EACH p ads) p n (initState inst (initCtx inst EACH p ads))
      = .ok s)
    (hit : iteration (initCtx inst EACH p ads) p s = .ok s') :
    (s'.pos ≠ s.pos → s'.usableAds = ads ∧ s'.SKIP_RETRY_MAP = []) ∧
    (s'.pos = s.pos → eff s + 1 < s.usableAds.length → s'.usableAds = s.usableAds) ∧
    (s'.pos = s.pos → ¬ eff s + 1 < s.usableAds.length →
      (launches s'.log).drop (s'.calls - s.usableAds.length) =
        cycleCalls s.pos s.usableAds s.displayName s.usableAds.length ∧
      s'.usableAds.Perm (survivors p s.usableAds s.displayName
        (s'.calls - s.usableAds.length)) ∧
      s'.SKIP_RETRY_MAP = [] ∧ s'.adCount = s'.usableAds.length) := by
  obtain ⟨c1, c2, -, -, c5⟩ := initCtx_roundRobin inst EACH p ads hmode
  have hinv := rrInv_reachable inst EACH p ads hmode hne hlen hperm n s hrun
  have h := rr_usable_step c1 c2 (by rw [c5]; exact hlen) hperm hinv hit
  rw [c5] at h
  exact h

/-- C6, amended (failures that are service errors classified as retryable): with a
negative (unlimited) retry budget, target count 2, and a provider whose first three create
calls fail with an error that line 477 classifies as retryable and whose later create
calls all succeed, the run (once the preparation has succeeded) terminates, given five
passes of the loop, with `num = 2` after exactly 5 create calls (5 logged calls), two of
them successful: in fixed-zone mode, and in round-robin mode over any non-empty pool. -/
theorem unlimited_retry_converges (inst : Instance) (EACH : Bool) (p : Provider)
    (ads : List AvailabilityDomain)
    (hmode : inst.AvailabilityDomain ≠ "" ∨
      (inst.AvailabilityDomain = "" ∧ inst.Each ≤ 0 ∧ ads ≠ [] ∧
        (ads.length : Int) ≤ 2147483647 ∧ ∀ i m, (p.mapOrder i m).Perm m))
    (hretry : inst.Retry < 0) (hsum : inst.Sum = 2) (hsetup : SetupOk inst p)
    (hfail : ∀ i z d, i < 3 → ∃ e, p.LaunchInstance i z d = .error e ∧ classify e = .ok false)
    (hok : ∀ i z d, 3 ≤ i → ∃ created, p.LaunchInstance i z d = .ok created)
    (fuel : Nat) (hfuel : 5 ≤ fuel) :
    ∃ r, LaunchInstances inst EACH p ads fuel = .ok (some r) ∧ r.sum = 2 ∧ r.num = 2 ∧
      r.calls = 5 ∧ (launches r.log).length = 5 ∧ successes r.log = 2 := by
  have hc : ((initCtx inst EACH p ads).AD_NOT_FIXED = false ∨
      ((initCtx inst EACH p ads).AD_NOT_FIXED = true ∧
        (initCtx inst EACH p ads).EACH_AD = false ∧ (initCtx inst EACH p ads).ads ≠ [] ∧
        (((initCtx inst EACH p ads).ads.length : Nat) : Int) ≤ 2147483647 ∧
        ∀ i m, (p.mapOrder i m).Perm m)) ∧
      (initCtx inst EACH p ads).retry < 0 ∧ (initCtx inst EACH p ads).sum = 2 := by
    rcases hmode with hfix | ⟨a1, a2, a3, a4, a5⟩
    · obtain ⟨b1, b2⟩ := initCtx_fixed_fields inst EACH p ads hfix
      exact ⟨Or.inl (initCtx_fixed inst EACH p ads hfix), by rw [b2]; exact hretry,
        by rw [b1]; exact hsum⟩
    · obtain ⟨c1, c2, c3, c4, c5⟩ := initCtx_roundRobin inst EACH p ads ⟨a1, a2⟩
      exact ⟨Or.inr ⟨c1, c2, by rw [c5]; exact a3, by rw [c5]; exact a4, a5⟩,
        by rw [c4]; exact hretry, by rw [c3]; exact hsum⟩
  obtain ⟨hm, hr, hs2⟩ := hc
  have hinit : ConvergeInv (initCtx inst EACH p ads) p
      (initState inst (initCtx inst EACH p ads)) := by
    refine ⟨?_, Nat.zero_le _, fun _ => ⟨rfl, rfl⟩, fun h => absurd h (by simp [initState]),
      ⟨by simp [initState], by simp [initState], by rw [hs2]; simp [initState],
       by rw [successes_init]; rfl⟩, ?_⟩
    swap
    · have := zoneTrace_init inst (initCtx inst EACH p ads)
      simp only [zoneTrace, List.map_eq_nil_iff] at this
      rw [this]; rfl
    intro h1
    rcases hm with hfix | ⟨-, h2, hne, hlen, -⟩
    · rw [hfix] at h1; cases h1
    · exact rrInv_init inst _ p h1 h2 hne hlen
  obtain ⟨s', hloop, hinv, hdone⟩ :=
    loop_inv (ConvergeInv (initCtx inst EACH p ads) p) (fun s => 5 - s.calls)
      (fun s hs hlt => convergeInv_step hm hr hs2 hfail hok s hs hlt)
      fuel (initState inst (initCtx inst EACH p ads)) hinit (by simpa [initState] using hfuel)
  obtain ⟨-, hc5, hlow, hhigh, ⟨-, -, -, hsx⟩, hll⟩ := hinv
  rw [hs2] at hdone
  have h3 : 3 ≤ s'.calls := by
    by_contra hcon
    have := (hlow (by omega)).1
    omega
  obtain ⟨a, b⟩ := hhigh h3
  have hcalls5 : s'.calls = 5 := by omega
  refine ⟨RunResult.mk (initCtx inst EACH p ads).sum s'.num s'.calls s'.log, ?_, hs2, ?_,
    hcalls5, ?_, ?_⟩
  · rw [LaunchInstances_of_setup hsetup, hloop]
  · show s'.num = 2
    omega
  · show (launches s'.log).length = 5
    rw [hll, hcalls5]
  · show successes s'.log = 2
    omega

/-- Witness for the amended C6: the two-target round-robin plan with retry budget -1 over the
three-zone pool, on a provider whose first three create calls fail with the service
error 500. -/
theorem unlimited_retry_converges_witness :
    ∃ r, LaunchInstances unlimitedPlan false flakyProvider demoPool 5 = .ok (some r) ∧
      r.sum = 2 ∧ r.num = 2 ∧ r.calls = 5 ∧ (launches r.log).length = 5 ∧
      successes r.log = 2 :=
  unlimited_retry_converges unlimitedPlan false flakyProvider demoPool
    (Or.inr ⟨rfl, by decide, by decide, by decide, fun _ _ => List.Perm.refl _⟩)
    (by decide) rfl ⟨⟨"image", rfl⟩, fun h => absurd h (by decide), rfl⟩
    (fun i z d hi => ⟨.service err500, by simp [flakyProvider, hi], rfl⟩)
    (fun i z d hi => ⟨{ Id := "ocid1.instance", DisplayName := d, AvailabilityDomain := z }, by
      have : ¬ i < 3 := by omega
      simp [flakyProvider, this]⟩)
    5 (Nat.le_refl 5)

/-- C28, as stated, fails in quota-per-zone mode once `failTimes` has wrapped around: with
quota 1, the one-zone pool `[z0]`, an unlimited retry budget and every create call failing
with the retryable service error 500, the pass after `2 ^ 32` failed calls reads `ads[1]`
and the run faults with an index out of range. -/
theorem quota_cursor_leaves_pool :
    classify (.service err500) = .ok false ∧
    LaunchInstances unlimitedQuotaPlan false (failingProvider err500) [⟨"z0"⟩]
      (4294967295 + 1 + 1) = .error Fault.indexOutOfRange := by
  refine ⟨rfl, ?_⟩
  obtain ⟨s, hrun, hpos, hft, hidx, hname, hcalls⟩ :=
    quota_stuck (c := initCtx unlimitedQuotaPlan false (failingProvider err500) [⟨"z0"⟩])
      (p := failingProvider err500) unlimitedQuotaPlan rfl rfl rfl (by decide) (by decide)
      ⟨"z0"⟩ [] rfl (fun _ _ _ => ⟨.service err500, rfl, rfl⟩) 4294967295 (by decide)
  have hft0 : s.failTimes = 0 := by rw [hft]; decide
  have hsel : selectZone (initCtx unlimitedQuotaPlan false (failingProvider err500)
      [⟨"z0"⟩]) s = .error Fault.indexOutOfRange := by
    have hsl : sliceAt (initCtx unlimitedQuotaPlan false (failingProvider err500)
        [⟨"z0"⟩]).ads s.adIndex = .error Fault.indexOutOfRange := by rw [hidx]; rfl
    have hcond : Int.tmod s.pos (initCtx unlimitedQuotaPlan false (failingProvider err500)
        [⟨"z0"⟩]).each = 0 ∧ s.failTimes = 0 := by rw [hpos, hft0]; exact ⟨rfl, rfl⟩
    have a1 : (initCtx unlimitedQuotaPlan false (failingProvider err500)
        [⟨"z0"⟩]).AD_NOT_FIXED = true := rfl
    have a2 : (initCtx unlimitedQuotaPlan false (failingProvider err500)
        [⟨"z0"⟩]).EACH_AD = true := rfl
    simp only [selectZone, a1, a2, if_true]
    rw [if_pos hcond, hsl]
  have hit : iteration (initCtx unlimitedQuotaPlan false (failingProvider err500) [⟨"z0"⟩])
      (failingProvider err500) s = .error Fault.indexOutOfRange := by
    simp only [iteration, hsel]
  have hsetup : SetupOk unlimitedQuotaPlan (failingProvider err500) :=
    ⟨⟨"image", rfl⟩, fun h => absurd h (by decide), rfl⟩
  rw [LaunchInstances_of_setup hsetup,
    loop_error_of_runFor (4294967295 + 1) _ s hrun (by rw [hpos]; decide) hit]

/-- C28, amended (in quota-per-zone mode: fewer than `2 ^ 32` create calls so far): for
every non-empty pool and every provider, at every reachable loop state from which the
loop runs another pass, the zone selection of that pass succeeds and the pass does not
fault on an index; in round-robin mode `adCount` equals the number of usable zones and
every key of the skip records is an index of a usable zone. -/
theorem indices_in_bounds (inst : Instance) (EACH : Bool) (p : Provider)
    (ads : List AvailabilityDomain) (hne : ads ≠ []) (hlen : (ads.length : Int) ≤ 2147483647)
    (hperm : ∀ i m, (p.mapOrder i m).Perm m) (n : Nat) (s : LoopState)
    (hrun : runFor (initCtx inst EACH p ads) p n (initState inst (initCtx inst EACH p ads))
      = .ok s)
    (hlt : s.pos < (initCtx inst EACH p ads).sum)
    (hcalls : inst.AvailabilityDomain = "" → 0 < inst.Each → s.calls < 4294967296) :
    (∃ s1, selectZone (initCtx inst EACH p ads) s = .ok s1) ∧
    iteration (initCtx inst EACH p ads) p s ≠ .error Fault.indexOutOfRange ∧
    (inst.AvailabilityDomain = "" → inst.Each ≤ 0 →
      s.adCount = s.usableAds.length ∧ 0 ≤ eff s ∧ eff s < s.usableAds.length ∧
      ∀ e ∈ s.SKIP_RETRY_MAP, 0 ≤ e.1 ∧ e.1 < s.usableAds.length) := by
  by_cases hfix : inst.AvailabilityDomain = ""
  · by_cases hq : 0 < inst.Each
    · obtain ⟨c1, c2, c3, c4, -, c6⟩ := initCtx_quota inst EACH p ads ⟨hfix, hq⟩
      have hk : 0 < (initCtx inst EACH p ads).each := by rw [c3]; exact hq
      have hsm : (initCtx inst EACH p ads).sum = wrap32 ((initCtx inst EACH p ads).each *
          wrap32 (initCtx inst EACH p ads).ads.length) := by
        rw [c3, c6]; exact c4
      have hinv := runFor_inv (QuotaRunInv (initCtx inst EACH p ads))
        (fun s s' hs hlt hit => quotaRunInv_step c1 c2 hk hsm s s' hs hlt hit)
        n _ s (quotaRunInv_init inst _) hrun
      obtain ⟨⟨j, hj, hqi⟩, -⟩ := hinv (hcalls hfix hq)
      have hc := hcalls hfix hq
      obtain ⟨s1, ad, hsel, -⟩ := quota_select c1 c2 hk hsm hqi hlt (by omega)
      exact ⟨⟨s1, hsel⟩, iteration_counted_no_index (Or.inr c2) hsel,
        fun _ h => absurd hq (by omega)⟩
    · have hq' : inst.Each ≤ 0 := by omega
      obtain ⟨c1, c2, -, -, c5⟩ := initCtx_roundRobin inst EACH p ads ⟨hfix, hq'⟩
      have hlen' : (((initCtx inst EACH p ads).ads.length : Nat) : Int) ≤ 2147483647 := by
        rw [c5]; exact hlen
      have hinv := rrInv_reachable inst EACH p ads ⟨hfix, hq'⟩ hne hlen hperm n s hrun
      obtain ⟨s1, hsel, e0, e1, -⟩ := rr_select c1 c2 hlen' hinv
      exact ⟨⟨s1, hsel⟩, iteration_rr_no_index c1 c2 hlen' hperm hinv,
        fun _ _ => ⟨hinv.2.2.1, e0, e1, rrInv_keys hlen' hinv⟩⟩
  · have c1 := initCtx_fixed inst EACH p ads hfix
    exact ⟨⟨s, selectZone_fixed c1 s⟩,
      iteration_counted_no_index (Or.inl c1) (selectZone_fixed c1 s),
      fun h => absurd h hfix⟩

/-- C27, as stated, fails for the retry budget `r = 2 ^ 31 - 1`: in fixed-zone mode with
one target, a non-empty pool and every create call failing with the retryable service
error 500, the test `failTimes <= retry` holds for every `int32` value of `failTimes`, and
the loop does not terminate, whatever number of passes it is given. -/
theorem max_retry_never_terminates :
    0 ≤ maxRetryPlan.Retry ∧ demoPool ≠ [] ∧ classify (.service err500) = .ok false ∧
    ∀ fuel, LaunchInstances maxRetryPlan false (failingProvider err500) demoPool fuel
      = .ok none := by
  refine ⟨by decide, by decide, rfl, fun fuel => ?_⟩
  have hsetup : SetupOk maxRetryPlan (failingProvider err500) :=
    ⟨⟨"image", rfl⟩, fun h => absurd h (by decide), rfl⟩
  rw [LaunchInstances_of_setup hsetup,
    max_retry_stuck (c := initCtx maxRetryPlan false (failingProvider err500) demoPool)
      (p := failingProvider err500) rfl rfl (fun _ _ _ => ⟨.service err500, rfl, rfl⟩) fuel _
      (by decide)]

/-- C27, amended (`0 ≤ r ≤ 2 ^ 31 - 2`): for every retry budget `r` in that range, every
non-empty pool of `n` zones and every provider whose create calls succeed or fail with a
service error, `LaunchInstances` (once the preparation has succeeded) terminates, given
`sum * (r + 1) * n` passes of the loop: each target takes at most `r + 1` create calls in
fixed-zone and quota-per-zone modes and at most `(r + 1) * n` in round-robin mode, and
the run makes at most `sum * (r + 1) * n` create calls. -/
theorem bounded_retry_terminates (inst : Instance) (EACH : Bool) (p : Provider)
    (ads : List AvailabilityDomain)
    (hr : 0 ≤ inst.Retry ∧ inst.Retry ≤ 2147483646) (hsum : inInt32 inst.Sum)
    (hne : ads ≠ []) (hlen : (ads.length : Int) ≤ 2147483647)
    (hperm : ∀ i m, (p.mapOrder i m).Perm m) (hsetup : SetupOk inst p)
    (hserv : ∀ i z d e, p.LaunchInstance i z d = .error e → ∃ b, classify e = .ok b)
    (fuel : Nat)
    (hfuel : (initCtx inst EACH p ads).sum.toNat * ((inst.Retry + 1).toNat * ads.length)
      ≤ fuel) :
    ∃ r, LaunchInstances inst EACH p ads fuel = .ok (some r) ∧
      (∀ k, (attemptsFor r.log k : Int) ≤ (inst.Retry + 1) *
        (if inst.AvailabilityDomain = "" ∧ inst.Each ≤ 0 then (ads.length : Int) else 1)) ∧
      (r.calls : Int) ≤ (r.sum.toNat : Int) * ((inst.Retry + 1) * ads.length) := by
  have hok := modeOk_initCtx inst EACH p ads hne hlen hperm
  have hsumle := initCtx_sum_le inst EACH p ads hsum
  have hr0 : 0 ≤ (initCtx inst EACH p ads).retry := hr.1
  have hr1 : (initCtx inst EACH p ads).retry ≤ 2147483646 := hr.2
  have hinit := termInv_init inst (initCtx inst EACH p ads) p hok hr0
  have hpos : 0 < ads.length := List.length_pos.mpr hne
  have hwidth := width_initCtx inst EACH p ads
  have hW : (width (initCtx inst EACH p ads) : Int) ≤ ads.length := by
    rw [hwidth]
    split
    · exact Int.le_refl _
    · exact_mod_cast hpos
  have hT : budget (initCtx inst EACH p ads) ≤ (inst.Retry + 1) * ads.length :=
    Int.mul_le_mul_of_nonneg_left hW (by omega)
  have hAT : ((initCtx inst EACH p ads).sum.toNat : Int) * budget (initCtx inst EACH p ads) ≤
      ((initCtx inst EACH p ads).sum.toNat : Int) * ((inst.Retry + 1) * ads.length) :=
    Int.mul_le_mul_of_nonneg_left hT (Int.ofNat_nonneg _)
  have hμ : (potential (initCtx inst EACH p ads)
      (initState inst (initCtx inst EACH p ads))).toNat ≤ fuel := by
    have h7 := hinit.1.2.2.2.2.2.2.1
    have hc0 : ((initState inst (initCtx inst EACH p ads)).calls : Int) = 0 := rfl
    rw [hc0, Int.zero_add] at h7
    have hcast : (((initCtx inst EACH p ads).sum.toNat *
        ((inst.Retry + 1).toNat * ads.length) : Nat) : Int) =
        ((initCtx inst EACH p ads).sum.toNat : Int) * ((inst.Retry + 1) * ads.length) := by
      push_cast
      rw [Int.toNat_of_nonneg (by omega : 0 ≤ inst.Retry + 1)]
    have hf : (((initCtx inst EACH p ads).sum.toNat *
        ((inst.Retry + 1).toNat * ads.length) : Nat) : Int) ≤ (fuel : Int) := by
      exact_mod_cast hfuel
    rw [Int.toNat_le]
    calc potential (initCtx inst EACH p ads) (initState inst (initCtx inst EACH p ads))
        ≤ ((initCtx inst EACH p ads).sum.toNat : Int) * budget (initCtx inst EACH p ads) := h7
      _ ≤ ((initCtx inst EACH p ads).sum.toNat : Int) * ((inst.Retry + 1) * ads.length) := hAT
      _ = _ := hcast.symm
      _ ≤ fuel := hf
  obtain ⟨s', hloop, hinv, hdone⟩ :=
    loop_inv (TermInv (initCtx inst EACH p ads) p)
      (fun s => (potential (initCtx inst EACH p ads) s).toNat)
      (fun s hs hlt => termInv_step hok hr0 hr1 hsumle hserv s hs hlt)
      fuel (initState inst (initCtx inst EACH p ads)) hinit hμ
  obtain ⟨⟨hp0, hf0, hfr, hc0, hcw, hexit, hpot, hcur, hprev, hlater⟩, -⟩ := hinv
  obtain ⟨e1, e2⟩ := hexit hdone
  have hT0 : 0 ≤ budget (initCtx inst EACH p ads) := by
    unfold budget
    exact Int.mul_nonneg (by omega) (Int.ofNat_nonneg _)
  refine ⟨RunResult.mk (initCtx inst EACH p ads).sum s'.num s'.calls s'.log, ?_, ?_, ?_⟩
  · rw [LaunchInstances_of_setup hsetup, hloop]
  · intro k
    show (attemptsFor s'.log k : Int) ≤ _
    have hb : budget (initCtx inst EACH p ads) = (inst.Retry + 1) *
        (if inst.AvailabilityDomain = "" ∧ inst.Each ≤ 0 then (ads.length : Int) else 1) := by
      unfold budget
      rw [hwidth]
      split <;> rfl
    rw [← hb]
    rcases lt_trichotomy k s'.pos with h | h | h
    · exact hprev k h
    · rw [h]
      rw [e1, e2] at hcur
      simp only [Int.zero_mul, Int.add_zero] at hcur
      omega
    · rw [hlater k h]
      exact_mod_cast hT0
  · show (s'.calls : Int) ≤
      ((initCtx inst EACH p ads).sum.toNat : Int) * ((inst.Retry + 1) * ads.length)
    have hN : (((initCtx inst EACH p ads).sum - s'.pos).toNat : Int) = 0 := by omega
    have hp : potential (initCtx inst EACH p ads) s' = 0 := by
      unfold potential
      rw [hN, e1, e2]
      simp
    rw [hp, Int.add_zero] at hpot
    exact le_trans hpot hAT

/-- Witness for the amended C27: two targets in a fixed zone with retry budget 2, every
create call failing with the service error 500. -/
theorem bounded_retry_terminates_witness :
    ∃ r, LaunchInstances twoTargetPlan false (failingProvider err500) demoPool 18
        = .ok (some r) ∧
      (∀ k, (attemptsFor r.log k : Int) ≤ (twoTargetPlan.Retry + 1) *
        (if twoTargetPlan.AvailabilityDomain = "" ∧ twoTargetPlan.Each ≤ 0
          then (demoPool.length : Int) else 1)) ∧
      (r.calls : Int) ≤ (r.sum.toNat : Int) * ((twoTargetPlan.Retry + 1) * demoPool.length) :=
  bounded_retry_terminates twoTargetPlan false (failingProvider err500) demoPool
    (by decide) (by decide) (by decide) (by decide) (fun _ _ => List.Perm.refl _)
    ⟨⟨"image", rfl⟩, fun h => absurd h (by decide), rfl⟩
    (fun _ _ _ e h => by cases h; exact ⟨false, rfl⟩) 18 (by decide)

/-- C6, as stated, fails for retryable errors that are not provider service errors: with
an unlimited retry budget, target count 2, and a provider whose first three create calls
time out and whose later create calls succeed, the run panics while it classifies the
first failure (line 477), in round-robin mode and in fixed-zone mode: it makes one create
call and returns nothing. -/
theorem timeouts_stop_unlimited_retry :
    (∀ i z d, i < 3 → timeoutFirstProvider.LaunchInstance i z d =
      .error (.other "net/http: timeout")) ∧
    (∀ i z d, 3 ≤ i → ∃ created, timeoutFirstProvider.LaunchInstance i z d = .ok created) ∧
    (∀ fuel, LaunchInstances unlimitedPlan false timeoutFirstProvider demoPool (fuel + 1) =
      .error Fault.nilDereference) ∧
    (∀ fuel, LaunchInstances unlimitedFixedPlan false timeoutFirstProvider demoPool (fuel + 1) =
      .error Fault.nilDereference) := by
  refine ⟨?_, ?_, fun fuel => rfl, fun fuel => rfl⟩
  · intro i z d hi
    simp [timeoutFirstProvider, hi]
  · intro i z d hi
    have : ¬ i < 3 := by omega
    exact ⟨{ Id := "ocid1.instance", DisplayName := d, AvailabilityDomain := z }, by
      simp [timeoutFirstProvider, this]⟩

/-- Witness for C22: the run of the two-target round-robin plan over the pool
`[z0, z1, z2]` in which `z0` fails retryably, `z1` zone-terminally and `z2` retryably. The
third pass ends the cycle and stays at target 0: the usable zones become `[z0, z2]`, the
zones whose attempt was not zone-terminal, and the skip records are cleared. -/
theorem cycle_end_rebuilds_usable_witness :
    (cycleState3.pos = cycleState2.pos ∧ ¬ eff cycleState2 + 1 < cycleState2.usableAds.length ∧
      cycleState2.usableAds = [⟨"z0"⟩, ⟨"z1"⟩, ⟨"z2"⟩] ∧
      cycleState2.SKIP_RETRY_MAP = [(0, false), (1, true)] ∧
      cycleState3.usableAds = [⟨"z0"⟩, ⟨"z2"⟩] ∧
      survivors cycleProvider cycleState2.usableAds cycleState2.displayName
        (cycleState3.calls - cycleState2.usableAds.length) = [⟨"z0"⟩, ⟨"z2"⟩]) ∧
    ((cycleState3.pos ≠ cycleState2.pos →
        cycleState3.usableAds = demoPool ∧ cycleState3.SKIP_RETRY_MAP = []) ∧
      (cycleState3.pos = cycleState2.pos →
        eff cycleState2 + 1 < cycleState2.usableAds.length →
        cycleState3.usableAds = cycleState2.usableAds) ∧
      (cycleState3.pos = cycleState2.pos →
        ¬ eff cycleState2 + 1 < cycleState2.usableAds.length →
        (launches cycleState3.log).drop (cycleState3.calls - cycleState2.usableAds.length) =
          cycleCalls cycleState2.pos cycleState2.usableAds cycleState2.displayName
            cycleState2.usableAds.length ∧
        cycleState3.usableAds.Perm (survivors cycleProvider cycleState2.usableAds
          cycleState2.displayName (cycleState3.calls - cycleState2.usableAds.length)) ∧
        cycleState3.SKIP_RETRY_MAP = [] ∧
        cycleState3.adCount = cycleState3.usableAds.length)) :=
  ⟨⟨rfl, by decide, rfl, rfl, rfl, by decide⟩,
   cycle_end_rebuilds_usable roundRobinPlan false cycleProvider demoPool
    ⟨rfl, by decide⟩ (by decide) (by decide) (fun _ _ => List.Perm.refl _) 2
    cycleState2 cycleState3 rfl rfl⟩

/-- Witness for C23: the run of the three-target round-robin plan with retry budget 0 over
the pool `[z0, z1, z2]`, after four passes. Target 0 was tried in `z0`, `z1`, `z2`, all
failing, and given up; the first attempt of target 1 went to `z0` and succeeded; the zone
selected for the first attempt of target 2 is `z0`. -/
theorem first_cycle_in_pool_order_witness :
    (targetZones abandonState4.log 0 = ["z0", "z1", "z2"] ∧
      targetZones abandonState4.log 1 = ["z0"] ∧ abandonState4.pos = 2 ∧
      abandonState4.pos < (initCtx abandonPlan false cycleProvider demoPool).sum ∧
      attemptsFor abandonState4.log abandonState4.pos = 0 ∧
      zoneName demoPool 0 = "z0" ∧ zoneName demoPool 1 = "z1" ∧ zoneName demoPool 2 = "z2") ∧
    ((∀ (k : Int) (t : Nat) (z : String), t < demoPool.length →
        (targetZones abandonState4.log k)[t]? = some z → z = zoneName demoPool t) ∧
      (abandonState4.pos < (initCtx abandonPlan false cycleProvider demoPool).sum →
        attemptsFor abandonState4.log abandonState4.pos < demoPool.length →
        ∃ s1 ad, selectZone (initCtx abandonPlan false cycleProvider demoPool) abandonState4
            = .ok s1 ∧
          sliceAt demoPool (attemptsFor abandonState4.log abandonState4.pos) = .ok ad ∧
          s1.adName = ad.Name ∧
          ∀ s', iteration (initCtx abandonPlan false cycleProvider demoPool) cycleProvider
              abandonState4 = .ok s' →
            targetZones s'.log abandonState4.pos =
              targetZones abandonState4.log abandonState4.pos ++ [ad.Name])) :=
  ⟨⟨by decide, by decide, rfl, by decide, by decide, rfl, rfl, rfl⟩,
   first_cycle_in_pool_order abandonPlan false cycleProvider demoPool ⟨rfl, by decide⟩
    (by decide) (by decide) 4 abandonState4 rfl⟩

/-- Witness for the amended C28, in both modes it covers. Round-robin: the run of
`roundRobinPlan` on `cycleProvider` after two failed passes, with skip records for the
zones 0 and 1; the next pass ends the cycle and ranges over the records. Quota-per-zone:
the run of `unlimitedQuotaPlan` after two failed create calls, far below `2 ^ 32`. -/
theorem indices_in_bounds_witness :
    (cycleState2.SKIP_RETRY_MAP = [(0, false), (1, true)] ∧ eff cycleState2 = 2 ∧
      cycleState2.usableAds.length = 3 ∧
      iteration (initCtx roundRobinPlan false cycleProvider demoPool) cycleProvider cycleState2
        = .ok cycleState3 ∧
      quotaState2.failTimes = 2 ∧ quotaState2.calls = 2 ∧ quotaState2.adIndex = 1) ∧
    ((∃ s1, selectZone (initCtx roundRobinPlan false cycleProvider demoPool) cycleState2
        = .ok s1) ∧
      iteration (initCtx roundRobinPlan false cycleProvider demoPool) cycleProvider cycleState2
        ≠ .error Fault.indexOutOfRange ∧
      (roundRobinPlan.AvailabilityDomain = "" → roundRobinPlan.Each ≤ 0 →
        cycleState2.adCount = cycleState2.usableAds.length ∧
        0 ≤ eff cycleState2 ∧ eff cycleState2 < cycleState2.usableAds.length ∧
        ∀ e ∈ cycleState2.SKIP_RETRY_MAP,
          0 ≤ e.1 ∧ e.1 < cycleState2.usableAds.length)) ∧
    ((∃ s1, selectZone (initCtx unlimitedQuotaPlan false (failingProvider err500) demoPool)
        quotaState2 = .ok s1) ∧
      iteration (initCtx unlimitedQuotaPlan false (failingProvider err500) demoPool)
        (failingProvider err500) quotaState2 ≠ .error Fault.indexOutOfRange ∧
      (unlimitedQuotaPlan.AvailabilityDomain = "" → unlimitedQuotaPlan.Each ≤ 0 →
        quotaState2.adCount = quotaState2.usableAds.length ∧
        0 ≤ eff quotaState2 ∧ eff quotaState2 < quotaState2.usableAds.length ∧
        ∀ e ∈ quotaState2.SKIP_RETRY_MAP,
          0 ≤ e.1 ∧ e.1 < quotaState2.usableAds.length)) :=
  ⟨⟨rfl, by decide, rfl, rfl, rfl, rfl, rfl⟩,
   indices_in_bounds roundRobinPlan false cycleProvider demoPool (by decide) (by decide)
    (fun _ _ => List.Perm.refl _) 2 cycleState2 rfl (by decide)
    (fun _ h => absurd h (by decide)),
   indices_in_bounds unlimitedQuotaPlan false (failingProvider err500) demoPool (by decide)
    (by decide) (fun _ _ => List.Perm.refl _) 2 quotaState2 rfl (by decide)
    (fun _ _ => by decide)⟩

/-- C25, amended: a pass of the loop whose create call fails with an error classified `b`
(`true` = zone-terminal) adds to the log, in this order: the create call; the failure
notification, when the error is zone-terminal and per-attempt notification is enabled (a
retryable failure is only printed); the sleep; and the "trying" message for the next
target, when the pass gives its target up, a further target remains and notification is
enabled. So the pass sends exactly one failure notification in the first case and none
otherwise, and no send other than these two. -/
theorem failure_notification_count (c : Ctx) (p : Provider) (s s1 s' : LoopState)
    (e : LaunchError) (b : Bool) (hsel : selectZone c s = .ok s1)
    (hl : p.LaunchInstance s1.calls s1.adName s1.displayName = .error e)
    (hc : classify e = .ok b) (hit : iteration c p s = .ok s') :
    failureNotes s'.log =
      failureNotes s.log + (if b = true ∧ c.EACH = true then 1 else 0) ∧
    s'.log = s.log ++ [Event.launch s.pos s1.adName s.displayName false] ++
      (if b = true ∧ c.EACH = true
        then [Event.send (Text.createFailed (wrap32 (s.pos + 1)) (errInfoOf e) s1.adName
                (wrap32 (s.runTimes + 1)))]
        else []) ++
      [Event.sleep c.minTime c.maxTime] ++
      (if s'.pos ≠ s.pos ∧ s'.pos < c.sum ∧ c.EACH = true
        then [Event.send (Text.trying (wrap32 (s'.pos + 1)) c.sum)] else []) := by
  rw [iteration_failure hsel hl hc] at hit
  obtain ⟨f1, -, -, f4, f5, -, f7, -⟩ := selectZone_fields hsel
  constructor
  · rw [failureNotes_afterFailure hit]
    simp only [recordFailure, called, f4]
    split <;> simp [failureNotes_append, failureNotes]
  · rw [afterFailure_log hit]
    have hp : (recordFailure c (called s1 false) b (errInfoOf e)).pos = s.pos := f1
    rw [hp]
    congr 1
    simp only [recordFailure, called, f1, f4, f5, f7]
    split <;> simp

/-- Witness for the amended C25, with per-attempt notification enabled, in a fixed zone
with two targets: a first pass whose create call fails zone-terminally (service error 400)
sends the failure notification and, the target being given up, the "trying" message for
target 2; a first pass whose create call fails retryably (service error 500) with retry
budget 0 sends no failure notification and the "trying" message for target 2. -/
theorem failure_notification_count_witness :
    (∃ s', iteration (initCtx demoPlan true terminalProvider demoPool) terminalProvider
        (initState demoPlan (initCtx demoPlan true terminalProvider demoPool)) = .ok s' ∧
      failureNotes s'.log =
        failureNotes (initState demoPlan (initCtx demoPlan true terminalProvider demoPool)).log +
          (if true = true ∧ (initCtx demoPlan true terminalProvider demoPool).EACH = true
           then 1 else 0) ∧
      s'.log = [Event.send (Text.trying 1 2), Event.launch 0 "AD-1" "vm-1" false,
        Event.send (Text.createFailed 1 "Service limit exceeded." "AD-1" 1),
        Event.sleep 1 5, Event.send (Text.trying 2 2)]) ∧
    (∃ s', iteration (initCtx noRetryPlan true (failingProvider err500) demoPool)
        (failingProvider err500)
        (initState noRetryPlan (initCtx noRetryPlan true (failingProvider err500) demoPool))
        = .ok s' ∧
      failureNotes s'.log =
        failureNotes (initState noRetryPlan
          (initCtx noRetryPlan true (failingProvider err500) demoPool)).log +
          (if false = true ∧
              (initCtx noRetryPlan true (failingProvider err500) demoPool).EACH = true
           then 1 else 0) ∧
      s'.log = [Event.send (Text.trying 1 2), Event.launch 0 "AD-1" "vm-1" false,
        Event.sleep 1 5, Event.send (Text.trying 2 2)]) :=
  ⟨⟨_, rfl, (failure_notification_count (initCtx demoPlan true terminalProvider demoPool)
      terminalProvider (initState demoPlan (initCtx demoPlan true terminalProvider demoPool))
      _ _ (.service err400) true rfl rfl rfl rfl).1,
    (failure_notification_count (initCtx demoPlan true terminalProvider demoPool)
      terminalProvider (initState demoPlan (initCtx demoPlan true terminalProvider demoPool))
      _ _ (.service err400) true rfl rfl rfl rfl).2.trans rfl⟩,
   ⟨_, rfl, (failure_notification_count
      (initCtx noRetryPlan true (failingProvider err500) demoPool) (failingProvider err500)
      (initState noRetryPlan (initCtx noRetryPlan true (failingProvider err500) demoPool))
      _ _ (.service err500) false rfl rfl rfl rfl).1,
    (failure_notification_count
      (initCtx noRetryPlan true (failingProvider err500) demoPool) (failingProvider err500)
      (initState noRetryPlan (initCtx noRetryPlan true (failingProvider err500) demoPool))
      _ _ (.service err500) false rfl rfl rfl rfl).2.trans rfl⟩⟩

/-- C26, as stated, fails for the batch's failure figure: two runs of a one-target plan
each return the pair `(1, 1)`, with `0 ≤ num ≤ sum`; the goroutines add the pairs to the
totals without synchronisation, and in the interleaving in which both read `totalSUM`
before either writes it, while their updates of `totalNUM` follow one another, the totals
come out as `(1, 2)` and the failure figure `totalSUM-totalNUM` of line 904 is `-1`. -/
theorem batch_failure_figure_negative :
    (∃ r, LaunchInstances oneShotPlan false demoProvider demoPool 1 = .ok (some r) ∧
      r.sum = 1 ∧ r.num = 1 ∧ 0 ≤ r.sum - r.num) ∧
    interleave [0, 1, 0, 1, 0, 0, 1, 1] ⟨0, 0⟩ (workers [(1, 1), (1, 1)]) =
      (⟨1, 2⟩, [⟨1, 1, 4, 0⟩, ⟨1, 1, 4, 1⟩]) ∧
    failureFigure ⟨1, 2⟩ = -1 := by
  refine ⟨⟨_, rfl, rfl, rfl, by decide⟩, by decide, by decide⟩

/-- Witness for the amended C3: quota 2 over the three-zone pool, after four passes with
three failures and one success. The four create calls made so far, for the targets 0 and
1, went to `z0`, and the zone selected for target 2 is `z1`. -/
theorem quota_zone_by_target_witness :
    (zoneTrace quotaState4.log =
        [(0, "z0", false), (0, "z0", false), (1, "z0", false), (1, "z0", true)] ∧
      quotaState4.pos = 2 ∧
      ∃ s1, selectZone (initCtx quotaPlan false cycleProvider demoPool) quotaState4 = .ok s1 ∧
        s1.adName = "z1") ∧
    ((∀ e ∈ zoneTrace quotaState4.log, e.2.1 = zoneName demoPool (e.1 / quotaPlan.Each)) ∧
    (quotaState4.pos < (initCtx quotaPlan false cycleProvider demoPool).sum →
      ∃ s1 ad, selectZone (initCtx quotaPlan false cycleProvider demoPool) quotaState4
          = .ok s1 ∧
        sliceAt demoPool (quotaState4.pos / quotaPlan.Each) = .ok ad ∧
        s1.adName = ad.Name ∧
        ∀ s', iteration (initCtx quotaPlan false cycleProvider demoPool) cycleProvider
            quotaState4 = .ok s' →
          ∃ ok, zoneTrace s'.log = zoneTrace quotaState4.log ++ [(quotaState4.pos, ad.Name, ok)]) ∧
    (∀ q : Provider, SetupOk quotaPlan q →
      (∀ i z d, ∃ created, q.LaunchInstance i z d = .ok created) →
      ∃ r, LaunchInstances quotaPlan false q demoPool 6 = .ok (some r) ∧
        zoneTrace r.log = [(0, "z0", true), (1, "z0", true), (2, "z1", true),
          (3, "z1", true), (4, "z2", true), (5, "z2", true)])) :=
  ⟨⟨by decide, rfl, _, rfl, rfl⟩,
   quota_zone_by_target quotaPlan false cycleProvider demoPool ⟨rfl, by decide⟩ 4 quotaState4
    rfl (by decide)⟩

end OciHelp
